import Mathlib

/-!
# Coevolution core of `coco`: archive ring buffer, predictor evolution, fitness pipeline

A shallow embedding of `src/archive.h`, `src/predictors.c`, `src/fitness.c` and the command
line reader of `src/config.c`.

Conventions of the embedding

* C `int` values are mathematical integers (`Int`); C's truncating `%` is `Int.tmod`.
  The `int` sum `arc->pointer + index` of `arc_real_index`, whose operand `index` is any
  `int` of the caller, is taken in 32 bit two's complement (`c_int_wrap`); signed overflow
  itself is undefined in C.
* A C array is a `List`; an access outside the array is undefined behaviour and is
  rendered as `none` in the `Option` monad.
* The pseudo random generator is an explicit stream of raw draws that is threaded
  through every function that draws.
* Functions of the C library (`strtol`, `strtod`, ...) are parameters of the embedding.
-/

namespace Coco

/-! ## Generic chromosome (`ga.h`, not among the sources) -/

/-- Modelled from the spec: the generic chromosome of `ga.h` (absent from the sources),
which "pairs an opaque genome with a fitness value and a `has_fitness` validity flag". -/
structure ga_chr (G F : Type) where
  genome : G
  fitness : F
  has_fitness : Bool

/-! ## Archive (`archive.h`) -/

/-- The user-defined methods of an archive, `arc_func_vect_t`.  `alloc_genome` may fail
(`none`), `copy_genome dst src` is the new content of `dst`, and `fitness` is optional
(a null function pointer is `none`). -/
structure arc_func_vect_t (G F : Type) where
  alloc_genome : Unit → Option G
  copy_genome : G → G → G
  fitness : Option (ga_chr G F → F)

/-- The record `struct archive`: capacity, number of stored items, ring buffer, write pointer
and the genome specific functions. -/
structure archive (G F : Type) where
  capacity : Int
  stored : Int
  chromosomes : List (ga_chr G F)
  pointer : Int
  methods : arc_func_vect_t G F

/-- The value that a C `int` (32 bits, two's complement) takes for the mathematical result `x`
of an addition: `x` itself while `INT_MIN <= x <= INT_MAX`, and `x` reduced modulo `2^32` into
that range otherwise.  (An overflowing signed addition is undefined in C; the reduction is what
the 32 bit addition of the usual targets produces.) -/
def c_int_wrap (x : Int) : Int := (x + 2147483648) % 4294967296 - 2147483648

/-- Source `arc_real_index` (archive.h:125-135): the real index of an item in the ring buffer.
The sum `arc->pointer + index` is an `int` addition; `%` truncates toward zero. -/
def arc_real_index {G F : Type} (arc : archive G F) (index : Int) : Int :=
  if arc.stored < arc.capacity then
    index
  else
    let real := (c_int_wrap (arc.pointer + index)).tmod arc.capacity
    if real < 0 then real + arc.capacity else real

/-- Source `arc_get` (archive.h:141-144): the item stored on the given index, that is
`arc->chromosomes[arc_real_index(arc, index)]`; reading outside the array is `none`. -/
def arc_get {G F : Type} (arc : archive G F) (index : Int) : Option (ga_chr G F) :=
  let real := arc_real_index arc index
  if 0 ≤ real then arc.chromosomes[real.toNat]? else none

/-- Modelled from the spec: the slot allocation of `arc_create` (`archive.c` is not among the
sources): `n` chromosome slots from the caller's allocator; fails as soon as one allocation
fails.  The fitness of a fresh slot is `blank`. -/
def arc_alloc_slots {G F : Type} (methods : arc_func_vect_t G F) (blank : F) :
    Nat → Option (List (ga_chr G F))
  | 0 => some []
  | n + 1 =>
    match methods.alloc_genome () with
    | none => none
    | some g =>
      match arc_alloc_slots methods blank n with
      | none => none
      | some rest => some ({ genome := g, fitness := blank, has_fitness := false } :: rest)

/-- Modelled from the spec: `arc_create` (declared in archive.h:71, its body in `archive.c` is
not among the sources).  "allocates `capacity` genome slots up front using the caller-supplied
allocator; fails (returns an error) if allocation fails at any point".  The new archive is
empty: nothing stored, next write at slot 0. -/
def arc_create {G F : Type} (capacity : Int) (methods : arc_func_vect_t G F) (blank : F) :
    Option (archive G F) :=
  match arc_alloc_slots methods blank capacity.toNat with
  | none => none
  | some slots =>
    some { capacity := capacity, stored := 0, chromosomes := slots, pointer := 0,
           methods := methods }

/-- Modelled from the spec: the chromosome that `arc_insert` (`archive.c` is not among the
sources) leaves in a slot whose previous content was `dst` when it is given `chr`: the genome is copied with `copy_genome`, fitness and flag are carried over, and
the fitness is evaluated again when a fitness function is set. -/
def arc_stored_copy {G F : Type} (methods : arc_func_vect_t G F) (dst chr : ga_chr G F) :
    ga_chr G F :=
  let copied : ga_chr G F :=
    { genome := methods.copy_genome dst.genome chr.genome,
      fitness := chr.fitness, has_fitness := chr.has_fitness }
  match methods.fitness with
  | some f => { copied with fitness := f copied, has_fitness := true }
  | none => copied

/-- Modelled from the spec: `arc_insert` (declared in archive.h:91, its body in `archive.c` is
not among the sources).  "copies the given chromosome's genome into the slot at the current
write pointer using the genome-copy function, re-evaluates its fitness using the configured
fitness function if one is set, advances the write pointer modulo capacity, and increments
`stored` up to `capacity`.  Returns a handle/pointer to the now-stored copy".  The result is the
new archive together with the stored copy. -/
def arc_insert {G F : Type} (arc : archive G F) (chr : ga_chr G F) :
    Option (archive G F × ga_chr G F) :=
  if 0 ≤ arc.pointer then
    match arc.chromosomes[arc.pointer.toNat]? with
    | none => none
    | some dst =>
      let kept := arc_stored_copy arc.methods dst chr
      some ({ arc with
                chromosomes := arc.chromosomes.set arc.pointer.toNat kept
                stored := if arc.stored < arc.capacity then arc.stored + 1 else arc.stored
                pointer := (arc.pointer + 1) % arc.capacity }, kept)
  else none

/-- Insertion of a sequence of chromosomes in order; returns the final archive and the list of
stored copies that the successive `arc_insert` calls returned. -/
def arc_insert_all {G F : Type} :
    archive G F → List (ga_chr G F) → Option (archive G F × List (ga_chr G F))
  | arc, [] => some (arc, [])
  | arc, x :: xs =>
    match arc_insert arc x with
    | none => none
    | some (arc1, c) =>
      match arc_insert_all arc1 xs with
      | none => none
      | some (arc2, cs) => some (arc2, c :: cs)

/-- The logical content of an archive, oldest first: `arc_get` at 0, 1, .., stored - 1. -/
def arc_contents {G F : Type} (arc : archive G F) : List (Option (ga_chr G F)) :=
  (List.range arc.stored.toNat).map fun (i : Nat) => arc_get arc (i : Int)

/-! ## Loops, arrays, random draws and single precision floats -/

/-- A C loop `for (i = start; i < start + count; i++) body`, the state threaded through the
iterations; an iteration with undefined behaviour (`none`) ends the run. -/
def for_loop {σ : Type} (body : Nat → σ → Option σ) : Nat → Nat → σ → Option σ
  | _, 0, s => some s
  | i, n + 1, s =>
    match body i s with
    | none => none
    | some s1 => for_loop body (i + 1) n s1

/-- A write `a[i] = v` into a C array; outside the array it is undefined (`none`). -/
def array_write {α : Type} (a : List α) (i : Int) (v : α) : Option (List α) :=
  if 0 ≤ i ∧ i < a.length then some (a.set i.toNat v) else none

/-- C `memcpy(dst + doff, src + soff, n * sizeof(elem))` on arrays; both ranges must lie inside
their arrays and a negative count is undefined. -/
def memcpy {α : Type} (dst : List α) (doff : Nat) (src : List α) (soff : Nat) (n : Int) :
    Option (List α) :=
  if 0 ≤ n ∧ doff + n.toNat ≤ dst.length ∧ soff + n.toNat ≤ src.length then
    some (dst.take doff ++ (src.drop soff).take n.toNat ++ dst.drop (doff + n.toNat))
  else none

/-- The random source: an infinite stream of raw draws. -/
abbrev rand_stream := Nat → Nat

/-- The stream after one draw has been consumed. -/
def rand_tail (s : rand_stream) : rand_stream := fun n => s (n + 1)

/-- Modelled from the spec: `rand_range(lo, hi)` of `random.h` (absent from the sources), a
"uniformly random" integer of the closed interval `[lo, hi]`.  One raw draw is consumed and
reduced into the interval, so every value of the interval is a possible outcome.  For an empty
interval (outside the contract) the model returns `lo`. -/
def rand_range (lo hi : Int) (s : rand_stream) : Int × rand_stream :=
  (if lo ≤ hi then lo + (s 0 : Int) % (hi - lo + 1) else lo, rand_tail s)

/-- Modelled from the spec: `rand_urange(lo, hi)` of `random.h` (absent from the sources), the
unsigned variant of `rand_range`: "uniform random values in `[0, max_gene_value]`". -/
def rand_urange (lo hi : Nat) (s : rand_stream) : Nat × rand_stream :=
  (if lo ≤ hi then lo + s 0 % (hi - lo + 1) else lo, rand_tail s)

/-- A finite value of the C type `float` (IEEE-754 binary32, normal range):
`(-1)^neg * mant * 2^exp`. -/
structure c_float where
  neg : Bool
  mant : Nat
  exp : Int
deriving DecidableEq

/-- Number of low bits that do not fit into the 24 bit significand. -/
def c_float.drop_bits : Nat → Nat → Nat
  | 0, _ => 0
  | fuel + 1, m => if m < 2 ^ 24 then 0 else c_float.drop_bits fuel (m / 2) + 1

/-- The quotient `m / 2^k` rounded to nearest, ties to even. -/
def c_float.round_even (m k : Nat) : Nat :=
  if 2 ^ k < 2 * (m % 2 ^ k) ∨ (2 * (m % 2 ^ k) = 2 ^ k ∧ (m / 2 ^ k) % 2 = 1) then
    m / 2 ^ k + 1
  else m / 2 ^ k

/-- Rounding of the exact value `(-1)^neg * m * 2^e` to `float` (round to nearest even). -/
def c_float.round (neg : Bool) (m : Nat) (e : Int) : c_float :=
  { neg := neg, mant := c_float.round_even m (c_float.drop_bits m m),
    exp := e + (c_float.drop_bits m m : Nat) }

/-- Conversion `int -> float`. -/
def c_float.of_int (n : Int) : c_float := c_float.round (decide (n < 0)) n.natAbs 0

/-- The product of two floats, evaluated in single precision. -/
def c_float.mul (a b : c_float) : c_float :=
  c_float.round (a.neg != b.neg) (a.mant * b.mant) (a.exp + b.exp)

/-- The rational value of a float. -/
def c_float.toRat (a : c_float) : ℚ :=
  (if a.neg then -1 else 1) * (a.mant : ℚ) * (2 : ℚ) ^ a.exp

/-- The integer part of the magnitude. -/
def c_float.mag_floor (a : c_float) : Nat :=
  if 0 ≤ a.exp then a.mant * 2 ^ a.exp.toNat else a.mant / 2 ^ (-a.exp).toNat

/-- The magnitude rounded up to an integer. -/
def c_float.mag_ceil (a : c_float) : Nat :=
  if 0 ≤ a.exp then a.mant * 2 ^ a.exp.toNat
  else (a.mant + 2 ^ (-a.exp).toNat - 1) / 2 ^ (-a.exp).toNat

/-- Conversion `float -> int`: truncation toward zero. -/
def c_float.to_int (a : c_float) : Int :=
  if a.neg then -(a.mag_floor : Int) else (a.mag_floor : Int)

/-- The library function `ceil` followed by the conversion to `int`. -/
def c_ceil (a : c_float) : Int :=
  if a.neg then -(a.mag_floor : Int) else (a.mag_ceil : Int)

/-! ## Genetic algorithm helpers (`ga.h`, not among the sources) -/

/-- The two problem types of `ga.h`; `predictors.h:28` fixes `minimize` for predictors. -/
inductive ga_problem_type_t
  | minimize
  | maximize
deriving DecidableEq

/-- Modelled from the spec: `ga_is_better` of `ga.h` (absent from the sources): strictly better
fitness, "minimization — lower approximation error is better". -/
def ga_is_better {F : Type} [LinearOrder F] (t : ga_problem_type_t) (a b : F) : Bool :=
  match t with
  | .minimize => decide (a < b)
  | .maximize => decide (b < a)

/-- Modelled from the spec: `ga_is_better_or_same` of `ga.h` (absent from the sources):
"the better-or-equal one". -/
def ga_is_better_or_same {F : Type} [LinearOrder F] (t : ga_problem_type_t) (a b : F) : Bool :=
  match t with
  | .minimize => decide (a ≤ b)
  | .maximize => decide (b ≤ a)

/-- Modelled from the spec: the population record of `ga.h` (absent from the sources):
"an array of chromosomes (current) and a same-sized scratch array (children), a generation
counter, best-chromosome index, and population size", together with the problem type that
`predictors.c` reads from it. -/
structure ga_pop (G F : Type) where
  size : Nat
  problem_type : ga_problem_type_t
  generation : Nat
  best_chr_index : Int
  chromosomes : List (ga_chr G F)
  children : List (ga_chr G F)

/-- Modelled from the spec: `ga_copy_chr(dst, src, copy_func)` of `ga.h` (absent from the
sources); an elite is "copied unchanged into the next generation" with "bit-identical genome
and fitness": the genome goes through `copy_func`, fitness and validity flag are carried over. -/
def ga_copy_chr {G F : Type} (dst src : ga_chr G F) (copy_func : G → G → Option G) :
    Option (ga_chr G F) :=
  match copy_func dst.genome src.genome with
  | none => none
  | some g => some { genome := g, fitness := src.fitness, has_fitness := src.has_fitness }

/-! ## Predictors (`predictors.c`) -/

/-- The predictor genome as `predictors.c` uses it: the gene array `genes` (allocated with
`_max_genome_length` cells, `pred_alloc_genome`) and the count `used_genes`. -/
structure pred_genome where
  genes : List Nat
  used_genes : Nat
deriving DecidableEq

/-- The file-level statics of `predictors.c` (lines 32-37), set by `pred_init`. -/
structure pred_statics where
  _max_gene_value : Nat
  _max_genome_length : Nat
  _initial_genome_length : Nat
  _mutation_rate : c_float
  _offspring_elite : c_float
  _offspring_combine : c_float

/-- Source `enum _offspring_op` (predictors.c:40-44). -/
inductive _offspring_op
  | random_mutant
  | crossover_product
  | keep_intact
deriving DecidableEq

/-- Source `pred_init` (predictors.c:50-62); the failing assertion is `none`. -/
def pred_init (max_gene_value max_genome_length initial_genome_length : Nat)
    (mutation_rate offspring_elite offspring_combine : c_float) : Option pred_statics :=
  if initial_genome_length ≤ max_genome_length then
    some { _max_gene_value := max_gene_value, _max_genome_length := max_genome_length,
           _initial_genome_length := initial_genome_length, _mutation_rate := mutation_rate,
           _offspring_elite := offspring_elite, _offspring_combine := offspring_combine }
  else none

/-- The body of the loop of `pred_randomize_genome` (predictors.c:133-135):
`genome->genes[i] = rand_urange(0, _max_gene_value)`. -/
def pred_randomize_step (cfg : pred_statics) (i : Nat) (st : List Nat × rand_stream) :
    Option (List Nat × rand_stream) :=
  match array_write st.1 (i : Int) (rand_urange 0 cfg._max_gene_value st.2).1 with
  | none => none
  | some genes => some (genes, (rand_urange 0 cfg._max_gene_value st.2).2)

/-- Source `pred_randomize_genome` (predictors.c:128-138).  The result is the return value
(always 0), the chromosome and the random stream after the draws. -/
def pred_randomize_genome {F : Type} (cfg : pred_statics) (chromosome : ga_chr pred_genome F)
    (s : rand_stream) : Option (Int × ga_chr pred_genome F × rand_stream) :=
  match for_loop (pred_randomize_step cfg) 0 cfg._max_genome_length
      (chromosome.genome.genes, s) with
  | none => none
  | some (genes, s1) =>
    some (0, { chromosome with
                 genome := { genes := genes, used_genes := cfg._initial_genome_length } }, s1)

/-- Source `pred_copy_genome` (predictors.c:147-154). -/
def pred_copy_genome (cfg : pred_statics) (dst src : pred_genome) : Option pred_genome :=
  match memcpy dst.genes 0 src.genes 0 (cfg._max_genome_length : Int) with
  | none => none
  | some genes => some { genes := genes, used_genes := src.used_genes }

/-- The bound `max_changed_genes` of `pred_mutate` (predictors.c:165): the single precision
product `_mutation_rate * _max_genome_length` converted to `int`. -/
def max_changed_genes (cfg : pred_statics) : Int :=
  (c_float.mul cfg._mutation_rate (c_float.of_int cfg._max_genome_length)).to_int

/-- The body of the loop of `pred_mutate` (predictors.c:169-170). -/
def pred_mutate_step (cfg : pred_statics) (_i : Nat) (st : List Nat × rand_stream) :
    Option (List Nat × rand_stream) :=
  let gene := rand_range 0 ((cfg._max_genome_length : Int) - 1) st.2
  let value := rand_urange 0 cfg._max_gene_value gene.2
  match array_write st.1 gene.1 value.1 with
  | none => none
  | some genes => some (genes, value.2)

/-- Source `pred_mutate` (predictors.c:163-172). -/
def pred_mutate (cfg : pred_statics) (genes : List Nat) (s : rand_stream) :
    Option (List Nat × rand_stream) :=
  let genes_to_change := rand_range 0 (max_changed_genes cfg) s
  for_loop (pred_mutate_step cfg) 0 genes_to_change.1.toNat (genes, genes_to_change.2)

/-- The body of the inner loop of `_find_elites` (predictors.c:182-190); the state is
`(best_fitness, best_index)`. -/
def find_best_step {G F : Type} [LinearOrder F] (pop : ga_pop G F) (ops : List _offspring_op)
    (i : Nat) (st : F × Int) : Option (F × Int) :=
  match ops[i]? with
  | none => none
  | some op =>
    if op ≠ _offspring_op.keep_intact then
      match pop.chromosomes[i]? with
      | none => none
      | some chr =>
        if ga_is_better pop.problem_type chr.fitness st.1 then some (chr.fitness, (i : Int))
        else some st
    else some st

/-- The outer loop of `_find_elites` (predictors.c:177-194), `count` rounds: find the best
non-selected individual, then `ops[best_index] = keep_intact`.  `ga_worst_fitness` of `ga.h`
is not among the sources and is a parameter. -/
def _find_elites_rounds {G F : Type} [LinearOrder F] (ga_worst_fitness : ga_problem_type_t → F)
    (pop : ga_pop G F) : Nat → List _offspring_op → Option (List _offspring_op)
  | 0, ops => some ops
  | count + 1, ops =>
    match for_loop (find_best_step pop ops) 0 pop.size
        (ga_worst_fitness pop.problem_type, (-1 : Int)) with
    | none => none
    | some best =>
      match array_write ops best.2 _offspring_op.keep_intact with
      | none => none
      | some ops1 => _find_elites_rounds ga_worst_fitness pop count ops1

/-- Source `_find_elites` (predictors.c:175-195); the loop runs while `count > 0`. -/
def _find_elites {G F : Type} [LinearOrder F] (ga_worst_fitness : ga_problem_type_t → F)
    (pop : ga_pop G F) (count : Int) (ops : List _offspring_op) : Option (List _offspring_op) :=
  _find_elites_rounds ga_worst_fitness pop count.toNat ops

/-- Source `_tournament` (predictors.c:198-205): the winner. -/
def _tournament {G F : Type} [LinearOrder F] (pop : ga_pop G F) (red blue : ga_chr G F) :
    ga_chr G F :=
  if ga_is_better_or_same pop.problem_type red.fitness blue.fitness then red else blue

/-- The two `memcpy` calls of `_crossover1p` (predictors.c:212-215) for a given split point. -/
def crossover_at (cfg : pred_statics) (baby mom dad : List Nat) (split_point : Int) :
    Option (List Nat) :=
  match memcpy baby 0 mom 0 split_point with
  | none => none
  | some baby1 =>
    memcpy baby1 split_point.toNat dad split_point.toNat
      ((cfg._max_genome_length : Int) - split_point)

/-- Source `_crossover1p` (predictors.c:208-216). -/
def _crossover1p (cfg : pred_statics) (baby mom dad : List Nat) (s : rand_stream) :
    Option (List Nat × rand_stream) :=
  let split_point := rand_range 0 ((cfg._max_genome_length : Int) - 1) s
  match crossover_at cfg baby mom dad split_point.1 with
  | none => none
  | some baby1 => some (baby1, split_point.2)

/-- A read `a[i]` of a C array with an `int` index; outside the array it is undefined. -/
def array_read {α : Type} (a : List α) (i : Int) : Option α :=
  if 0 ≤ i then a[i.toNat]? else none

/-- One parent selection of `_create_combined` (predictors.c:225-227 and 229-231): two draws
and a tournament. -/
def select_parent {F : Type} [LinearOrder F] (pop : ga_pop pred_genome F) (s : rand_stream) :
    Option (ga_chr pred_genome F × rand_stream) :=
  let red := rand_range 0 ((pop.size : Int) - 1) s
  let blue := rand_range 0 ((pop.size : Int) - 1) red.2
  match array_read pop.chromosomes red.1, array_read pop.chromosomes blue.1 with
  | some r, some b => some (_tournament pop r b, blue.2)
  | _, _ => none

/-- Source `_create_combined` (predictors.c:219-260). -/
def _create_combined {F : Type} [LinearOrder F] (cfg : pred_statics)
    (pop : ga_pop pred_genome F) (children : List Nat) (s : rand_stream) :
    Option (List Nat × rand_stream) :=
  match select_parent pop s with
  | none => none
  | some (mom, s1) =>
    match select_parent pop s1 with
    | none => none
    | some (dad, s2) =>
      match _crossover1p cfg children mom.genome.genes dad.genome.genes s2 with
      | none => none
      | some (baby, s3) => pred_mutate cfg baby s3

/-- Source `elite_count` of `pred_offspring` (predictors.c:271). -/
def elite_count {G F : Type} (cfg : pred_statics) (pop : ga_pop G F) : Int :=
  c_ceil (c_float.mul (c_float.of_int pop.size) cfg._offspring_elite)

/-- Source `crossover_count` of `pred_offspring` (predictors.c:272). -/
def crossover_count {G F : Type} (cfg : pred_statics) (pop : ga_pop G F) : Int :=
  c_ceil (c_float.mul (c_float.of_int pop.size) cfg._offspring_combine)

/-- The crossover assignment loop of `pred_offspring` (predictors.c:284-290), started at scan
index `i` with `crossover_set` slots already set.  The loop has no bound on `i` of its own; a
read of `child_type[i]` outside the array is undefined.  `fuel` only makes the recursion
structural: started with more fuel than the array is long, the loop ends or leaves the array
before the fuel is used up. -/
def assign_crossover (crossover_count : Int) :
    Nat → Nat → Int → List _offspring_op → Option (List _offspring_op)
  | 0, _, _, _ => none
  | fuel + 1, i, crossover_set, child_type =>
    if crossover_set < crossover_count then
      match child_type[i]? with
      | none => none
      | some op =>
        if op ≠ _offspring_op.keep_intact then
          assign_crossover crossover_count fuel (i + 1) (crossover_set + 1)
            (child_type.set i _offspring_op.crossover_product)
        else assign_crossover crossover_count fuel (i + 1) crossover_set child_type
    else some child_type

/-- The array `child_type` of `pred_offspring` once elites and crossover slots are assigned
(predictors.c:270-290); a failing assertion is `none`. -/
def offspring_child_type {G F : Type} [LinearOrder F]
    (ga_worst_fitness : ga_problem_type_t → F) (cfg : pred_statics) (pop : ga_pop G F) :
    Option (List _offspring_op) :=
  if elite_count cfg pop + crossover_count cfg pop ≤ (pop.size : Int) then
    match _find_elites ga_worst_fitness pop (elite_count cfg pop)
        (List.replicate pop.size _offspring_op.random_mutant) with
    | none => none
    | some child_type =>
      assign_crossover (crossover_count cfg pop) (pop.size + 1) 0 0 child_type
  else none

/-- The body of the production loop of `pred_offspring` (predictors.c:294-314); the state is
the scratch array `pop->children` and the random stream. -/
def offspring_step {F : Type} [LinearOrder F] (cfg : pred_statics)
    (pop : ga_pop pred_genome F) (child_type : List _offspring_op) (i : Nat)
    (st : List (ga_chr pred_genome F) × rand_stream) :
    Option (List (ga_chr pred_genome F) × rand_stream) :=
  match child_type[i]?, st.1[i]? with
  | some op, some child =>
    if op = _offspring_op.keep_intact then
      match pop.chromosomes[i]? with
      | none => none
      | some parent =>
        match ga_copy_chr child parent (pred_copy_genome cfg) with
        | none => none
        | some c => some (st.1.set i c, st.2)
    else if op = _offspring_op.crossover_product then
      match _create_combined cfg pop child.genome.genes st.2 with
      | none => none
      | some (genes, s1) =>
        some (st.1.set i
          { child with
              genome := { genes := genes, used_genes := cfg._initial_genome_length }
              has_fitness := false }, s1)
    else
      match pred_randomize_genome cfg child st.2 with
      | none => none
      | some (_, c, s1) => some (st.1.set i { c with has_fitness := false }, s1)
  | _, _ => none

/-- Source `pred_offspring` (predictors.c:268-320).  The `omp parallel for` loop is run in
index order, all slots drawing from the one random stream; the last three statements exchange
the two arrays of the population. -/
def pred_offspring {F : Type} [LinearOrder F] (ga_worst_fitness : ga_problem_type_t → F)
    (cfg : pred_statics) (pop : ga_pop pred_genome F) (s : rand_stream) :
    Option (ga_pop pred_genome F × rand_stream) :=
  match offspring_child_type ga_worst_fitness cfg pop with
  | none => none
  | some child_type =>
    match for_loop (offspring_step cfg pop child_type) 0 pop.size (pop.children, s) with
    | none => none
    | some (children, s1) =>
      some ({ pop with chromosomes := children, children := pop.chromosomes }, s1)

/-! ## Fitness pipeline (`fitness.c`) -/

/-- The range fields of `fitness_filter_image_pthread_work` (fitness.c:91-96). -/
structure fitness_filter_image_pthread_work where
  start : Int
  stop : Int
deriving DecidableEq

/-- Source `per_thread` of `_fitness_filter_image_pthread` (fitness.c:140);
`size` is `noisy_image_windows->size`, `numthreads` the constant `FITNESS_NUMTHREADS`
(defined outside the sources, a parameter here).  C division truncates. -/
def per_thread (size numthreads : Int) : Int :=
  (size + numthreads - 1).tdiv numthreads

/-- The range given to worker `i` (fitness.c:147-150). -/
def pthread_work (size numthreads i : Int) : fitness_filter_image_pthread_work :=
  { start := i * per_thread size numthreads,
    stop := if i = numthreads - 1 then size else (i + 1) * per_thread size numthreads }

/-- The array `works` after the preparation loop (fitness.c:144-151). -/
def pthread_works (size numthreads : Int) : List fitness_filter_image_pthread_work :=
  (List.range numthreads.toNat).map fun (i : Nat) => pthread_work size numthreads (i : Int)

/-- The window indices `i` for which the body of the loop of
`_fitness_filter_image_pthread_worker` runs (fitness.c:107):
`for (int i = work->start; i < work->stop; i++)`, each reading `windows[i]`. -/
def worker_indices (work : fitness_filter_image_pthread_work) : List Int :=
  (List.range (work.stop - work.start).toNat).map fun (k : Nat) => work.start + (k : Int)

/-- Modelled from the spec: the image of `image.h` (absent from the sources), a sample domain
with "get/set of a scalar value at a given position"; `data x y` is the pixel at `(x, y)`. -/
structure img_image where
  width : Int
  height : Int
  comp : Int
  data : Int → Int → Int

/-- Modelled from the spec: `img_get_pixel` of `image.h` (absent from the sources). -/
def img_get_pixel (img : img_image) (x y : Int) : Int := img.data x y

/-- A value of the C type `double` in exact arithmetic: a rational, an infinity or NaN. -/
inductive c_double
  | finite (q : ℚ)
  | pos_inf
  | neg_inf
  | nan
deriving DecidableEq

/-- The quotient of two `double`s in exact arithmetic; a zero divisor gives an infinity or NaN
as in IEEE-754. -/
def c_double.div (a b : ℚ) : c_double :=
  if b ≠ 0 then c_double.finite (a / b)
  else if 0 < a then c_double.pos_inf
  else if a < 0 then c_double.neg_inf
  else c_double.nan

/-- The two nested loops of `fitness_psnr` (fitness.c:199-206): the value of `sum`. -/
def psnr_sum (original filtered : img_image) : ℚ :=
  (List.range original.width.toNat).foldl
    (fun (sum : ℚ) (x : Nat) =>
      (List.range original.height.toNat).foldl
        (fun (sum : ℚ) (y : Nat) =>
          let diff : ℚ :=
            ((img_get_pixel filtered (x : Int) (y : Int)
              - img_get_pixel original (x : Int) (y : Int) : Int) : ℚ)
          sum + diff * diff)
        sum)
    0

/-- Source `fitness_psnr` (fitness.c:192-209); a failing assertion is `none`. -/
def fitness_psnr (original filtered : img_image) : Option c_double :=
  if original.width = filtered.width ∧ original.height = filtered.height
      ∧ original.comp = filtered.comp then
    let coef : ℚ := 255 * 255 * (original.width : ℚ) * (original.height : ℚ)
    some (c_double.div coef (psnr_sum original filtered))
  else none

/-- The spec's `sum_of_squared_differences`: the sum over all pixel positions of
`(filtered(x,y) - original(x,y))^2`. -/
def sum_of_squared_differences (original filtered : img_image) : ℚ :=
  ∑ x ∈ Finset.range original.width.toNat, ∑ y ∈ Finset.range original.height.toNat,
    (((filtered.data (x : Int) (y : Int) - original.data (x : Int) (y : Int) : Int) : ℚ)) ^ 2

/-- The spec's score `(max_value^2 * domain_size) / sum_of_squared_differences` with
`max_value = 255` and `domain_size = width * height`. -/
def psnr_score (original filtered : img_image) : ℚ :=
  ((255 : ℚ) ^ 2 * ((original.width : ℚ) * (original.height : ℚ)))
    / sum_of_squared_differences original filtered

/-! ## Configuration (`config.c`) -/

/-- Source `pred_genome_type_t` (predictors.h:36-39). -/
inductive pred_genome_type_t
  | permuted
  | repeated
deriving DecidableEq

/-- The algorithm modes that `config_load_args` assigns (config.c:194-198); the enumeration
itself is declared in `config.h`, which is not among the sources. -/
inductive algorithm_t
  | simple_cgp
  | predictors
  | baldwin
deriving DecidableEq

/-- The fields of `config_t` that `config.c` reads and writes (the record is declared in
`config.h`, not among the sources).  `double` fields hold exact rationals. -/
structure config_t where
  max_generations : Int
  target_fitness : ℚ
  algorithm : algorithm_t
  random_seed : Nat
  input_image : String
  noisy_image : String
  vault_enabled : Bool
  vault_interval : Int
  log_dir : String
  log_interval : Int
  cgp_mutate_genes : Int
  cgp_population_size : Int
  cgp_archive_size : Int
  pred_size : ℚ
  pred_initial_size : ℚ
  pred_mutation_rate : ℚ
  pred_population_size : Int
  pred_genome_type : pred_genome_type_t
  bw_interval : Int

/-- What `config_load_args` returns: the enumerators of `config_retval_t` that it names, and
the literal `1` that the `PARSE_*` and `CHECK_FILENAME_LENGTH` macros return (which enumerator
has the value 1 is decided in `config.h`, not among the sources). -/
inductive config_return
  | cfg_ok
  | cfg_err
  | cfg_help
  | literal_1
deriving DecidableEq

/-- The outcome of one of the C library conversions `strtol`, `strtoul`, `strtod`: the
converted value, the offset of `endptr` from the start of the string and whether the call set
`errno` to `ERANGE`. -/
structure strto_result (α : Type) where
  value : α
  endptr : Nat
  erange : Bool

/-- The C library functions that `config.c` calls; they are outside the repository and are
parameters of the embedding (`strtol` and `strtoul` are called with base 10). -/
structure libc_t where
  strtol : String → strto_result Int
  strtoul : String → strto_result Nat
  strtod : String → strto_result ℚ
  pow : ℚ → ℚ → ℚ

/-- The error test shared by `PARSE_INT`, `PARSE_UNSIGNED_INT` and `PARSE_DOUBLE`
(config.c:130, 140, 150): `*endptr != '\0' && endptr != optarg && errno != ERANGE`.
`errno_erange` says whether `errno` is `ERANGE` after the conversion. -/
def parse_reports_error {α : Type} (r : strto_result α) (optarg : String)
    (errno_erange : Bool) : Bool :=
  decide (r.endptr < optarg.length) && decide (r.endptr ≠ 0) && !errno_erange

/-- One item delivered by `getopt_long`: the option character `c` and its argument `optarg`
(empty for an option without argument). -/
structure getopt_item where
  c : Char
  optarg : String

/-- The state of the loop of `config_load_args`: the configuration, the two local flags and
whether `errno` currently is `ERANGE` (no statement of `config.c` resets `errno`). -/
structure config_state where
  cfg : config_t
  algorithm_specified : Bool
  pred_type_specified : Bool
  errno_erange : Bool

/-- One pass through the `switch` of `config_load_args`: either the loop goes on with a new
state, or the function returns. -/
inductive config_step
  | next (st : config_state)
  | returns (code : config_return) (cfg : config_t)

/-- Source `PARSE_INT(dst)` (config.c:127-135) inside a `case`: `set` stores the converted value
into the destination field. -/
def PARSE_INT (libc : libc_t) (st : config_state) (optarg : String)
    (set : config_t → Int → config_t) : config_step :=
  let r := libc.strtol optarg
  let cfg1 := set st.cfg r.value
  let e := st.errno_erange || r.erange
  if parse_reports_error r optarg e then config_step.returns config_return.literal_1 cfg1
  else config_step.next { st with cfg := cfg1, errno_erange := e }

/-- Source `PARSE_UNSIGNED_INT(dst)` (config.c:137-145) inside a `case`. -/
def PARSE_UNSIGNED_INT (libc : libc_t) (st : config_state) (optarg : String)
    (set : config_t → Nat → config_t) : config_step :=
  let r := libc.strtoul optarg
  let cfg1 := set st.cfg r.value
  let e := st.errno_erange || r.erange
  if parse_reports_error r optarg e then config_step.returns config_return.literal_1 cfg1
  else config_step.next { st with cfg := cfg1, errno_erange := e }

/-- Source `PARSE_DOUBLE(dst)` (config.c:147-155) inside a `case`, followed by the statements
`after` of the case that run when the macro did not return. -/
def PARSE_DOUBLE (libc : libc_t) (st : config_state) (optarg : String)
    (set : config_t → ℚ → config_t) (after : config_t → config_t) : config_step :=
  let r := libc.strtod optarg
  let cfg1 := set st.cfg r.value
  let e := st.errno_erange || r.erange
  if parse_reports_error r optarg e then config_step.returns config_return.literal_1 cfg1
  else config_step.next { st with cfg := after cfg1, errno_erange := e }

/-- Source `CHECK_FILENAME_LENGTH` followed by `strncpy` (config.c:118-125, 215-228);
`max_filename_length` is the constant `MAX_FILENAME_LENGTH` (defined outside the sources). -/
def copy_filename (max_filename_length : Int) (st : config_state) (optarg : String)
    (set : config_t → String → config_t) : config_step :=
  if max_filename_length - 1 < (optarg.length : Int) then
    config_step.returns config_return.literal_1 st.cfg
  else config_step.next { st with cfg := set st.cfg optarg }

/-- The body of the loop of `config_load_args` (config.c:175-300) for one item of
`getopt_long`. -/
def config_option (libc : libc_t) (max_filename_length : Int) (st : config_state)
    (item : getopt_item) : config_step :=
  if item.c = 'h' then config_step.returns config_return.cfg_help st.cfg
  else if item.c = 'g' then
    PARSE_INT libc st item.optarg (fun c v => { c with max_generations := v })
  else if item.c = 't' then
    -- PARSE_DOUBLE(target_psnr); cfg->target_fitness = pow(10, (target_psnr / 10));
    let r := libc.strtod item.optarg
    let e := st.errno_erange || r.erange
    if parse_reports_error r item.optarg e then
      config_step.returns config_return.literal_1 st.cfg
    else
      config_step.next
        { st with cfg := { st.cfg with target_fitness := libc.pow 10 (r.value / 10) }
                  errno_erange := e }
  else if item.c = 'f' then
    PARSE_DOUBLE libc st item.optarg (fun c v => { c with target_fitness := v }) id
  else if item.c = 'a' then
    if item.optarg = "cgp" then
      config_step.next
        { st with cfg := { st.cfg with algorithm := algorithm_t.simple_cgp }
                  algorithm_specified := true }
    else if item.optarg = "predictors" then
      config_step.next
        { st with cfg := { st.cfg with algorithm := algorithm_t.predictors }
                  algorithm_specified := true }
    else if item.optarg = "baldwin" then
      if st.pred_type_specified ∧ st.cfg.pred_genome_type ≠ pred_genome_type_t.repeated then
        config_step.returns config_return.cfg_err
          { st.cfg with algorithm := algorithm_t.baldwin }
      else
        config_step.next
          { st with cfg := { st.cfg with algorithm := algorithm_t.baldwin }
                    algorithm_specified := true }
    else config_step.returns config_return.cfg_err st.cfg
  else if item.c = 'r' then
    PARSE_UNSIGNED_INT libc st item.optarg (fun c v => { c with random_seed := v })
  else if item.c = 'i' then
    copy_filename max_filename_length st item.optarg (fun c v => { c with input_image := v })
  else if item.c = 'n' then
    copy_filename max_filename_length st item.optarg (fun c v => { c with noisy_image := v })
  else if item.c = 'v' then
    config_step.next { st with cfg := { st.cfg with vault_enabled := true } }
  else if item.c = 'w' then
    PARSE_INT libc st item.optarg (fun c v => { c with vault_interval := v })
  else if item.c = 'k' then
    PARSE_INT libc st item.optarg (fun c v => { c with log_interval := v })
  else if item.c = 'l' then
    copy_filename max_filename_length st item.optarg (fun c v => { c with log_dir := v })
  else if item.c = 'm' then
    PARSE_INT libc st item.optarg (fun c v => { c with cgp_mutate_genes := v })
  else if item.c = 'p' then
    PARSE_INT libc st item.optarg (fun c v => { c with cgp_population_size := v })
  else if item.c = 's' then
    PARSE_INT libc st item.optarg (fun c v => { c with cgp_archive_size := v })
  else if item.c = 'S' then
    PARSE_DOUBLE libc st item.optarg (fun c v => { c with pred_size := v })
      (fun c => if 1 < c.pred_size then { c with pred_size := c.pred_size / 100 } else c)
  else if item.c = 'I' then
    PARSE_DOUBLE libc st item.optarg (fun c v => { c with pred_initial_size := v })
      (fun c =>
        if 1 < c.pred_initial_size then { c with pred_initial_size := c.pred_initial_size / 100 }
        else c)
  else if item.c = 'M' then
    PARSE_DOUBLE libc st item.optarg (fun c v => { c with pred_mutation_rate := v })
      (fun c =>
        if 1 < c.pred_mutation_rate then
          { c with pred_mutation_rate := c.pred_mutation_rate / 100 }
        else c)
  else if item.c = 'P' then
    PARSE_INT libc st item.optarg (fun c v => { c with pred_population_size := v })
  else if item.c = 'T' then
    if item.optarg = "permuted" then
      if st.algorithm_specified ∧ st.cfg.algorithm = algorithm_t.baldwin then
        config_step.returns config_return.cfg_err
          { st.cfg with pred_genome_type := pred_genome_type_t.permuted }
      else
        config_step.next
          { st with cfg := { st.cfg with pred_genome_type := pred_genome_type_t.permuted }
                    pred_type_specified := true }
    else if item.optarg = "repeated" then
      config_step.next
        { st with cfg := { st.cfg with pred_genome_type := pred_genome_type_t.repeated }
                  pred_type_specified := true }
    else config_step.returns config_return.cfg_err st.cfg
  else if item.c = 'b' then
    PARSE_INT libc st item.optarg (fun c v => { c with bw_interval := v })
  else config_step.returns config_return.cfg_err st.cfg

/-- The loop of `config_load_args` over the items that `getopt_long` delivers. -/
def config_loop (libc : libc_t) (max_filename_length : Int) :
    config_state → List getopt_item → config_return × config_t
  | st, [] => (config_return.cfg_ok, st.cfg)
  | st, item :: rest =>
    match config_option libc max_filename_length st item with
    | config_step.returns code cfg => (code, cfg)
    | config_step.next st1 => config_loop libc max_filename_length st1 rest

/-- Source `config_load_args` (config.c:161-302).  `items` are the options that `getopt_long`
finds in `argv`, `cfg` is the configuration the caller passes in and `errno_erange` says whether
`errno` is `ERANGE` on entry; the result is the return value and the configuration left in
`*cfg`. -/
def config_load_args (libc : libc_t) (max_filename_length : Int) (errno_erange : Bool)
    (items : List getopt_item) (cfg : config_t) : config_return × config_t :=
  config_loop libc max_filename_length
    { cfg := cfg, algorithm_specified := false, pred_type_specified := false,
      errno_erange := errno_erange } items

/-! ## Image filtering (`fitness.c`) and the scan of the crossover assignment -/

/-- The indices `i` at which the body of the crossover assignment loop of `pred_offspring`
(predictors.c:285-290) runs, that is the indices at which `child_type[i]` is read and written;
the recursion is the one of `assign_crossover`. -/
def crossover_scan_indices (crossover_count : Int) :
    Nat → Nat → Int → List _offspring_op → List Nat
  | 0, _, _, _ => []
  | fuel + 1, i, crossover_set, child_type =>
    if crossover_set < crossover_count then
      match child_type[i]? with
      | none => [i]
      | some op =>
        if op ≠ _offspring_op.keep_intact then
          i :: crossover_scan_indices crossover_count fuel (i + 1) (crossover_set + 1)
            (child_type.set i _offspring_op.crossover_product)
        else i :: crossover_scan_indices crossover_count fuel (i + 1) crossover_set child_type
    else []

/-- Modelled from the spec: a window of `image.h` (absent from the sources), "fixed-size
windows each carrying a position and an input vector". -/
structure img_window where
  pos_x : Int
  pos_y : Int
  pixels : List Int

/-- Modelled from the spec: the window array of `image.h` (absent from the sources); `size` is
the field `noisy_image_windows->size`, `windows` the array it counts. -/
structure img_window_array where
  size : Int
  windows : List img_window

/-- Modelled from the spec: `img_create` of `image.h` (absent from the sources), "allocates an
output buffer matching the oracle's domain"; the content of the fresh buffer is modelled as 0
everywhere. -/
def img_create (width height comp : Int) : img_image :=
  { width := width, height := height, comp := comp, data := fun _ _ => 0 }

/-- Modelled from the spec: `img_set_pixel` of `image.h` (absent from the sources), "set of a
scalar value at a given position". -/
def img_set_pixel (img : img_image) (x y value : Int) : img_image :=
  { img with data := fun a b => if a = x ∧ b = y then value else img.data a b }

/-- The body shared by the loops of `_fitness_filter_image_simple` (fitness.c:75-81) and
`_fitness_filter_image_pthread_worker` (fitness.c:108-115) for the window index `i`.
`cgp_get_output` is the circuit interpreter (outside the sources, a parameter); its result is
`output_pixel[0]`. -/
def filter_window {C : Type} (cgp_get_output : C → List Int → Int)
    (noisy_image_windows : img_window_array) (chr : C) (filtered : img_image) (i : Int) :
    Option img_image :=
  match array_read noisy_image_windows.windows i with
  | none => none
  | some w => some (img_set_pixel filtered w.pos_x w.pos_y (cgp_get_output chr w.pixels))

/-- Source `_fitness_filter_image_simple` (fitness.c:69-85); the globals `original_image` and
`noisy_image_windows` are parameters. -/
def _fitness_filter_image_simple {C : Type} (cgp_get_output : C → List Int → Int)
    (original_image : img_image) (noisy_image_windows : img_window_array) (chr : C) :
    Option img_image :=
  for_loop
    (fun (i : Nat) (filtered : img_image) =>
      filter_window cgp_get_output noisy_image_windows chr filtered (i : Int))
    0 noisy_image_windows.size.toNat
    (img_create original_image.width original_image.height original_image.comp)

/-- Source `_fitness_filter_image_pthread_worker` (fitness.c:103-119): the loop
`for (int i = work->start; i < work->stop; i++)` on the shared image `filtered`. -/
def _fitness_filter_image_pthread_worker {C : Type} (cgp_get_output : C → List Int → Int)
    (noisy_image_windows : img_window_array) (chr : C)
    (work : fitness_filter_image_pthread_work) (filtered : img_image) : Option img_image :=
  for_loop
    (fun (k : Nat) (img : img_image) =>
      filter_window cgp_get_output noisy_image_windows chr img (work.start + (k : Int)))
    0 (work.stop - work.start).toNat filtered

/-- The workers of `_fitness_filter_image_pthread` run one after the other in the order
`order` (a list of worker numbers). -/
def run_workers {C : Type} (cgp_get_output : C → List Int → Int)
    (noisy_image_windows : img_window_array) (chr : C)
    (works : List fitness_filter_image_pthread_work) :
    List Nat → img_image → Option img_image
  | [], filtered => some filtered
  | k :: rest, filtered =>
    match works[k]? with
    | none => none
    | some work =>
      match _fitness_filter_image_pthread_worker cgp_get_output noisy_image_windows chr work
          filtered with
      | none => none
      | some filtered1 => run_workers cgp_get_output noisy_image_windows chr works rest filtered1

/-- Source `_fitness_filter_image_pthread` (fitness.c:130-162).  `numthreads` is the constant
`FITNESS_NUMTHREADS`; the threads are created together and joined, `order` is the order in which
their loops are taken to run. -/
def _fitness_filter_image_pthread {C : Type} (cgp_get_output : C → List Int → Int)
    (original_image : img_image) (noisy_image_windows : img_window_array) (numthreads : Int)
    (order : List Nat) (chr : C) : Option img_image :=
  run_workers cgp_get_output noisy_image_windows chr
    (pthread_works noisy_image_windows.size numthreads) order
    (img_create original_image.width original_image.height original_image.comp)

/-! ## Invariants and measures used by the theorems -/

/-- The state of an archive of capacity `n > 0` after the insertions whose stored copies are
`pre`, oldest first. -/
structure arc_inv {G F : Type} (methods : arc_func_vect_t G F) (n : Nat) (a : archive G F)
    (pre : List (ga_chr G F)) : Prop where
  cap : a.capacity = (n : Int)
  len : a.chromosomes.length = n
  sto : a.stored = ((min pre.length n : Nat) : Int)
  ptr : a.pointer = ((pre.length % n : Nat) : Int)
  met : a.methods = methods
  slots : ∀ j, j < pre.length → pre.length ≤ j + n → a.chromosomes[j % n]? = pre[j]?

/-- The number of positions at which two gene arrays differ. -/
def diff_count : List Nat → List Nat → Nat
  | a :: as, b :: bs => (if a ≠ b then 1 else 0) + diff_count as bs
  | _, _ => 0

/-- Every slot marked `keep_intact` holds a chromosome whose fitness is better than or the same
as the fitness of every chromosome in a slot that is not marked. -/
def elites_best {G F : Type} [LinearOrder F] (pop : ga_pop G F) (ops : List _offspring_op) :
    Prop :=
  ∀ (i j : Nat) (ci cj : ga_chr G F), ops[i]? = some _offspring_op.keep_intact →
    ops[j]? ≠ some _offspring_op.keep_intact →
    pop.chromosomes[i]? = some ci → pop.chromosomes[j]? = some cj →
    ga_is_better_or_same pop.problem_type ci.fitness cj.fitness = true

/-- A slot that is not marked `keep_intact`. -/
def is_unclaimed (o : _offspring_op) : Bool := decide (o ≠ _offspring_op.keep_intact)

/-- What the production loop of `pred_offspring` leaves in slot `i` of the new generation:
an elite slot holds the genome, fitness and validity flag of the parent in slot `i`; any other
slot has its validity flag cleared and `used_genes` reset; the gene array keeps `L_max` cells. -/
def offspring_slot_spec {F : Type} (cfg : pred_statics) (pop : ga_pop pred_genome F)
    (child_type : List _offspring_op) (i : Nat) (v : ga_chr pred_genome F) : Prop :=
  (child_type[i]? = some _offspring_op.keep_intact →
    ∃ parent, pop.chromosomes[i]? = some parent ∧ v.genome = parent.genome ∧
      v.fitness = parent.fitness ∧ v.has_fitness = parent.has_fitness) ∧
  (child_type[i]? ≠ some _offspring_op.keep_intact →
    v.has_fitness = false ∧ v.genome.used_genes = cfg._initial_genome_length) ∧
  v.genome.genes.length = cfg._max_genome_length

/-- What can be said of slot `i` of the new generation whenever `pred_offspring` returns: an
elite slot carries `used_genes`, fitness and validity flag of the parent in slot `i`; any other
slot has its validity flag cleared and `used_genes` set to `_initial_genome_length`. -/
def offspring_slot_flags {F : Type} (cfg : pred_statics) (pop : ga_pop pred_genome F)
    (child_type : List _offspring_op) (i : Nat) (v : ga_chr pred_genome F) : Prop :=
  (child_type[i]? = some _offspring_op.keep_intact →
    ∃ parent, pop.chromosomes[i]? = some parent ∧
      v.genome.used_genes = parent.genome.used_genes ∧
      v.fitness = parent.fitness ∧ v.has_fitness = parent.has_fitness) ∧
  (child_type[i]? ≠ some _offspring_op.keep_intact →
    v.has_fitness = false ∧ v.genome.used_genes = cfg._initial_genome_length)

/-- A slot marked `keep_intact` holds a chromosome strictly better than the chromosome of every
unmarked slot of lower index: among chromosomes of equal fitness the lower index is marked
first. -/
def elites_lowest_first {G F : Type} [LinearOrder F] (pop : ga_pop G F)
    (ops : List _offspring_op) : Prop :=
  ∀ (i j : Nat) (ci cj : ga_chr G F), i < j → ops[j]? = some _offspring_op.keep_intact →
    ops[i]? ≠ some _offspring_op.keep_intact →
    pop.chromosomes[i]? = some ci → pop.chromosomes[j]? = some cj →
    ga_is_better pop.problem_type cj.fitness ci.fitness = true

/-- The combination that `config_load_args` refuses: once both `--algorithm` and `--pred-type`
have been seen, the configuration does not hold `baldwin` together with `permuted`. -/
def config_baldwin_permuted_excluded (st : config_state) : Prop :=
  st.algorithm_specified = true → st.pred_type_specified = true →
    ¬ (st.cfg.algorithm = algorithm_t.baldwin ∧
      st.cfg.pred_genome_type = pred_genome_type_t.permuted)

/-- The option leaves the two flags, the algorithm and the predictor genome type as they
were. -/
def config_frame (st st1 : config_state) : Prop :=
  st1.algorithm_specified = st.algorithm_specified ∧
  st1.pred_type_specified = st.pred_type_specified ∧
  st1.cfg.algorithm = st.cfg.algorithm ∧
  st1.cfg.pred_genome_type = st.cfg.pred_genome_type

/-- The gene array has `_max_genome_length` cells and every cell holds a value of
`[0, _max_gene_value]` (genes are unsigned, so only the upper bound is to be said). -/
def genes_in_range (cfg : pred_statics) (genes : List Nat) : Prop :=
  genes.length = cfg._max_genome_length ∧ ∀ g ∈ genes, g ≤ cfg._max_gene_value

instance genes_in_range_decidable (cfg : pred_statics) (genes : List Nat) :
    Decidable (genes_in_range cfg genes) :=
  inferInstanceAs
    (Decidable (genes.length = cfg._max_genome_length ∧ ∀ g ∈ genes, g ≤ cfg._max_gene_value))

/-! ## Concrete inputs used by the witnesses -/

/-- The methods used by the archive witnesses: allocation succeeds, the genome copy is a value
copy and no fitness function is set. -/
def arc_methods_example : arc_func_vect_t Unit Nat :=
  { alloc_genome := fun _ => some (), copy_genome := fun _ s => s, fitness := none }

/-- A full archive of capacity 3 with the write pointer at slot 1. -/
def arc_full_example : archive Unit Nat :=
  { capacity := 3, stored := 3, pointer := 1,
    chromosomes := [⟨(), 4, true⟩, ⟨(), 2, true⟩, ⟨(), 3, true⟩],
    methods := arc_methods_example }

/-- An archive of capacity 3 that is still filling: two items stored. -/
def arc_filling_example : archive Unit Nat :=
  { capacity := 3, stored := 2, pointer := 2,
    chromosomes := [⟨(), 1, true⟩, ⟨(), 2, true⟩, ⟨(), 0, false⟩],
    methods := arc_methods_example }

/-- Scenario A of the spec: chromosomes with fitness 1, 2, 3, 4. -/
def arc_scenario_A : List (ga_chr Unit Nat) :=
  [⟨(), 1, true⟩, ⟨(), 2, true⟩, ⟨(), 3, true⟩, ⟨(), 4, true⟩]

/-- The empty archive of capacity 3 of scenario A. -/
def arc_empty_example : archive Unit Nat :=
  { capacity := 3, stored := 0, pointer := 0,
    chromosomes := [⟨(), 0, false⟩, ⟨(), 0, false⟩, ⟨(), 0, false⟩],
    methods := arc_methods_example }

/-- A full archive of capacity `INT_MAX` with the write pointer at the last slot. -/
def arc_int_max_example : archive Unit Nat :=
  { capacity := 2147483647, stored := 2147483647, pointer := 2147483646,
    chromosomes := List.replicate 2147483647 ⟨(), 0, false⟩,
    methods := arc_methods_example }

/-- The chromosomes `x_0 .. x_{N-1}` with `N = 2 * INT_MAX - 1`, the fitness of `x_k` being
`k`. -/
def arc_overflow_inputs : List (ga_chr Unit Nat) :=
  (List.range 4294967293).map fun (k : Nat) => ⟨(), k, true⟩

/-- The `float` nearest to 0.2. -/
def float_0_2 : c_float := { neg := false, mant := 13421773, exp := -26 }

/-- The `float` nearest to 0.3. -/
def float_0_3 : c_float := { neg := false, mant := 10066330, exp := -25 }

/-- Predictor settings used by the witnesses: gene values up to 9, four genes of which two are
used initially, mutation rate 0.5, elite fraction 0.2 and crossover fraction 0.3. -/
def pred_cfg_example : pred_statics :=
  { _max_gene_value := 9, _max_genome_length := 4, _initial_genome_length := 2,
    _mutation_rate := { neg := false, mant := 1, exp := -1 },
    _offspring_elite := float_0_2, _offspring_combine := float_0_3 }

/-- A random stream used by the witnesses: the raw draws 2, 5, 8, 11, ... -/
def rand_example : rand_stream := fun n => 3 * n + 2

/-- A blank chromosome with four gene cells. -/
def pred_chr_example : ga_chr pred_genome Nat :=
  { genome := { genes := [0, 0, 0, 0], used_genes := 0 }, fitness := 0, has_fitness := false }

/-- An original image of 2 x 1 pixels. -/
def img_original_example : img_image :=
  { width := 2, height := 1, comp := 1, data := fun x _ => 10 + x }

/-- A filtered image of 2 x 1 pixels. -/
def img_filtered_example : img_image :=
  { width := 2, height := 1, comp := 1, data := fun x _ => 13 - x }

/-- A predictor chromosome with the genes 1, 2, 3, 4 and the given fitness. -/
def pred_chr_with_fitness (f : Int) : ga_chr pred_genome Int :=
  { genome := { genes := [1, 2, 3, 4], used_genes := 2 }, fitness := f, has_fitness := true }

/-- Scenario B of the spec: a predictor population of size 10 (minimizing). -/
def pred_pop_example : ga_pop pred_genome Int :=
  { size := 10, problem_type := ga_problem_type_t.minimize, generation := 0,
    best_chr_index := 3,
    chromosomes := [5, 3, 8, 1, 9, 2, 7, 7, 4, 6].map pred_chr_with_fitness,
    children := List.replicate 10
      { genome := { genes := [0, 0, 0, 0], used_genes := 0 }, fitness := 0,
        has_fitness := false } }

/-- A value for `ga_worst_fitness` used by the witnesses. -/
def worst_fitness_example : ga_problem_type_t → Int
  | ga_problem_type_t.minimize => 1000
  | ga_problem_type_t.maximize => -1000

/-- A C library for the witnesses: the conversions read the strings "50" and "0.5" as a whole
and consume nothing of any other string; `pow` is not used by them. -/
def libc_example : libc_t :=
  { strtol := fun s => if s = "50" then ⟨50, 2, false⟩ else ⟨0, 0, false⟩,
    strtoul := fun s => if s = "50" then ⟨50, 2, false⟩ else ⟨0, 0, false⟩,
    strtod := fun s =>
      if s = "50" then ⟨50, 2, false⟩ else if s = "0.5" then ⟨1 / 2, 3, false⟩
      else ⟨0, 0, false⟩,
    pow := fun _ _ => 1 }

/-- A configuration before the command line is read. -/
def config_example : config_t :=
  { max_generations := 50000, target_fitness := 0, algorithm := algorithm_t.predictors,
    random_seed := 0, input_image := "", noisy_image := "", vault_enabled := false,
    vault_interval := 200, log_dir := "", log_interval := 0, cgp_mutate_genes := 5,
    cgp_population_size := 8, cgp_archive_size := 10, pred_size := 1 / 4,
    pred_initial_size := 1 / 4, pred_mutation_rate := 1 / 20, pred_population_size := 10,
    pred_genome_type := pred_genome_type_t.permuted, bw_interval := 0 }

/-- A second contestant with fitness 3 and other genes, for a tournament that ends in a tie. -/
def pred_chr_example_tie : ga_chr pred_genome Int :=
  { genome := { genes := [9, 9, 9, 9], used_genes := 2 }, fitness := 3, has_fitness := true }

/-- A population of three predictors of which two have the fitness that
`worst_fitness_example` gives for a minimizing population. -/
def pred_pop_worst_example : ga_pop pred_genome Int :=
  { size := 3, problem_type := ga_problem_type_t.minimize, generation := 0,
    best_chr_index := 0,
    chromosomes := [5, 1000, 1000].map pred_chr_with_fitness,
    children := List.replicate 3
      { genome := { genes := [0, 0, 0, 0], used_genes := 0 }, fitness := 0,
        has_fitness := false } }

/-- An array of `n` windows with pairwise distinct positions `(i, 0)` and one input each. -/
def windows_example (n : Nat) : img_window_array :=
  { size := (n : Int),
    windows := (List.range n).map fun (i : Nat) =>
      { pos_x := (i : Int), pos_y := 0, pixels := [10 * (i : Int)] } }

/-- An original image of `n` x 1 pixels. -/
def img_row_example (n : Nat) : img_image :=
  { width := (n : Int), height := 1, comp := 1, data := fun x _ => x }

/-- A circuit interpreter for the examples: the output is the sum of the inputs plus the
circuit number. -/
def cgp_example (chr : Int) (inputs : List Int) : Int := chr + inputs.sum

/-- A policy array as `_find_elites` leaves it in the ten-member population: slots 3 and 5 are
elites, every other slot still holds the initial `random_mutant`. -/
def child_type_after_elites_example : List _offspring_op :=
  [_offspring_op.random_mutant, _offspring_op.random_mutant, _offspring_op.random_mutant,
   _offspring_op.keep_intact, _offspring_op.random_mutant, _offspring_op.keep_intact,
   _offspring_op.random_mutant, _offspring_op.random_mutant, _offspring_op.random_mutant,
   _offspring_op.random_mutant]

/-- The `float` nearest to 0.7. -/
def float_0_7 : c_float := { neg := false, mant := 11744051, exp := -24 }

/-- The `float` nearest to 0.04. -/
def float_0_04 : c_float := { neg := false, mant := 10737418, exp := -28 }

/-- The `float` nearest to 0.1. -/
def float_0_1 : c_float := { neg := false, mant := 13421773, exp := -27 }

/-- Predictor settings with ten genes and mutation rate 0.7. -/
def pred_cfg_rate_0_7 : pred_statics :=
  { _max_gene_value := 9, _max_genome_length := 10, _initial_genome_length := 2,
    _mutation_rate := float_0_7, _offspring_elite := float_0_2,
    _offspring_combine := float_0_3 }

/-- Predictor settings with 25 genes and mutation rate 0.04. -/
def pred_cfg_rate_0_04 : pred_statics :=
  { _max_gene_value := 9, _max_genome_length := 25, _initial_genome_length := 2,
    _mutation_rate := float_0_04, _offspring_elite := float_0_2,
    _offspring_combine := float_0_3 }

/-- Raw draws for a mutation of seven genes: the count 7, then position and value for the
positions 0 to 6, each with the value 1. -/
def rand_seven_example : rand_stream :=
  fun n => [7, 0, 1, 1, 1, 2, 1, 3, 1, 4, 1, 5, 1, 6, 1].getD n 0

/-- Raw draws for a mutation of one gene: the count 1, then position 0 and value 1. -/
def rand_one_example : rand_stream := fun n => [1, 0, 1].getD n 0

/-- The settings of `pred_cfg_example` with elite fraction 0.1. -/
def pred_cfg_elite_0_1 : pred_statics :=
  { pred_cfg_example with _offspring_elite := float_0_1 }

/-- A population of 50 predictors, the fitness of the chromosome in slot `k` being `k`. -/
def pred_pop_50_example : ga_pop pred_genome Int :=
  { size := 50, problem_type := ga_problem_type_t.minimize, generation := 0,
    best_chr_index := 0,
    chromosomes := (List.range 50).map fun (k : Nat) => pred_chr_with_fitness (k : Int),
    children := List.replicate 50 (pred_chr_with_fitness 0) }

/-! # Theorems -/

/-! ## Archive: ring mapping -/

theorem neg_tmod_aux (a c : Int) : (-a).tmod c = -(a.tmod c) := by
  rw [Int.tmod_def, Int.tmod_def, Int.neg_tdiv]; ring

/-- C's truncating remainder followed by the correction `if (real < 0) real += capacity` is the
mathematical residue. -/
theorem tmod_fix (a c : Int) (hc : 0 < c) :
    (if a.tmod c < 0 then a.tmod c + c else a.tmod c) = a % c := by
  have h1 : c * a.tdiv c + a.tmod c = a := Int.tdiv_add_tmod a c
  have h2 : a.tmod c < c := Int.tmod_lt_of_pos a hc
  have h3 : -c < a.tmod c := by
    rcases le_or_lt 0 a with h | h
    · have := Int.tmod_nonneg c h; omega
    · have h5 : (-a).tmod c < c := Int.tmod_lt_of_pos _ hc
      rw [neg_tmod_aux] at h5
      omega
  have key : a % c = (a.tmod c) % c := by
    conv_lhs => rw [← h1]
    rw [Int.add_comm, Int.add_mul_emod_self_left]
  split
  · rw [key, ← Int.add_mul_emod_self_left (a.tmod c) c 1, Int.mul_one]
    exact (Int.emod_eq_of_lt (by omega) (by omega)).symm
  · rw [key]
    exact (Int.emod_eq_of_lt (by omega) h2).symm

theorem arc_real_index_filling {G F : Type} (arc : archive G F) (index : Int)
    (h : arc.stored < arc.capacity) : arc_real_index arc index = index := by
  simp [arc_real_index, h]

theorem c_int_wrap_fits (x : Int) (h0 : -2147483648 ≤ x) (h1 : x < 2147483648) :
    c_int_wrap x = x := by
  unfold c_int_wrap
  omega

theorem arc_real_index_wrap {G F : Type} (arc : archive G F) (index : Int)
    (h : ¬ arc.stored < arc.capacity) (hc : 0 < arc.capacity) :
    arc_real_index arc index = c_int_wrap (arc.pointer + index) % arc.capacity := by
  simp only [arc_real_index, h, if_false]
  exact tmod_fix _ _ hc

theorem arc_real_index_full {G F : Type} (arc : archive G F) (index : Int)
    (h : ¬ arc.stored < arc.capacity) (hc : 0 < arc.capacity)
    (h0 : -2147483648 ≤ arc.pointer + index) (h1 : arc.pointer + index < 2147483648) :
    arc_real_index arc index = (arc.pointer + index) % arc.capacity := by
  rw [arc_real_index_wrap arc index h hc, c_int_wrap_fits _ h0 h1]

/-- C2, the claim as stated fails for an index near `INT_MAX`: in a full archive of capacity 3
with the write pointer at slot 1, the `int` sum `pointer + 2147483647` leaves the range of
`int`, and `arc_real_index` gives slot 1 while the mathematical residue
`(1 + 2147483647) mod 3` is 2. -/
theorem arc_real_index_int_overflow :
    arc_full_example.stored = arc_full_example.capacity ∧ 0 < arc_full_example.capacity ∧
    0 ≤ arc_full_example.pointer ∧ arc_full_example.pointer < arc_full_example.capacity ∧
    arc_real_index arc_full_example 2147483647 = 1 ∧
    (arc_full_example.pointer + 2147483647) % arc_full_example.capacity = 2 ∧
    arc_real_index arc_full_example 2147483647
      ≠ (arc_full_example.pointer + 2147483647) % arc_full_example.capacity := by
  decide

/-- C2 as amended.  While the archive is filling (`stored < capacity`) `arc_real_index` returns
the logical index unchanged.  Once it is full (`stored == capacity > 0`,
`0 <= pointer < capacity`) the result lies in `[0, capacity)` for every index, and for every
index, negative ones included, for which the sum `pointer + index` is in the range of `int`
(`INT_MIN <= pointer + index <= INT_MAX`) it is the mathematical residue
`(pointer + index) mod capacity`. -/
theorem arc_real_index_ring_mapping {G F : Type} (arc : archive G F) (index : Int) :
    (arc.stored < arc.capacity → arc_real_index arc index = index) ∧
    (arc.stored = arc.capacity → 0 < arc.capacity → 0 ≤ arc.pointer →
      arc.pointer < arc.capacity →
        (0 ≤ arc_real_index arc index ∧ arc_real_index arc index < arc.capacity) ∧
        (-2147483648 ≤ arc.pointer + index → arc.pointer + index ≤ 2147483647 →
          arc_real_index arc index = (arc.pointer + index) % arc.capacity)) := by
  refine ⟨arc_real_index_filling arc index, ?_⟩
  intro hfull hc _ _
  have h := arc_real_index_wrap arc index (by omega) hc
  refine ⟨⟨?_, ?_⟩, ?_⟩
  · rw [h]; exact Int.emod_nonneg _ (by omega)
  · rw [h]; exact Int.emod_lt_of_pos _ hc
  · intro h0 h1
    exact arc_real_index_full arc index (by omega) hc h0 (by omega)

theorem arc_real_index_ring_mapping_witness :
    arc_real_index arc_filling_example 1 = 1 ∧
    ((0 ≤ arc_real_index arc_full_example (-2) ∧
        arc_real_index arc_full_example (-2) < arc_full_example.capacity) ∧
      arc_real_index arc_full_example (-2)
        = (arc_full_example.pointer + (-2)) % arc_full_example.capacity) :=
  ⟨(arc_real_index_ring_mapping arc_filling_example 1).1 (by decide),
    ((arc_real_index_ring_mapping arc_full_example (-2)).2 rfl (by decide) (by decide)
      (by decide)).1,
    ((arc_real_index_ring_mapping arc_full_example (-2)).2 rfl (by decide) (by decide)
      (by decide)).2 (by decide) (by decide)⟩

/-- C3, the claim as stated fails for a capacity above `2^30`: in a full archive of capacity
2147483647 (`INT_MAX`) with the write pointer at slot 2147483646, the sum `pointer + 2` leaves
the range of `int`, and the distinct logical indices 0 and 2, both in `[0, stored)`, are
resolved to the same slot 2147483646. -/
theorem arc_get_slots_collide :
    0 ≤ arc_int_max_example.stored ∧
    arc_int_max_example.stored ≤ arc_int_max_example.capacity ∧
    0 ≤ arc_int_max_example.pointer ∧
    arc_int_max_example.pointer < arc_int_max_example.capacity ∧
    arc_int_max_example.chromosomes.length = arc_int_max_example.capacity.toNat ∧
    (2 : Int) < arc_int_max_example.stored ∧
    arc_real_index arc_int_max_example 0 = 2147483646 ∧
    arc_real_index arc_int_max_example 2 = 2147483646 := by
  refine ⟨by decide, by decide, by decide, by decide, ?_, by decide, by decide, by decide⟩
  show (List.replicate 2147483647 _).length = _
  rw [List.length_replicate]
  rfl

/-- C3 as amended.  In an archive with `0 <= stored <= capacity` and `0 <= pointer < capacity`
(the array `chromosomes` holding `capacity` cells), every logical index `0 <= i < stored` is
resolved by `arc_get` to a physical slot in `[0, stored)`, a cell of the array; and when
`capacity <= 2^30` (so that `pointer + i` stays in the range of `int`) distinct logical indices
are resolved to distinct slots. -/
theorem arc_get_reads_occupied_slot {G F : Type} (arc : archive G F)
    (hs0 : 0 ≤ arc.stored) (hsc : arc.stored ≤ arc.capacity)
    (hp0 : 0 ≤ arc.pointer) (hpc : arc.pointer < arc.capacity)
    (hlen : arc.chromosomes.length = arc.capacity.toNat) :
    (∀ i : Int, 0 ≤ i → i < arc.stored →
      0 ≤ arc_real_index arc i ∧ arc_real_index arc i < arc.stored ∧
      ∃ c, arc.chromosomes[(arc_real_index arc i).toNat]? = some c ∧ arc_get arc i = some c) ∧
    (arc.capacity ≤ 1073741824 →
      ∀ i j : Int, 0 ≤ i → i < arc.stored → 0 ≤ j → j < arc.stored →
        arc_real_index arc i = arc_real_index arc j → i = j) := by
  have hrange : ∀ i : Int, 0 ≤ i → i < arc.stored →
      0 ≤ arc_real_index arc i ∧ arc_real_index arc i < arc.stored := by
    intro i hi0 his
    by_cases hf : arc.stored < arc.capacity
    · rw [arc_real_index_filling arc i hf]; exact ⟨hi0, his⟩
    · have hc : 0 < arc.capacity := by omega
      have heq : arc.stored = arc.capacity := by omega
      rw [arc_real_index_wrap arc i hf hc, heq]
      exact ⟨Int.emod_nonneg _ (by omega), Int.emod_lt_of_pos _ hc⟩
  refine ⟨?_, ?_⟩
  · intro i hi0 his
    obtain ⟨h0, h1⟩ := hrange i hi0 his
    refine ⟨h0, h1, ?_⟩
    have hlt : (arc_real_index arc i).toNat < arc.chromosomes.length := by
      rw [hlen]; omega
    refine ⟨arc.chromosomes[(arc_real_index arc i).toNat], ?_, ?_⟩
    · exact List.getElem?_eq_getElem hlt
    · simp only [arc_get, h0, if_true]
      exact List.getElem?_eq_getElem hlt
  · intro hcap i j hi0 his hj0 hjs h
    by_cases hf : arc.stored < arc.capacity
    · rwa [arc_real_index_filling arc i hf, arc_real_index_filling arc j hf] at h
    · have hc : 0 < arc.capacity := by omega
      rw [arc_real_index_full arc i hf hc (by omega) (by omega),
        arc_real_index_full arc j hf hc (by omega) (by omega)] at h
      have hd : arc.capacity ∣ (i - j) := by
        have h2 : (arc.pointer + i - (arc.pointer + j)) % arc.capacity = 0 := by
          rw [Int.sub_emod, h, sub_self, Int.zero_emod]
        have h3 : arc.pointer + i - (arc.pointer + j) = i - j := by ring
        rw [h3] at h2
        exact Int.dvd_of_emod_eq_zero h2
      have habs : |i - j| < arc.capacity := by
        rw [abs_lt]; constructor <;> omega
      have := Int.eq_zero_of_abs_lt_dvd hd habs
      omega

theorem arc_get_reads_occupied_slot_witness :
    (0 : Int) ≤ arc_full_example.stored ∧
    (∀ i : Int, 0 ≤ i → i < arc_full_example.stored →
      0 ≤ arc_real_index arc_full_example i ∧
      arc_real_index arc_full_example i < arc_full_example.stored ∧
      ∃ c, arc_full_example.chromosomes[(arc_real_index arc_full_example i).toNat]? = some c ∧
        arc_get arc_full_example i = some c) ∧
    (arc_full_example.capacity ≤ 1073741824 →
      ∀ i j : Int, 0 ≤ i → i < arc_full_example.stored → 0 ≤ j →
        j < arc_full_example.stored →
        arc_real_index arc_full_example i = arc_real_index arc_full_example j → i = j) :=
  ⟨by decide, arc_get_reads_occupied_slot arc_full_example (by decide) (by decide) (by decide)
    (by decide) (by decide)⟩

theorem arc_alloc_slots_length {G F : Type} (methods : arc_func_vect_t G F) (blank : F) :
    ∀ (n : Nat) (l : List (ga_chr G F)), arc_alloc_slots methods blank n = some l →
      l.length = n := by
  intro n
  induction n with
  | zero => intro l h; simp [arc_alloc_slots] at h; simp [← h]
  | succ k ih =>
    intro l h
    simp only [arc_alloc_slots] at h
    split at h
    · simp at h
    · split at h
      · simp at h
      · rename_i rest hrest
        simp only [Option.some.injEq] at h
        rw [← h, List.length_cons, ih rest hrest]

theorem arc_create_inv {G F : Type} (C : Int) (hC : 0 < C) (methods : arc_func_vect_t G F)
    (blank : F) (a0 : archive G F) (h : arc_create C methods blank = some a0) :
    arc_inv methods C.toNat a0 [] := by
  simp only [arc_create] at h
  split at h
  · simp at h
  · rename_i slots hs
    simp only [Option.some.injEq] at h
    subst h
    have hl := arc_alloc_slots_length methods blank _ _ hs
    refine ⟨?_, hl, ?_, ?_, rfl, ?_⟩
    · simp; omega
    · simp
    · simp
    · intro j hj; simp at hj

theorem arc_insert_inv {G F : Type} (methods : arc_func_vect_t G F) (n : Nat) (hn : 0 < n)
    (a : archive G F) (pre : List (ga_chr G F)) (x : ga_chr G F)
    (inv : arc_inv methods n a pre) :
    ∃ a1 dst, arc_insert a x = some (a1, arc_stored_copy methods dst x) ∧
      arc_inv methods n a1 (pre ++ [arc_stored_copy methods dst x]) := by
  have hp : a.pointer.toNat = pre.length % n := by rw [inv.ptr]; exact Int.toNat_ofNat _
  have hlt : pre.length % n < a.chromosomes.length := by
    rw [inv.len]; exact Nat.mod_lt _ hn
  have hp0 : 0 ≤ a.pointer := by rw [inv.ptr]; omega
  refine ⟨{ a with
              chromosomes := a.chromosomes.set (pre.length % n)
                (arc_stored_copy methods a.chromosomes[pre.length % n] x)
              stored := if a.stored < a.capacity then a.stored + 1 else a.stored
              pointer := (a.pointer + 1) % a.capacity },
    a.chromosomes[pre.length % n], ?_, ?_⟩
  · simp only [arc_insert, hp0, if_true, hp, List.getElem?_eq_getElem hlt, inv.met]
  · refine ⟨inv.cap, ?_, ?_, ?_, inv.met, ?_⟩
    · simp [inv.len]
    · simp only [inv.sto, inv.cap, List.length_append, List.length_singleton]
      split <;> omega
    · simp only [inv.ptr, inv.cap, List.length_append, List.length_singleton]
      have h1 : (pre.length + 1) % n = (pre.length % n + 1) % n :=
        (Nat.mod_add_mod _ _ _).symm
      rw [h1]
      push_cast
      rfl
    · intro j hj hjn
      simp only [List.length_append, List.length_singleton] at hj hjn
      rw [List.getElem?_set]
      by_cases hjk : j = pre.length
      · subst hjk
        simp [hlt]
      · have hj2 : j < pre.length := by omega
        have hne : pre.length % n ≠ j % n := by
          intro heq
          have h1 : (pre.length - j) % n = 0 := Nat.sub_mod_eq_zero_of_mod_eq heq
          have h2 : (pre.length - j) % n = pre.length - j := Nat.mod_eq_of_lt (by omega)
          omega
        rw [if_neg hne, List.getElem?_append_left hj2]
        exact inv.slots j hj2 (by omega)

theorem arc_insert_all_inv {G F : Type} (methods : arc_func_vect_t G F) (n : Nat) (hn : 0 < n) :
    ∀ (xs : List (ga_chr G F)) (a : archive G F) (pre : List (ga_chr G F)),
      arc_inv methods n a pre →
      ∃ a1 cs, arc_insert_all a xs = some (a1, cs) ∧ cs.length = xs.length ∧
        arc_inv methods n a1 (pre ++ cs) ∧
        ∀ k (hk : k < xs.length), ∃ dst, cs[k]? = some (arc_stored_copy methods dst xs[k]) := by
  intro xs
  induction xs with
  | nil =>
    intro a pre inv
    exact ⟨a, [], rfl, rfl, by simpa using inv, fun k hk => absurd hk (by simp)⟩
  | cons x xs ih =>
    intro a pre inv
    obtain ⟨a1, dst, h1, inv1⟩ := arc_insert_inv methods n hn a pre x inv
    obtain ⟨a2, cs, h2, hlen, inv2, hcs⟩ := ih a1 _ inv1
    refine ⟨a2, arc_stored_copy methods dst x :: cs, ?_, ?_, ?_, ?_⟩
    · simp only [arc_insert_all, h1, h2]
    · simp [hlen]
    · simpa using inv2
    · intro k hk
      cases k with
      | zero => exact ⟨dst, by simp⟩
      | succ k =>
        obtain ⟨d, hd⟩ := hcs k (by simpa using hk)
        exact ⟨d, by simpa using hd⟩

theorem arc_alloc_slots_example (n : Nat) :
    arc_alloc_slots arc_methods_example 0 n
      = some (List.replicate n ({ genome := (), fitness := 0, has_fitness := false } :
          ga_chr Unit Nat)) := by
  induction n with
  | zero => rfl
  | succ k ih =>
    simp only [arc_alloc_slots, ih, List.replicate_succ]
    rfl

theorem arc_stored_copy_example_fitness (dst x : ga_chr Unit Nat) :
    (arc_stored_copy arc_methods_example dst x).fitness = x.fitness := rfl

/-- After `2 * INT_MAX - 1` insertions into an archive of capacity `INT_MAX` the write pointer
is at the last slot, and the logical index 2 is resolved to that slot, which holds the oldest of
the stored copies. -/
theorem arc_get_after_overflow (n : Nat) (hn : n = 2147483647) (a0 : archive Unit Nat)
    (inv0 : arc_inv arc_methods_example n a0 []) (xs : List (ga_chr Unit Nat))
    (hN : xs.length = 4294967293) :
    ∃ a cs, arc_insert_all a0 xs = some (a, cs) ∧ cs.length = xs.length ∧
      (∀ k (hk : k < xs.length),
        ∃ dst, cs[k]? = some (arc_stored_copy arc_methods_example dst xs[k])) ∧
      arc_get a 2 = cs[2147483646]? := by
  subst hn
  obtain ⟨a, cs, hall, hlen, inv, hcs⟩ :=
    arc_insert_all_inv arc_methods_example 2147483647 (by norm_num) xs a0 [] inv0
  simp only [List.nil_append] at inv
  refine ⟨a, cs, hall, hlen, hcs, ?_⟩
  have hcl : cs.length = 4294967293 := by rw [hlen, hN]
  have hcap : a.capacity = 2147483647 := by rw [inv.cap]; rfl
  have hsto : a.stored = 2147483647 := by
    rw [inv.sto, hcl]; rfl
  have hptr : a.pointer = 2147483646 := by
    rw [inv.ptr, hcl]; rfl
  have hreal : arc_real_index a 2 = 2147483646 := by
    rw [arc_real_index_wrap a 2 (by omega) (by omega), hptr, hcap]
    rfl
  have hslot := inv.slots 2147483646 (by omega) (by omega)
  rw [Nat.mod_eq_of_lt (by norm_num)] at hslot
  simp only [arc_get, hreal]
  rw [if_pos (by norm_num)]
  exact hslot

theorem arc_create_example (C : Int) :
    arc_create C arc_methods_example 0
      = some { capacity := C, stored := 0,
               chromosomes := List.replicate C.toNat
                 ({ genome := (), fitness := 0, has_fitness := false } : ga_chr Unit Nat),
               pointer := 0, methods := arc_methods_example } := by
  unfold arc_create
  rw [arc_alloc_slots_example]

/-- C1, the claim as stated fails for a capacity above `2^30`: after
`N = 2 * 2147483647 - 1` insertions `x_0 .. x_{N-1}` (fitness `k` for `x_k`) into an archive of
capacity `C = 2147483647`, the sum `pointer + 2` leaves the range of `int` and
`arc_get(archive, 2)` is the stored copy of `x_{N-C}` (fitness 2147483646), not the copy of
`x_{N-C+2}` (fitness 2147483648). -/
theorem arc_ring_mapping_overflow :
    ∃ a0 a cs, arc_create 2147483647 arc_methods_example 0 = some a0 ∧
      (2147483647 : Int) ≤ (arc_overflow_inputs.length : Int) ∧
      arc_insert_all a0 arc_overflow_inputs = some (a, cs) ∧
      (∃ c, arc_get a 2 = some c ∧ c.fitness = 2147483646) ∧
      (∃ c, cs[arc_overflow_inputs.length - (2147483647 : Int).toNat + 2]? = some c ∧
        c.fitness = 2147483648) := by
  have hN : arc_overflow_inputs.length = 4294967293 := by
    rw [arc_overflow_inputs, List.length_map, List.length_range]
  have hcreate := arc_create_example 2147483647
  have inv0 := arc_create_inv 2147483647 (by norm_num) arc_methods_example 0 _ hcreate
  have e : (2147483647 : Int).toNat = 2147483647 := rfl
  obtain ⟨a, cs, hall, hlen, hcs, hget⟩ :=
    arc_get_after_overflow _ e _ inv0 arc_overflow_inputs hN
  have hfit : ∀ k (hk : k < arc_overflow_inputs.length),
      ∃ c, cs[k]? = some c ∧ c.fitness = k := by
    intro k hk
    obtain ⟨dst, hd⟩ := hcs k hk
    refine ⟨_, hd, ?_⟩
    rw [arc_stored_copy_example_fitness]
    simp only [arc_overflow_inputs, List.getElem_map, List.getElem_range]
  refine ⟨_, a, cs, hcreate, by rw [hN]; norm_num, hall, ?_, ?_⟩
  · obtain ⟨c, hc, hf⟩ := hfit 2147483646 (by rw [hN]; norm_num)
    exact ⟨c, by rw [hget, hc], by rw [hf]⟩
  · obtain ⟨c, hc, hf⟩ := hfit 2147483648 (by rw [hN]; norm_num)
    refine ⟨c, ?_, by rw [hf]⟩
    have e2 : 4294967293 - 2147483647 + 2 = 2147483648 := by norm_num
    rw [hN, e, e2]
    exact hc

/-- C1 as amended.  Ring mapping: for an archive of capacity `C > 0` created empty and any
sequence `x_0 .. x_{N-1}` of `N >= C` insertions, all insertions succeed and afterwards
`stored == C`; and when `C <= 2^30` (so that `pointer + i` stays in the range of `int`), for
every `i` in `[0, C)` `arc_get(archive, i)` is the stored copy of `x_{N-C+i}`: the copy that the
insertion of `x_{N-C+i}` left in the archive and returned (`cs` lists the returned copies, the
`k`-th being `arc_stored_copy` of `x_k`). -/
theorem arc_ring_mapping {G F : Type} (C : Int) (hC : 0 < C) (methods : arc_func_vect_t G F)
    (blank : F) (a0 : archive G F) (hcreate : arc_create C methods blank = some a0)
    (xs : List (ga_chr G F)) (hN : C ≤ (xs.length : Int)) :
    ∃ a cs, arc_insert_all a0 xs = some (a, cs) ∧ cs.length = xs.length ∧ a.stored = C ∧
      (∀ k (hk : k < xs.length), ∃ dst, cs[k]? = some (arc_stored_copy methods dst xs[k])) ∧
      (C ≤ 1073741824 → ∀ i : Nat, (i : Int) < C →
        ∃ c, arc_get a (i : Int) = some c ∧ cs[xs.length - C.toNat + i]? = some c) := by
  have hn : 0 < C.toNat := by omega
  have hCn : ((C.toNat : Nat) : Int) = C := Int.toNat_of_nonneg (by omega)
  obtain ⟨a, cs, hall, hlen, inv, hcs⟩ :=
    arc_insert_all_inv methods C.toNat hn xs a0 [] (arc_create_inv C hC methods blank a0 hcreate)
  simp only [List.nil_append] at inv
  have hsto : a.stored = C := by
    rw [inv.sto, hlen, Nat.min_eq_right (by omega), hCn]
  refine ⟨a, cs, hall, hlen, hsto, hcs, ?_⟩
  intro hC30 i hi
  have hfull : ¬ a.stored < a.capacity := by rw [hsto, inv.cap, hCn]; omega
  have hcap : 0 < a.capacity := by rw [inv.cap, hCn]; exact hC
  have hplt : cs.length % C.toNat < C.toNat := Nat.mod_lt _ hn
  have hreal : arc_real_index a (i : Int)
      = (((xs.length - C.toNat + i) % C.toNat : Nat) : Int) := by
    rw [arc_real_index_full a _ hfull hcap (by rw [inv.ptr]; omega) (by rw [inv.ptr]; omega),
      inv.ptr, inv.cap, hlen]
    have h1 : (xs.length - C.toNat + i) % C.toNat = (xs.length % C.toNat + i) % C.toNat := by
      rw [Nat.mod_add_mod, ← Nat.add_mod_right (xs.length - C.toNat + i)]
      congr 1
      omega
    rw [h1]
    push_cast
    rfl
  have hj : xs.length - C.toNat + i < cs.length := by omega
  refine ⟨cs[xs.length - C.toNat + i], ?_, List.getElem?_eq_getElem hj⟩
  simp only [arc_get, hreal]
  rw [if_pos (by omega), Int.toNat_ofNat, inv.slots _ hj (by omega)]
  exact List.getElem?_eq_getElem hj

theorem arc_ring_mapping_witness :
    (0 : Int) < 3 ∧ arc_create 3 arc_methods_example 0 = some arc_empty_example ∧
    ((3 : Int) ≤ (arc_scenario_A.length : Int)) ∧ (3 : Int) ≤ 1073741824 ∧
    ∃ a cs, arc_insert_all arc_empty_example arc_scenario_A = some (a, cs) ∧
      cs.length = arc_scenario_A.length ∧ a.stored = 3 ∧
      (∀ k (hk : k < arc_scenario_A.length),
        ∃ dst, cs[k]? = some (arc_stored_copy arc_methods_example dst arc_scenario_A[k])) ∧
      (∀ i : Nat, (i : Int) < 3 →
        ∃ c, arc_get a (i : Int) = some c ∧
          cs[arc_scenario_A.length - (3 : Int).toNat + i]? = some c) :=
  ⟨by decide, rfl, by decide, by decide,
    let ⟨a, cs, h1, h2, h3, h4, h5⟩ :=
      arc_ring_mapping 3 (by decide) arc_methods_example 0 arc_empty_example rfl
        arc_scenario_A (by decide)
    ⟨a, cs, h1, h2, h3, h4, h5 (by decide)⟩⟩

/-- Scenario A evaluated: capacity 3, fitness 1, 2, 3, 4 inserted in order; the archive then
holds, oldest to newest, fitness 2, 3, 4. -/
theorem arc_scenario_A_order :
    (arc_insert_all arc_empty_example arc_scenario_A).map
        (fun r => (r.1.stored, (arc_contents r.1).map (fun c => c.map (fun c => c.fitness))))
      = some (3, [some 2, some 3, some 4]) := by
  decide


/-! ## Random draws -/

theorem rand_range_bounds (lo hi : Int) (s : rand_stream) (h : lo ≤ hi) :
    lo ≤ (rand_range lo hi s).1 ∧ (rand_range lo hi s).1 ≤ hi := by
  simp only [rand_range, h, if_true]
  have h1 : 0 ≤ (s 0 : Int) % (hi - lo + 1) := Int.emod_nonneg _ (by omega)
  have h2 : (s 0 : Int) % (hi - lo + 1) < hi - lo + 1 := Int.emod_lt_of_pos _ (by omega)
  constructor <;> omega

theorem rand_range_snd (lo hi : Int) (s : rand_stream) : (rand_range lo hi s).2 = rand_tail s :=
  rfl

theorem rand_urange_bounds (lo hi : Nat) (s : rand_stream) (h : lo ≤ hi) :
    lo ≤ (rand_urange lo hi s).1 ∧ (rand_urange lo hi s).1 ≤ hi := by
  simp only [rand_urange, h, if_true]
  have h2 : s 0 % (hi - lo + 1) < hi - lo + 1 := Nat.mod_lt _ (by omega)
  constructor <;> omega

/-! ## Crossover -/

theorem memcpy_some {α : Type} (dst : List α) (doff : Nat) (src : List α) (soff : Nat)
    (n : Int) (h0 : 0 ≤ n) (h1 : doff + n.toNat ≤ dst.length)
    (h2 : soff + n.toNat ≤ src.length) :
    memcpy dst doff src soff n
      = some (dst.take doff ++ (src.drop soff).take n.toNat ++ dst.drop (doff + n.toNat)) := by
  unfold memcpy
  rw [if_pos ⟨h0, h1, h2⟩]

theorem crossover_at_eq (cfg : pred_statics) (baby mom dad : List Nat) (sp : Int)
    (hb : baby.length = cfg._max_genome_length) (hm : mom.length = cfg._max_genome_length)
    (hd : dad.length = cfg._max_genome_length) (h0 : 0 ≤ sp)
    (h1 : sp ≤ (cfg._max_genome_length : Int)) :
    crossover_at cfg baby mom dad sp = some (mom.take sp.toNat ++ dad.drop sp.toNat) := by
  have hsp : sp.toNat ≤ cfg._max_genome_length := by omega
  have e1 : memcpy baby 0 mom 0 sp = some (mom.take sp.toNat ++ baby.drop sp.toNat) := by
    rw [memcpy_some baby 0 mom 0 sp h0 (by omega) (by omega)]
    simp
  have hlen1 : (mom.take sp.toNat ++ baby.drop sp.toNat).length = cfg._max_genome_length := by
    simp [hm, hb]; omega
  have hk : ((cfg._max_genome_length : Int) - sp).toNat = cfg._max_genome_length - sp.toNat := by
    omega
  have ht : (mom.take sp.toNat).length = sp.toNat := by simp [hm]; omega
  have e2 : List.take sp.toNat (mom.take sp.toNat ++ baby.drop sp.toNat) = mom.take sp.toNat := by
    rw [List.take_append_of_le_length (by omega), List.take_take]; simp
  have e3 : List.drop (sp.toNat + (cfg._max_genome_length - sp.toNat))
      (mom.take sp.toNat ++ baby.drop sp.toNat) = [] := by
    apply List.drop_of_length_le
    rw [hlen1]; omega
  have e4 : List.take (cfg._max_genome_length - sp.toNat) (dad.drop sp.toNat)
      = dad.drop sp.toNat := by
    apply List.take_of_length_le
    simp [hd]
  unfold crossover_at
  rw [e1]
  simp only []
  rw [memcpy_some _ _ _ _ _ (by omega) (by rw [hlen1, hk]; omega) (by rw [hd, hk]; omega)]
  rw [hk, e2, e3, e4]; simp

/-- The child of `_crossover1p`: the mother's genes before the drawn split point, the
father's genes from the split point on. -/
theorem crossover1p_eq (cfg : pred_statics) (baby mom dad : List Nat) (s : rand_stream)
    (hL : 0 < cfg._max_genome_length)
    (hb : baby.length = cfg._max_genome_length) (hm : mom.length = cfg._max_genome_length)
    (hd : dad.length = cfg._max_genome_length) :
    _crossover1p cfg baby mom dad s
      = some (mom.take (rand_range 0 ((cfg._max_genome_length : Int) - 1) s).1.toNat
                ++ dad.drop (rand_range 0 ((cfg._max_genome_length : Int) - 1) s).1.toNat,
              rand_tail s) ∧
    (mom.take (rand_range 0 ((cfg._max_genome_length : Int) - 1) s).1.toNat
      ++ dad.drop (rand_range 0 ((cfg._max_genome_length : Int) - 1) s).1.toNat).length
      = cfg._max_genome_length := by
  obtain ⟨h0, h1⟩ := rand_range_bounds 0 ((cfg._max_genome_length : Int) - 1) s (by omega)
  generalize hsp : (rand_range 0 ((cfg._max_genome_length : Int) - 1) s).1 = sp at h0 h1
  have hc := crossover_at_eq cfg baby mom dad sp hb hm hd h0 (by omega)
  refine ⟨?_, ?_⟩
  · simp only [_crossover1p, hsp, hc, rand_range_snd]
  · simp [hm, hd]; omega

/-- C6. Crossover structure: for mother, father and child gene arrays of `L_max` cells and
every outcome of the draw, `_crossover1p` succeeds, its split index `s` lies in
`[0, L_max - 1]`, and the child (before mutation) has `child[i] == mother[i]` for every
`i < s` and `child[i] == father[i]` for every `s <= i < L_max`. -/
theorem crossover1p_structure (cfg : pred_statics) (baby mom dad : List Nat) (s : rand_stream)
    (hL : 0 < cfg._max_genome_length)
    (hb : baby.length = cfg._max_genome_length) (hm : mom.length = cfg._max_genome_length)
    (hd : dad.length = cfg._max_genome_length) :
    ∃ child, _crossover1p cfg baby mom dad s = some (child, rand_tail s) ∧
      child.length = cfg._max_genome_length ∧
      0 ≤ (rand_range 0 ((cfg._max_genome_length : Int) - 1) s).1 ∧
      (rand_range 0 ((cfg._max_genome_length : Int) - 1) s).1
        ≤ (cfg._max_genome_length : Int) - 1 ∧
      (∀ i : Nat, (i : Int) < (rand_range 0 ((cfg._max_genome_length : Int) - 1) s).1 →
        child[i]? = mom[i]?) ∧
      (∀ i : Nat, (rand_range 0 ((cfg._max_genome_length : Int) - 1) s).1 ≤ (i : Int) →
        i < cfg._max_genome_length → child[i]? = dad[i]?) := by
  obtain ⟨h0, h1⟩ := rand_range_bounds 0 ((cfg._max_genome_length : Int) - 1) s (by omega)
  obtain ⟨hc, hlen⟩ := crossover1p_eq cfg baby mom dad s hL hb hm hd
  generalize (rand_range 0 ((cfg._max_genome_length : Int) - 1) s).1 = sp at h0 h1 hc hlen
  have ht : (mom.take sp.toNat).length = sp.toNat := by simp [hm]; omega
  refine ⟨mom.take sp.toNat ++ dad.drop sp.toNat, hc, hlen, h0, h1, ?_, ?_⟩
  · intro i hi
    rw [List.getElem?_append_left (by omega), List.getElem?_take_of_lt (by omega)]
  · intro i hi hiL
    rw [List.getElem?_append_right (by omega), List.getElem?_drop, ht]
    congr 1; omega

/-! ## Single precision helpers -/

theorem c_float.round_even_zero (k : Nat) : c_float.round_even 0 k = 0 := by
  have h : 0 < 2 ^ k := Nat.pow_pos (by decide)
  simp only [c_float.round_even, Nat.zero_mod, Nat.mul_zero, Nat.zero_div]
  rw [if_neg]
  intro hh
  rcases hh with hh | ⟨hh, _⟩ <;> omega

theorem c_float.to_int_nonneg (a : c_float) (h : a.neg = false) : 0 ≤ a.to_int := by
  simp [c_float.to_int, h]

theorem c_float.to_int_eq_floor (a : c_float) (h : a.neg = false) :
    a.to_int = ⌊a.toRat⌋ := by
  simp only [c_float.to_int, c_float.toRat, h, c_float.mag_floor]
  simp only [Bool.false_eq_true, if_false, one_mul]
  by_cases he : 0 ≤ a.exp
  · obtain ⟨k, hk⟩ := Int.eq_ofNat_of_zero_le he
    rw [if_pos he, hk, zpow_natCast, Int.toNat_ofNat]
    have : ((a.mant : ℚ) * 2 ^ k) = ((a.mant * 2 ^ k : Nat) : ℚ) := by push_cast; ring
    rw [this, Int.floor_natCast]
  · rw [if_neg he]
    obtain ⟨k, hk⟩ := Int.eq_ofNat_of_zero_le (show 0 ≤ -a.exp by omega)
    have hexp : a.exp = -(k : Int) := by omega
    rw [hk, Int.toNat_ofNat, hexp, zpow_neg, zpow_natCast]
    have : ((a.mant : ℚ) * ((2 : ℚ) ^ k)⁻¹) = ((a.mant : ℚ) / ((2 ^ k : Nat) : ℚ)) := by
      push_cast; rw [div_eq_mul_inv]
    rw [this, Rat.floor_natCast_div_natCast]
    norm_cast

theorem c_float.mul_zero_mant (a b : c_float) (h : b.mant = 0) : (c_float.mul a b).mant = 0 := by
  simp [c_float.mul, c_float.round, h, c_float.round_even_zero]

theorem c_float.of_int_zero_mant : (c_float.of_int 0).mant = 0 := by
  simp [c_float.of_int, c_float.round, c_float.round_even_zero]

theorem c_float.to_int_zero_mant (a : c_float) (h : a.mant = 0) : a.to_int = 0 := by
  simp [c_float.to_int, c_float.mag_floor, h]

theorem c_float.of_int_nat_neg (n : Nat) : (c_float.of_int (n : Int)).neg = false := by
  simp [c_float.of_int, c_float.round]

theorem c_float.mul_neg (a b : c_float) : (c_float.mul a b).neg = (a.neg != b.neg) := rfl

/-! ## Mutation -/

theorem diff_count_self (a : List Nat) : diff_count a a = 0 := by
  induction a with
  | nil => rfl
  | cons x xs ih => simp [diff_count, ih]

theorem diff_count_set_le (a : List Nat) : ∀ (b : List Nat) (i v : Nat),
    diff_count a (b.set i v) ≤ diff_count a b + 1 := by
  induction a with
  | nil => intro b i v; cases b <;> simp [diff_count]
  | cons x xs ih =>
    intro b i v
    cases b with
    | nil => simp [diff_count]
    | cons y ys =>
      cases i with
      | zero =>
        simp only [List.set_cons_zero, diff_count]
        split <;> split <;> omega
      | succ i =>
        simp only [List.set_cons_succ, diff_count]
        have := ih ys i v
        omega

theorem array_write_some {α : Type} (a : List α) (i : Int) (v : α) (h0 : 0 ≤ i)
    (h1 : i < a.length) : array_write a i v = some (a.set i.toNat v) := by
  unfold array_write
  rw [if_pos ⟨h0, h1⟩]

theorem pred_mutate_step_spec (cfg : pred_statics) (hL : 0 < cfg._max_genome_length) (i : Nat)
    (st : List Nat × rand_stream) (h : st.1.length = cfg._max_genome_length) :
    ∃ st2 j v, pred_mutate_step cfg i st = some st2 ∧ st2.1 = st.1.set j v ∧
      v ≤ cfg._max_gene_value := by
  obtain ⟨h0, h1⟩ :=
    rand_range_bounds 0 ((cfg._max_genome_length : Int) - 1) st.2 (by omega)
  have hw := array_write_some st.1 (rand_range 0 ((cfg._max_genome_length : Int) - 1) st.2).1
    (rand_urange 0 cfg._max_gene_value
      (rand_range 0 ((cfg._max_genome_length : Int) - 1) st.2).2).1 h0 (by rw [h]; omega)
  refine ⟨(st.1.set (rand_range 0 ((cfg._max_genome_length : Int) - 1) st.2).1.toNat
      (rand_urange 0 cfg._max_gene_value
        (rand_range 0 ((cfg._max_genome_length : Int) - 1) st.2).2).1,
      (rand_urange 0 cfg._max_gene_value
        (rand_range 0 ((cfg._max_genome_length : Int) - 1) st.2).2).2), _, _, ?_, rfl,
    (rand_urange_bounds 0 cfg._max_gene_value
      (rand_range 0 ((cfg._max_genome_length : Int) - 1) st.2).2 (Nat.zero_le _)).2⟩
  simp only [pred_mutate_step, hw]

theorem pred_mutate_loop (cfg : pred_statics) (g : List Nat) (hL : 0 < cfg._max_genome_length) :
    ∀ (n i : Nat) (st : List Nat × rand_stream), st.1.length = cfg._max_genome_length →
      ∃ st1, for_loop (pred_mutate_step cfg) i n st = some st1 ∧
        st1.1.length = cfg._max_genome_length ∧
        diff_count g st1.1 ≤ diff_count g st.1 + n := by
  intro n
  induction n with
  | zero => intro i st h; exact ⟨st, rfl, h, by omega⟩
  | succ n ih =>
    intro i st h
    obtain ⟨st2, j, v, hstep, he, _⟩ := pred_mutate_step_spec cfg hL i st h
    obtain ⟨st1, hl, hlen, hd⟩ := ih (i + 1) st2 (by rw [he]; simpa using h)
    refine ⟨st1, ?_, hlen, ?_⟩
    · simp only [for_loop, hstep, hl]
    · have := diff_count_set_le g st.1 j v
      rw [he] at hd
      omega

theorem max_changed_genes_nonneg (cfg : pred_statics) (h : 0 ≤ cfg._mutation_rate.toRat) :
    0 ≤ max_changed_genes cfg := by
  unfold max_changed_genes
  by_cases hn : cfg._mutation_rate.neg = false
  · apply c_float.to_int_nonneg
    rw [c_float.mul_neg, hn, c_float.of_int_nat_neg]; rfl
  · have hm : cfg._mutation_rate.mant = 0 := by
      simp only [Bool.not_eq_false] at hn
      simp only [c_float.toRat, hn, if_true] at h
      by_contra hne
      have h1 : (0 : ℚ) < (cfg._mutation_rate.mant : ℚ) := by
        exact_mod_cast Nat.pos_of_ne_zero hne
      have h2 : (0 : ℚ) < (2 : ℚ) ^ cfg._mutation_rate.exp := zpow_pos (by norm_num) _
      have h3 : (0 : ℚ) < (cfg._mutation_rate.mant : ℚ) * (2 : ℚ) ^ cfg._mutation_rate.exp :=
        mul_pos h1 h2
      linarith
    have : (c_float.mul cfg._mutation_rate (c_float.of_int cfg._max_genome_length)).mant = 0 := by
      simp [c_float.mul, c_float.round, hm, c_float.round_even_zero]
    rw [c_float.to_int_zero_mant _ this]

theorem max_changed_genes_zero_length (cfg : pred_statics) (h : cfg._max_genome_length = 0) :
    max_changed_genes cfg = 0 := by
  unfold max_changed_genes
  apply c_float.to_int_zero_mant
  apply c_float.mul_zero_mant
  rw [h]
  exact c_float.of_int_zero_mant

/-- `pred_mutate` succeeds on an array of `L_max` cells, keeps its length and alters at most
`genes_to_change <= max_changed_genes` positions. -/
theorem pred_mutate_spec (cfg : pred_statics) (genes : List Nat) (s : rand_stream)
    (hrate : 0 ≤ cfg._mutation_rate.toRat) (hlen : genes.length = cfg._max_genome_length) :
    ∃ genes1 s1, pred_mutate cfg genes s = some (genes1, s1) ∧
      genes1.length = cfg._max_genome_length ∧
      (diff_count genes genes1 : Int) ≤ max_changed_genes cfg ∧
      (max_changed_genes cfg ≤ 0 → genes1 = genes) := by
  have hmax := max_changed_genes_nonneg cfg hrate
  obtain ⟨hg0, hg1⟩ := rand_range_bounds 0 (max_changed_genes cfg) s hmax
  unfold pred_mutate
  simp only []
  generalize (rand_range 0 (max_changed_genes cfg) s).1 = k at hg0 hg1
  by_cases hL : cfg._max_genome_length = 0
  · have hz := max_changed_genes_zero_length cfg hL
    have hk : k.toNat = 0 := by omega
    rw [hk]
    refine ⟨genes, _, rfl, hlen, ?_, fun _ => rfl⟩
    rw [diff_count_self]; omega
  · obtain ⟨st1, hl, hlen1, hd⟩ :=
      pred_mutate_loop cfg genes (Nat.pos_of_ne_zero hL) k.toNat 0
        (genes, (rand_range 0 (max_changed_genes cfg) s).2) hlen
    refine ⟨st1.1, st1.2, hl, hlen1, ?_, ?_⟩
    · rw [diff_count_self] at hd
      omega
    · intro hle
      have hk : k.toNat = 0 := by omega
      rw [hk] at hl
      simp only [for_loop, Option.some.injEq] at hl
      rw [← hl]

theorem c_float.nonneg_cases (a : c_float) (h : 0 ≤ a.toRat) : a.neg = false ∨ a.mant = 0 := by
  by_cases hn : a.neg = false
  · exact Or.inl hn
  · right
    simp only [Bool.not_eq_false] at hn
    simp only [c_float.toRat, hn, if_true] at h
    by_contra hne
    have h1 : (0 : ℚ) < (a.mant : ℚ) := by exact_mod_cast Nat.pos_of_ne_zero hne
    have h2 : (0 : ℚ) < (2 : ℚ) ^ a.exp := zpow_pos (by norm_num) _
    have h3 : (0 : ℚ) < (a.mant : ℚ) * (2 : ℚ) ^ a.exp := mul_pos h1 h2
    linarith

theorem max_changed_genes_eq_floor (cfg : pred_statics) (h : 0 ≤ cfg._mutation_rate.toRat) :
    max_changed_genes cfg
      = ⌊(c_float.mul cfg._mutation_rate (c_float.of_int cfg._max_genome_length)).toRat⌋ := by
  unfold max_changed_genes
  rcases c_float.nonneg_cases _ h with hn | hm
  · apply c_float.to_int_eq_floor
    rw [c_float.mul_neg, hn, c_float.of_int_nat_neg]; rfl
  · have hz : (c_float.mul cfg._mutation_rate (c_float.of_int cfg._max_genome_length)).mant
        = 0 := by
      simp [c_float.mul, c_float.round, hm, c_float.round_even_zero]
    rw [c_float.to_int_zero_mant _ hz]
    simp [c_float.toRat, hz]

/-- C7, the claim as stated fails.  With the mutation rate 0.7f and `L_max = 10` the exact
product `mutation_rate * L_max` is 6.9999998.., its floor 6, but the single precision product is
7.0 and a call of `pred_mutate` alters 7 positions.  With the rate 0.04f and `L_max = 25` the
exact product is below 1, the single precision product is 1.0 and a call alters a gene. -/
theorem pred_mutate_exceeds_exact_floor :
    ⌊pred_cfg_rate_0_7._mutation_rate.toRat * (pred_cfg_rate_0_7._max_genome_length : ℚ)⌋ = 6 ∧
    max_changed_genes pred_cfg_rate_0_7 = 7 ∧
    (pred_mutate pred_cfg_rate_0_7 (List.replicate 10 0) rand_seven_example).map
        (fun r => (r.1, diff_count (List.replicate 10 0) r.1))
      = some ([1, 1, 1, 1, 1, 1, 1, 0, 0, 0], 7) ∧
    pred_cfg_rate_0_04._mutation_rate.toRat * (pred_cfg_rate_0_04._max_genome_length : ℚ) < 1 ∧
    (pred_mutate pred_cfg_rate_0_04 (List.replicate 25 0) rand_one_example).map
        (fun r => diff_count (List.replicate 25 0) r.1) = some 1 := by
  refine ⟨?_, by decide, by decide, ?_, by decide⟩
  · rw [Int.floor_eq_iff]
    norm_num [pred_cfg_rate_0_7, float_0_7, c_float.toRat]
  · norm_num [pred_cfg_rate_0_04, float_0_04, c_float.toRat]

/-- C7 as amended.  Mutation bound: for a mutation rate that is not negative, every gene array
of `L_max` cells and every outcome of the random draws, `pred_mutate` succeeds and the number of
positions at which the array differs before and after the call never exceeds the floor of the
product `mutation_rate * L_max` as the code computes it, in single precision (the exact product
rounded to the nearest `float`); in particular the array is unchanged when that rounded product
is below 1. -/
theorem pred_mutate_bound (cfg : pred_statics) (genes : List Nat) (s : rand_stream)
    (hrate : 0 ≤ cfg._mutation_rate.toRat) (hlen : genes.length = cfg._max_genome_length) :
    ∃ genes1 s1, pred_mutate cfg genes s = some (genes1, s1) ∧
      genes1.length = genes.length ∧
      (diff_count genes genes1 : Int)
        ≤ ⌊(c_float.mul cfg._mutation_rate (c_float.of_int cfg._max_genome_length)).toRat⌋ ∧
      ((c_float.mul cfg._mutation_rate (c_float.of_int cfg._max_genome_length)).toRat < 1 →
        genes1 = genes) := by
  obtain ⟨genes1, s1, h1, h2, h3, h4⟩ := pred_mutate_spec cfg genes s hrate hlen
  refine ⟨genes1, s1, h1, by rw [h2, hlen], ?_, ?_⟩
  · rw [← max_changed_genes_eq_floor cfg hrate]; exact h3
  · intro hlt
    apply h4
    rw [max_changed_genes_eq_floor cfg hrate]
    have : ⌊(c_float.mul cfg._mutation_rate
        (c_float.of_int cfg._max_genome_length)).toRat⌋ < 1 := by
      rw [Int.floor_lt]; exact_mod_cast hlt
    omega

theorem pred_mutate_bound_witness :
    0 ≤ pred_cfg_example._mutation_rate.toRat ∧
    [1, 2, 3, 4].length = pred_cfg_example._max_genome_length ∧
    ∃ genes1 s1, pred_mutate pred_cfg_example [1, 2, 3, 4] rand_example = some (genes1, s1) ∧
      genes1.length = [1, 2, 3, 4].length ∧
      (diff_count [1, 2, 3, 4] genes1 : Int)
        ≤ ⌊(c_float.mul pred_cfg_example._mutation_rate
            (c_float.of_int pred_cfg_example._max_genome_length)).toRat⌋ ∧
      ((c_float.mul pred_cfg_example._mutation_rate
          (c_float.of_int pred_cfg_example._max_genome_length)).toRat < 1 →
        genes1 = [1, 2, 3, 4]) :=
  ⟨by norm_num [pred_cfg_example, c_float.toRat], rfl,
    pred_mutate_bound pred_cfg_example [1, 2, 3, 4] rand_example
      (by norm_num [pred_cfg_example, c_float.toRat]) rfl⟩

theorem crossover1p_structure_witness :
    0 < pred_cfg_example._max_genome_length ∧
    ∃ child, _crossover1p pred_cfg_example [0, 0, 0, 0] [1, 2, 3, 4] [5, 6, 7, 8] rand_example
        = some (child, rand_tail rand_example) ∧
      child.length = pred_cfg_example._max_genome_length ∧
      0 ≤ (rand_range 0 ((pred_cfg_example._max_genome_length : Int) - 1) rand_example).1 ∧
      (rand_range 0 ((pred_cfg_example._max_genome_length : Int) - 1) rand_example).1
        ≤ (pred_cfg_example._max_genome_length : Int) - 1 ∧
      (∀ i : Nat,
        (i : Int) < (rand_range 0 ((pred_cfg_example._max_genome_length : Int) - 1)
          rand_example).1 → child[i]? = [1, 2, 3, 4][i]?) ∧
      (∀ i : Nat,
        (rand_range 0 ((pred_cfg_example._max_genome_length : Int) - 1) rand_example).1
          ≤ (i : Int) →
        i < pred_cfg_example._max_genome_length → child[i]? = [5, 6, 7, 8][i]?) :=
  ⟨by decide, crossover1p_structure pred_cfg_example [0, 0, 0, 0] [1, 2, 3, 4] [5, 6, 7, 8]
    rand_example (by decide) rfl rfl rfl⟩

/-! ## Fitness order -/

theorem ga_bos_refl {F : Type} [LinearOrder F] (t : ga_problem_type_t) (a : F) :
    ga_is_better_or_same t a a = true := by
  cases t <;> simp [ga_is_better_or_same]

theorem ga_bos_trans {F : Type} [LinearOrder F] (t : ga_problem_type_t) (a b c : F)
    (h1 : ga_is_better_or_same t a b = true) (h2 : ga_is_better_or_same t b c = true) :
    ga_is_better_or_same t a c = true := by
  cases t <;> simp only [ga_is_better_or_same, decide_eq_true_eq] at *
  · exact le_trans h1 h2
  · exact le_trans h2 h1

theorem ga_not_better_iff {F : Type} [LinearOrder F] (t : ga_problem_type_t) (a b : F) :
    ga_is_better t a b = false ↔ ga_is_better_or_same t b a = true := by
  cases t <;> simp [ga_is_better, ga_is_better_or_same]

theorem ga_better_bos {F : Type} [LinearOrder F] (t : ga_problem_type_t) (a b : F)
    (h : ga_is_better t a b = true) : ga_is_better_or_same t a b = true := by
  cases t <;> simp only [ga_is_better, ga_is_better_or_same, decide_eq_true_eq] at *
  · exact le_of_lt h
  · exact le_of_lt h

/-! ## Elite search -/

theorem find_best_step_spec {G F : Type} [LinearOrder F] (pop : ga_pop G F)
    (ops : List _offspring_op) (hops : ops.length = pop.size)
    (hchr : pop.chromosomes.length = pop.size) (i : Nat) (hi : i < pop.size) (st : F × Int) :
    ∃ st2, find_best_step pop ops i st = some st2 ∧
      ga_is_better_or_same pop.problem_type st2.1 st.1 = true ∧
      (∀ c, ops[i]? ≠ some _offspring_op.keep_intact → pop.chromosomes[i]? = some c →
        ga_is_better_or_same pop.problem_type st2.1 c.fitness = true) ∧
      (st2 = st ∨ (st2.2 = (i : Int) ∧ ops[i]? ≠ some _offspring_op.keep_intact ∧
        ∃ c, pop.chromosomes[i]? = some c ∧ c.fitness = st2.1 ∧
          ga_is_better pop.problem_type st2.1 st.1 = true)) := by
  have h1 : ops[i]? = some ops[i] := List.getElem?_eq_getElem (by omega)
  have h2 : pop.chromosomes[i]? = some pop.chromosomes[i] := List.getElem?_eq_getElem (by omega)
  unfold find_best_step
  rw [h1, h2]
  simp only []
  by_cases hk : ops[i] = _offspring_op.keep_intact
  · rw [if_neg (by simpa using hk)]
    refine ⟨st, rfl, ga_bos_refl _ _, ?_, Or.inl rfl⟩
    intro c hc; simp [hk] at hc
  · rw [if_pos hk]
    by_cases hb : ga_is_better pop.problem_type pop.chromosomes[i].fitness st.1 = true
    · rw [if_pos hb]
      refine ⟨_, rfl, ga_better_bos _ _ _ hb, ?_, Or.inr ⟨rfl, by simpa using hk, _, rfl, rfl, hb⟩⟩
      intro c _ hc
      simp only [Option.some.injEq] at hc
      subst hc
      exact ga_bos_refl _ _
    · rw [if_neg hb]
      refine ⟨st, rfl, ga_bos_refl _ _, ?_, Or.inl rfl⟩
      intro c _ hc
      simp only [Option.some.injEq] at hc
      subst hc
      exact (ga_not_better_iff _ _ _).1 (by simpa using hb)

theorem find_best_loop_spec {G F : Type} [LinearOrder F] (pop : ga_pop G F)
    (ops : List _offspring_op) (hops : ops.length = pop.size)
    (hchr : pop.chromosomes.length = pop.size) :
    ∀ (n i : Nat) (st : F × Int), i + n ≤ pop.size →
      ∃ st1, for_loop (find_best_step pop ops) i n st = some st1 ∧
        ga_is_better_or_same pop.problem_type st1.1 st.1 = true ∧
        (∀ j c, i ≤ j → j < i + n → ops[j]? ≠ some _offspring_op.keep_intact →
          pop.chromosomes[j]? = some c →
          ga_is_better_or_same pop.problem_type st1.1 c.fitness = true) ∧
        (st1 = st ∨ ∃ j, i ≤ j ∧ j < i + n ∧ st1.2 = (j : Int) ∧
          ops[j]? ≠ some _offspring_op.keep_intact ∧
          ∃ c, pop.chromosomes[j]? = some c ∧ c.fitness = st1.1) := by
  intro n
  induction n with
  | zero =>
    intro i st _
    exact ⟨st, rfl, ga_bos_refl _ _, fun j c h1 h2 => absurd h2 (by omega), Or.inl rfl⟩
  | succ n ih =>
    intro i st hin
    obtain ⟨st2, hs, hb2, hc2, hd2⟩ :=
      find_best_step_spec pop ops hops hchr i (by omega) st
    obtain ⟨st1, hl, hb1, hc1, hd1⟩ := ih (i + 1) st2 (by omega)
    refine ⟨st1, ?_, ga_bos_trans _ _ _ _ hb1 hb2, ?_, ?_⟩
    · simp only [for_loop, hs, hl]
    · intro j c hj1 hj2 hk hc
      by_cases hji : j = i
      · subst hji
        exact ga_bos_trans _ _ _ _ hb1 (hc2 c hk hc)
      · exact hc1 j c (by omega) (by omega) hk hc
    · rcases hd1 with h | ⟨j, hj1, hj2, hj3, hj4, hj5⟩
      · rcases hd2 with h2 | ⟨h3, h4, c, h5, h6, _⟩
        · left; rw [h, h2]
        · right
          exact ⟨i, le_refl _, by omega, by rw [h]; exact h3, h4, c, h5, by rw [h]; exact h6⟩
      · right
        exact ⟨j, by omega, by omega, hj3, hj4, hj5⟩


theorem exists_not_keep (ops : List _offspring_op)
    (h : ops.count _offspring_op.keep_intact < ops.length) :
    ∃ j, ∃ hj : j < ops.length, ops[j] ≠ _offspring_op.keep_intact := by
  by_contra hcon
  have hall : ∀ b ∈ ops, _offspring_op.keep_intact = b := by
    intro b hb
    obtain ⟨n, hn, hnb⟩ := List.getElem_of_mem hb
    by_contra hne
    exact hcon ⟨n, hn, by rw [hnb]; exact fun h => hne h.symm⟩
  have := List.count_eq_length.2 hall
  omega

theorem find_elites_rounds_spec {G F : Type} [LinearOrder F]
    (ga_worst_fitness : ga_problem_type_t → F) (pop : ga_pop G F)
    (hchr : pop.chromosomes.length = pop.size)
    (hfit : ∀ c ∈ pop.chromosomes,
      ga_is_better pop.problem_type c.fitness (ga_worst_fitness pop.problem_type) = true) :
    ∀ (count : Nat) (ops : List _offspring_op), ops.length = pop.size →
      ops.count _offspring_op.keep_intact + count ≤ pop.size → elites_best pop ops →
      ∃ ops1, _find_elites_rounds ga_worst_fitness pop count ops = some ops1 ∧
        ops1.length = pop.size ∧
        ops1.count _offspring_op.keep_intact = ops.count _offspring_op.keep_intact + count ∧
        elites_best pop ops1 ∧
        (∀ i : Nat, ops1[i]? ≠ some _offspring_op.keep_intact → ops1[i]? = ops[i]?) := by
  intro count
  induction count with
  | zero =>
    intro ops hops _ hbest
    exact ⟨ops, rfl, hops, rfl, hbest, fun _ _ => rfl⟩
  | succ count ih =>
    intro ops hops hcnt hbest
    obtain ⟨st1, hl, _, hall, hsel⟩ :=
      find_best_loop_spec pop ops hops hchr pop.size 0
        (ga_worst_fitness pop.problem_type, (-1 : Int)) (by omega)
    -- an unclaimed candidate exists, so the search does not end with index -1
    obtain ⟨k, hk, hkne⟩ := exists_not_keep ops (by omega)
    have hkc : pop.chromosomes[k]? = some pop.chromosomes[k] :=
      List.getElem?_eq_getElem (by omega)
    have hko : ops[k]? ≠ some _offspring_op.keep_intact := by
      rw [List.getElem?_eq_getElem hk]; simpa using hkne
    have hsel2 : ∃ j, j < pop.size ∧ st1.2 = (j : Int) ∧
        ops[j]? ≠ some _offspring_op.keep_intact ∧
        ∃ c, pop.chromosomes[j]? = some c ∧ c.fitness = st1.1 := by
      rcases hsel with h | ⟨j, _, hj2, hj3, hj4, hj5⟩
      · exfalso
        have h1 := hall k _ (Nat.zero_le _) (by omega) hko hkc
        rw [h] at h1
        have h2 := hfit _ (List.getElem_mem (by omega : k < pop.chromosomes.length))
        have h3 := (ga_not_better_iff pop.problem_type pop.chromosomes[k].fitness
          (ga_worst_fitness pop.problem_type)).2 h1
        rw [h2] at h3
        exact Bool.noConfusion h3
      · exact ⟨j, by omega, hj3, hj4, hj5⟩
    obtain ⟨j, hj, hj3, hj4, cj, hcj, hcjf⟩ := hsel2
    have hjl : j < ops.length := by omega
    have hoj : ops[j] ≠ _offspring_op.keep_intact := by
      intro h; apply hj4; rw [List.getElem?_eq_getElem hjl, h]
    have hw : array_write ops st1.2 _offspring_op.keep_intact
        = some (ops.set j _offspring_op.keep_intact) := by
      rw [array_write_some ops st1.2 _ (by omega) (by omega), hj3, Int.toNat_ofNat]
    have hcount : (ops.set j _offspring_op.keep_intact).count _offspring_op.keep_intact
        = ops.count _offspring_op.keep_intact + 1 := by
      rw [List.count_set _ _ _ _ hjl]
      simp [hoj]
    have hbest1 : elites_best pop (ops.set j _offspring_op.keep_intact) := by
      intro a b ca cb ha hb hca hcb
      rw [List.getElem?_set] at ha hb
      by_cases hja : j = a
      · subst hja
        have hjb : ¬ j = b := by
          intro h; subst h; simp [hjl] at hb
        rw [if_neg hjb] at hb
        rw [hcj] at hca
        simp only [Option.some.injEq] at hca
        subst hca
        rw [hcjf]
        have hbl : b < pop.size := by
          have := (List.getElem?_eq_some_iff.1 hcb).1
          omega
        exact hall b cb (Nat.zero_le _) (by omega) hb hcb
      · rw [if_neg hja] at ha
        by_cases hjb : j = b
        · subst hjb; simp [hjl] at hb
        · rw [if_neg hjb] at hb
          exact hbest a b ca cb ha hb hca hcb
    obtain ⟨ops1, hr, hlen1, hcount1, hbest2, hrest⟩ :=
      ih (ops.set j _offspring_op.keep_intact) (by simpa using hops) (by omega) hbest1
    refine ⟨ops1, ?_, hlen1, by omega, hbest2, ?_⟩
    · simp only [_find_elites_rounds, hl, hw, hr]
    · intro i hi
      rw [hrest i hi, List.getElem?_set]
      by_cases hji : j = i
      · subst hji
        exfalso
        apply hi
        have := hrest j
        by_contra hne
        have h2 := this hne
        rw [List.getElem?_set, if_pos rfl, if_pos hjl] at h2
        exact hne h2
      · rw [if_neg hji]




/-! ## Crossover assignment -/

theorem assign_crossover_spec (cc : Int) (size : Nat) :
    ∀ (fuel i : Nat) (cset : Int) (ops : List _offspring_op), ops.length = size →
      size + 1 ≤ fuel + i → i ≤ size →
      (cc - cset).toNat
        ≤ List.countP is_unclaimed (ops.drop i) →
      (∀ j : Nat, i ≤ j → ops[j]? ≠ some _offspring_op.crossover_product) →
      ∃ ops1, assign_crossover cc fuel i cset ops = some ops1 ∧ ops1.length = size ∧
        ops1.count _offspring_op.keep_intact = ops.count _offspring_op.keep_intact ∧
        ops1.count _offspring_op.crossover_product
          = ops.count _offspring_op.crossover_product + (cc - cset).toNat ∧
        (∀ j : Nat, ops1[j]? = some _offspring_op.keep_intact ↔
          ops[j]? = some _offspring_op.keep_intact) := by
  intro fuel
  induction fuel with
  | zero => intro i cset ops _ h1 h2; omega
  | succ fuel ih =>
    intro i cset ops hlen hfuel hi havail hnocross
    unfold assign_crossover
    by_cases hlt : cset < cc
    · rw [if_pos hlt]
      have hpos : 0 < List.countP is_unclaimed
          (ops.drop i) := by omega
      have hil : i < ops.length := by
        by_contra hge
        rw [List.drop_of_length_le (by omega)] at hpos
        simp at hpos
      rw [List.getElem?_eq_getElem hil]
      simp only []
      have hdrop := List.drop_eq_getElem_cons hil
      rw [hdrop, List.countP_cons] at havail
      by_cases hk : ops[i] = _offspring_op.keep_intact
      · rw [if_neg (by simpa using hk)]
        have hav : (cc - cset).toNat
            ≤ List.countP is_unclaimed
              (ops.drop (i + 1)) := by
          have hu : is_unclaimed ops[i] = false := by rw [hk]; rfl
          rw [hu] at havail
          simpa using havail
        exact ih (i + 1) cset ops hlen (by omega) (by omega) hav
          (fun j hj => hnocross j (by omega))
      · rw [if_pos hk]
        have hav : (cc - (cset + 1)).toNat
            ≤ List.countP is_unclaimed
              ((ops.set i _offspring_op.crossover_product).drop (i + 1)) := by
          rw [List.drop_set_of_lt _ _ (by omega)]
          have hu : is_unclaimed ops[i] = true := by
            unfold is_unclaimed; exact decide_eq_true hk
          rw [hu, if_pos rfl] at havail
          omega
        have hnc : ∀ j : Nat, i + 1 ≤ j →
            (ops.set i _offspring_op.crossover_product)[j]?
              ≠ some _offspring_op.crossover_product := by
          intro j hj
          rw [List.getElem?_set_ne (by omega)]
          exact hnocross j (by omega)
        obtain ⟨ops1, hr, hl1, hck, hcc, hkeep⟩ :=
          ih (i + 1) (cset + 1) (ops.set i _offspring_op.crossover_product)
            (by simpa using hlen) (by omega) (by omega) hav hnc
        have hnotc : ops[i] ≠ _offspring_op.crossover_product := by
          intro h
          apply hnocross i (le_refl _)
          rw [List.getElem?_eq_getElem hil, h]
        refine ⟨ops1, hr, hl1, ?_, ?_, ?_⟩
        · rw [hck, List.count_set _ _ _ _ hil]
          simp [hk]
        · rw [hcc, List.count_set _ _ _ _ hil]
          simp [hnotc]
          omega
        · intro j
          rw [hkeep j, List.getElem?_set]
          by_cases hij : i = j
          · subst hij
            rw [if_pos rfl, if_pos hil, List.getElem?_eq_getElem hil]
            simp [hk]
          · rw [if_neg hij]
    · rw [if_neg hlt]
      refine ⟨ops, rfl, hlen, rfl, ?_, fun _ => Iff.rfl⟩
      have : (cc - cset).toNat = 0 := by omega
      omega

theorem count_three (ops : List _offspring_op) :
    ops.count _offspring_op.keep_intact + ops.count _offspring_op.crossover_product
      + ops.count _offspring_op.random_mutant = ops.length := by
  induction ops with
  | nil => rfl
  | cons o os ih =>
    cases o <;> simp [List.count_cons] <;> omega

theorem countP_not_keep (ops : List _offspring_op) :
    List.countP is_unclaimed ops
      = ops.length - ops.count _offspring_op.keep_intact := by
  induction ops with
  | nil => rfl
  | cons o os ih =>
    have := List.count_le_length _offspring_op.keep_intact os
    cases o <;> simp [List.count_cons, List.countP_cons, ih, is_unclaimed] <;> omega




theorem c_ceil_nonneg (a : c_float) (h : a.neg = false ∨ a.mant = 0) : 0 ≤ c_ceil a := by
  unfold c_ceil
  by_cases hn : a.neg = true
  · rw [if_pos hn]
    rcases h with h | h
    · rw [h] at hn; exact Bool.noConfusion hn
    · simp [c_float.mag_floor, h]
  · rw [if_neg hn]; exact Int.ofNat_nonneg _

theorem c_float.mul_of_int_nat_sign (n : Nat) (b : c_float) (h : 0 ≤ b.toRat) :
    (c_float.mul (c_float.of_int (n : Int)) b).neg = false ∨
      (c_float.mul (c_float.of_int (n : Int)) b).mant = 0 := by
  rcases c_float.nonneg_cases b h with hn | hm
  · left
    rw [c_float.mul_neg, hn, c_float.of_int_nat_neg]; rfl
  · right
    simp [c_float.mul, c_float.round, hm, c_float.round_even_zero]

theorem elite_count_nonneg {G F : Type} (cfg : pred_statics) (pop : ga_pop G F)
    (h : 0 ≤ cfg._offspring_elite.toRat) : 0 ≤ elite_count cfg pop :=
  c_ceil_nonneg _ (c_float.mul_of_int_nat_sign pop.size _ h)

theorem crossover_count_nonneg {G F : Type} (cfg : pred_statics) (pop : ga_pop G F)
    (h : 0 ≤ cfg._offspring_combine.toRat) : 0 ≤ crossover_count cfg pop :=
  c_ceil_nonneg _ (c_float.mul_of_int_nat_sign pop.size _ h)

/-- The policy array of `pred_offspring`: under the asserted bound and with every fitness
strictly better than `ga_worst_fitness`, elite search and crossover assignment succeed and
mark exactly `elite_count` and `crossover_count` slots; the marked elites are the best. -/
theorem offspring_child_type_spec {G F : Type} [LinearOrder F]
    (ga_worst_fitness : ga_problem_type_t → F) (cfg : pred_statics) (pop : ga_pop G F)
    (hchr : pop.chromosomes.length = pop.size)
    (hfit : ∀ c ∈ pop.chromosomes,
      ga_is_better pop.problem_type c.fitness (ga_worst_fitness pop.problem_type) = true)
    (he : 0 ≤ cfg._offspring_elite.toRat) (hc : 0 ≤ cfg._offspring_combine.toRat)
    (hassert : elite_count cfg pop + crossover_count cfg pop ≤ (pop.size : Int)) :
    ∃ child_type, offspring_child_type ga_worst_fitness cfg pop = some child_type ∧
      child_type.length = pop.size ∧
      child_type.count _offspring_op.keep_intact = (elite_count cfg pop).toNat ∧
      child_type.count _offspring_op.crossover_product = (crossover_count cfg pop).toNat ∧
      elites_best pop child_type := by
  have he0 := elite_count_nonneg cfg pop he
  have hc0 := crossover_count_nonneg cfg pop hc
  have hinit_keep : (List.replicate pop.size _offspring_op.random_mutant).count
      _offspring_op.keep_intact = 0 := by
    rw [List.count_replicate]; rfl
  have hinit_best : elites_best pop (List.replicate pop.size _offspring_op.random_mutant) := by
    intro i j ci cj hi
    rw [List.getElem?_replicate] at hi
    split at hi <;> simp at hi
  obtain ⟨ops1, hr, hl1, hk1, hb1, hrest⟩ :=
    find_elites_rounds_spec ga_worst_fitness pop hchr hfit (elite_count cfg pop).toNat
      (List.replicate pop.size _offspring_op.random_mutant) (by simp)
      (by rw [hinit_keep]; omega) hinit_best
  rw [hinit_keep, Nat.zero_add] at hk1
  have hnocross : ∀ j : Nat, ops1[j]? ≠ some _offspring_op.crossover_product := by
    intro j hj
    have h1 := hrest j (by rw [hj]; simp)
    rw [hj, List.getElem?_replicate] at h1
    split at h1 <;> simp at h1
  have hcross0 : ops1.count _offspring_op.crossover_product = 0 := by
    rw [List.count_eq_zero]
    intro hmem
    obtain ⟨n, hn, hnb⟩ := List.getElem_of_mem hmem
    exact hnocross n (by rw [List.getElem?_eq_getElem hn, hnb])
  obtain ⟨ct, hr2, hl2, hk2, hc2, hkeep⟩ :=
    assign_crossover_spec (crossover_count cfg pop) pop.size (pop.size + 1) 0 0 ops1 hl1
      (by omega) (by omega)
      (by rw [List.drop_zero, countP_not_keep, hl1, hk1]; omega)
      (fun j _ => hnocross j)
  refine ⟨ct, ?_, hl2, by rw [hk2, hk1], by rw [hc2, hcross0]; simp, ?_⟩
  · unfold offspring_child_type _find_elites
    rw [if_pos hassert, hr]
    exact hr2
  · intro i j ci cj hi hj hci hcj
    exact hb1 i j ci cj ((hkeep i).1 hi) (fun h => hj ((hkeep j).2 h)) hci hcj


/-! ## Production loop -/

theorem for_loop_slotwise {α τ : Type} (size : Nat)
    (body : Nat → List α × τ → Option (List α × τ)) (init : List α) (Q : Nat → α → Prop)
    (hbody : ∀ (i : Nat) (st : List α × τ), i < size → st.1.length = size →
      st.1[i]? = init[i]? → ∃ v t, body i st = some (st.1.set i v, t) ∧ Q i v) :
    ∀ (n i : Nat) (st : List α × τ), i + n ≤ size → st.1.length = size →
      (∀ j : Nat, i ≤ j → st.1[j]? = init[j]?) →
      ∃ st1, for_loop body i n st = some st1 ∧ st1.1.length = size ∧
        (∀ j : Nat, i ≤ j → j < i + n → ∃ v, st1.1[j]? = some v ∧ Q j v) ∧
        (∀ j : Nat, j < i ∨ i + n ≤ j → st1.1[j]? = st.1[j]?) := by
  intro n
  induction n with
  | zero =>
    intro i st _ hlen _
    exact ⟨st, rfl, hlen, fun j h1 h2 => absurd h2 (by omega), fun _ _ => rfl⟩
  | succ n ih =>
    intro i st hin hlen hinit
    obtain ⟨v, t, hb, hq⟩ := hbody i st (by omega) hlen (hinit i (le_refl _))
    obtain ⟨st1, hl, hlen1, hQ, hrest⟩ := ih (i + 1) (st.1.set i v, t) (by omega)
      (by simpa using hlen)
      (fun j hj => by
        show (st.1.set i v)[j]? = init[j]?
        rw [List.getElem?_set_ne (by omega)]; exact hinit j (by omega))
    refine ⟨st1, ?_, hlen1, ?_, ?_⟩
    · simp only [for_loop, hb, hl]
    · intro j hj1 hj2
      by_cases hji : j = i
      · subst hji
        refine ⟨v, ?_, hq⟩
        rw [hrest j (Or.inl (by omega))]
        show (st.1.set j v)[j]? = some v
        rw [List.getElem?_set_self (by omega)]
      · exact hQ j (by omega) (by omega)
    · intro j hj
      rw [hrest j (by omega)]
      show (st.1.set i v)[j]? = st.1[j]?
      rw [List.getElem?_set_ne (by omega)]

theorem pred_randomize_genome_spec {F : Type} (cfg : pred_statics)
    (chromosome : ga_chr pred_genome F) (s : rand_stream)
    (hlen : chromosome.genome.genes.length = cfg._max_genome_length) :
    ∃ genes s1, pred_randomize_genome cfg chromosome s
        = some (0, { chromosome with
                       genome := { genes := genes,
                                   used_genes := cfg._initial_genome_length } }, s1) ∧
      genes.length = cfg._max_genome_length ∧
      ∀ j : Nat, j < cfg._max_genome_length →
        ∃ v, genes[j]? = some v ∧ v ≤ cfg._max_gene_value := by
  obtain ⟨st1, hl, hlen1, hQ, _⟩ :=
    for_loop_slotwise cfg._max_genome_length (pred_randomize_step cfg)
      chromosome.genome.genes (fun _ v => v ≤ cfg._max_gene_value)
      (fun i st hi hl _ => by
        refine ⟨(rand_urange 0 cfg._max_gene_value st.2).1,
          (rand_urange 0 cfg._max_gene_value st.2).2, ?_,
          (rand_urange_bounds 0 cfg._max_gene_value st.2 (Nat.zero_le _)).2⟩
        unfold pred_randomize_step
        rw [array_write_some _ _ _ (by omega) (by rw [hl]; omega)]
        simp)
      cfg._max_genome_length 0 (chromosome.genome.genes, s) (by omega) hlen (fun _ _ => rfl)
  refine ⟨st1.1, st1.2, ?_, hlen1, fun j hj => hQ j (Nat.zero_le _) (by omega)⟩
  unfold pred_randomize_genome
  rw [hl]

theorem pred_copy_genome_spec (cfg : pred_statics) (dst src : pred_genome)
    (hd : dst.genes.length = cfg._max_genome_length)
    (hs : src.genes.length = cfg._max_genome_length) :
    pred_copy_genome cfg dst src = some src := by
  unfold pred_copy_genome
  rw [memcpy_some _ _ _ _ _ (by omega) (by simp [hd]) (by simp [hs])]
  simp only [Int.toNat_ofNat, List.take_zero, List.drop_zero, List.nil_append, Nat.zero_add]
  rw [List.take_of_length_le (by omega), List.drop_of_length_le (by omega), List.append_nil]

theorem array_read_some {α : Type} (a : List α) (i : Int) (h0 : 0 ≤ i) (h1 : i < a.length) :
    ∃ x, array_read a i = some x ∧ x ∈ a := by
  have hlt : i.toNat < a.length := by omega
  refine ⟨a[i.toNat], ?_, List.getElem_mem hlt⟩
  unfold array_read
  rw [if_pos h0, List.getElem?_eq_getElem hlt]

theorem select_parent_spec {F : Type} [LinearOrder F] (pop : ga_pop pred_genome F)
    (s : rand_stream) (hsize : 0 < pop.size) (hchr : pop.chromosomes.length = pop.size) :
    ∃ p s1, select_parent pop s = some (p, s1) ∧ p ∈ pop.chromosomes := by
  obtain ⟨hr0, hr1⟩ := rand_range_bounds 0 ((pop.size : Int) - 1) s (by omega)
  obtain ⟨hb0, hb1⟩ := rand_range_bounds 0 ((pop.size : Int) - 1)
    (rand_range 0 ((pop.size : Int) - 1) s).2 (by omega)
  obtain ⟨r, hr, hrm⟩ := array_read_some pop.chromosomes _ hr0 (by rw [hchr]; omega)
  obtain ⟨b, hb, hbm⟩ := array_read_some pop.chromosomes _ hb0 (by rw [hchr]; omega)
  refine ⟨_tournament pop r b,
    (rand_range 0 ((pop.size : Int) - 1) (rand_range 0 ((pop.size : Int) - 1) s).2).2, ?_, ?_⟩
  · unfold select_parent
    simp only [hr, hb]
  · unfold _tournament
    split
    · exact hrm
    · exact hbm

theorem create_combined_spec {F : Type} [LinearOrder F] (cfg : pred_statics)
    (pop : ga_pop pred_genome F) (children : List Nat) (s : rand_stream)
    (hL : 0 < cfg._max_genome_length) (hrate : 0 ≤ cfg._mutation_rate.toRat)
    (hsize : 0 < pop.size) (hchr : pop.chromosomes.length = pop.size)
    (hgenes : ∀ c ∈ pop.chromosomes, c.genome.genes.length = cfg._max_genome_length)
    (hlen : children.length = cfg._max_genome_length) :
    ∃ genes s1, _create_combined cfg pop children s = some (genes, s1) ∧
      genes.length = cfg._max_genome_length := by
  obtain ⟨mom, s1, hm, hmm⟩ := select_parent_spec pop s hsize hchr
  obtain ⟨dad, s2, hd, hdm⟩ := select_parent_spec pop s1 hsize hchr
  obtain ⟨hc, hbl⟩ := crossover1p_eq cfg children mom.genome.genes
    dad.genome.genes s2 hL hlen (hgenes mom hmm) (hgenes dad hdm)
  obtain ⟨genes, s3, hmu, hgl, _⟩ := pred_mutate_spec cfg _ (rand_tail s2) hrate hbl
  refine ⟨genes, s3, ?_, hgl⟩
  unfold _create_combined
  simp only [hm, hd, hc, hmu]




theorem offspring_step_spec {F : Type} [LinearOrder F] (cfg : pred_statics)
    (pop : ga_pop pred_genome F) (child_type : List _offspring_op)
    (hL : 0 < cfg._max_genome_length) (hrate : 0 ≤ cfg._mutation_rate.toRat)
    (hchr : pop.chromosomes.length = pop.size) (hchl : pop.children.length = pop.size)
    (hgenes : ∀ c ∈ pop.chromosomes, c.genome.genes.length = cfg._max_genome_length)
    (hchild : ∀ c ∈ pop.children, c.genome.genes.length = cfg._max_genome_length)
    (hct : child_type.length = pop.size)
    (i : Nat) (st : List (ga_chr pred_genome F) × rand_stream) (hi : i < pop.size)
    (_hlen : st.1.length = pop.size) (hinit : st.1[i]? = pop.children[i]?) :
    ∃ v t, offspring_step cfg pop child_type i st = some (st.1.set i v, t) ∧
      offspring_slot_spec cfg pop child_type i v := by
  have h1 : child_type[i]? = some child_type[i] := List.getElem?_eq_getElem (by omega)
  have h2 : st.1[i]? = some pop.children[i] := by
    rw [hinit]; exact List.getElem?_eq_getElem (by omega)
  have h3 : pop.chromosomes[i]? = some pop.chromosomes[i] :=
    List.getElem?_eq_getElem (by omega)
  have hcl : pop.children[i].genome.genes.length = cfg._max_genome_length :=
    hchild _ (List.getElem_mem (by omega))
  have hpl : pop.chromosomes[i].genome.genes.length = cfg._max_genome_length :=
    hgenes _ (List.getElem_mem (by omega))
  unfold offspring_step
  rw [h1, h2]
  simp only []
  by_cases hk : child_type[i] = _offspring_op.keep_intact
  · rw [if_pos hk, h3]
    simp only [ga_copy_chr, pred_copy_genome_spec cfg _ _ hcl hpl]
    refine ⟨_, _, rfl, ?_, ?_, hpl⟩
    · intro _
      exact ⟨pop.chromosomes[i], h3, rfl, rfl, rfl⟩
    · intro hne
      exact absurd (by rw [h1, hk]) hne
  · rw [if_neg hk]
    have hne : child_type[i]? ≠ some _offspring_op.keep_intact := by
      rw [h1]; simpa using hk
    by_cases hc : child_type[i] = _offspring_op.crossover_product
    · rw [if_pos hc]
      obtain ⟨genes, s1, hcc, hgl⟩ := create_combined_spec cfg pop
        pop.children[i].genome.genes st.2 hL hrate (by omega) hchr hgenes hcl
      rw [hcc]
      exact ⟨_, _, rfl, fun h => absurd h hne, fun _ => ⟨rfl, rfl⟩, hgl⟩
    · rw [if_neg hc]
      obtain ⟨genes, s1, hr, hgl, _⟩ := pred_randomize_genome_spec cfg pop.children[i] st.2 hcl
      rw [hr]
      exact ⟨_, _, rfl, fun h => absurd h hne, fun _ => ⟨rfl, rfl⟩, hgl⟩

/-- `pred_offspring` succeeds on a well-formed population and every slot of the new generation
is as `offspring_slot_spec` says; the old generation becomes the scratch array. -/
theorem pred_offspring_spec {F : Type} [LinearOrder F]
    (ga_worst_fitness : ga_problem_type_t → F) (cfg : pred_statics)
    (pop : ga_pop pred_genome F) (s : rand_stream)
    (hL : 0 < cfg._max_genome_length) (hrate : 0 ≤ cfg._mutation_rate.toRat)
    (he : 0 ≤ cfg._offspring_elite.toRat) (hc : 0 ≤ cfg._offspring_combine.toRat)
    (hchr : pop.chromosomes.length = pop.size) (hchl : pop.children.length = pop.size)
    (hgenes : ∀ c ∈ pop.chromosomes, c.genome.genes.length = cfg._max_genome_length)
    (hchild : ∀ c ∈ pop.children, c.genome.genes.length = cfg._max_genome_length)
    (hfit : ∀ c ∈ pop.chromosomes,
      ga_is_better pop.problem_type c.fitness (ga_worst_fitness pop.problem_type) = true)
    (hassert : elite_count cfg pop + crossover_count cfg pop ≤ (pop.size : Int)) :
    ∃ child_type children s1,
      offspring_child_type ga_worst_fitness cfg pop = some child_type ∧
      pred_offspring ga_worst_fitness cfg pop s
        = some ({ pop with chromosomes := children, children := pop.chromosomes }, s1) ∧
      child_type.length = pop.size ∧ children.length = pop.size ∧
      child_type.count _offspring_op.keep_intact = (elite_count cfg pop).toNat ∧
      child_type.count _offspring_op.crossover_product = (crossover_count cfg pop).toNat ∧
      elites_best pop child_type ∧
      ∀ i : Nat, i < pop.size →
        ∃ v, children[i]? = some v ∧ offspring_slot_spec cfg pop child_type i v := by
  obtain ⟨ct, h1, h2, h3, h4, h5⟩ :=
    offspring_child_type_spec ga_worst_fitness cfg pop hchr hfit he hc hassert
  obtain ⟨st1, hl, hlen1, hQ, _⟩ :=
    for_loop_slotwise pop.size (offspring_step cfg pop ct) pop.children
      (offspring_slot_spec cfg pop ct)
      (offspring_step_spec cfg pop ct hL hrate hchr hchl hgenes hchild h2)
      pop.size 0 (pop.children, s) (by omega) hchl (fun _ _ => rfl)
  refine ⟨ct, st1.1, st1.2, h1, ?_, h2, hlen1, h3, h4, h5,
    fun i hi => hQ i (Nat.zero_le _) (by omega)⟩
  unfold pred_offspring
  rw [h1]
  simp only []
  rw [hl]

theorem for_loop_slotwise_returns {α τ : Type} (size : Nat)
    (body : Nat → List α × τ → Option (List α × τ)) (Q : Nat → α → Prop)
    (hbody : ∀ (i : Nat) (st r : List α × τ), i < size → st.1.length = size →
      body i st = some r → ∃ v, r.1 = st.1.set i v ∧ Q i v) :
    ∀ (n i : Nat) (st st1 : List α × τ), i + n ≤ size → st.1.length = size →
      for_loop body i n st = some st1 →
      st1.1.length = size ∧
        (∀ j : Nat, i ≤ j → j < i + n → ∃ v, st1.1[j]? = some v ∧ Q j v) ∧
        (∀ j : Nat, j < i ∨ i + n ≤ j → st1.1[j]? = st.1[j]?) := by
  intro n
  induction n with
  | zero =>
    intro i st st1 _ hlen h
    simp only [for_loop, Option.some.injEq] at h
    subst h
    exact ⟨hlen, fun j h1 h2 => absurd h2 (by omega), fun _ _ => rfl⟩
  | succ n ih =>
    intro i st st1 hin hlen h
    simp only [for_loop] at h
    cases hb : body i st with
    | none => rw [hb] at h; simp at h
    | some r =>
      rw [hb] at h
      simp only [] at h
      obtain ⟨v, hr, hq⟩ := hbody i st r (by omega) hlen hb
      have hrl : r.1.length = size := by rw [hr]; simpa using hlen
      obtain ⟨hlen1, hQ, hrest⟩ := ih (i + 1) r st1 (by omega) hrl h
      refine ⟨hlen1, ?_, ?_⟩
      · intro j hj1 hj2
        by_cases hji : j = i
        · subst hji
          refine ⟨v, ?_, hq⟩
          rw [hrest j (Or.inl (by omega)), hr, List.getElem?_set_self (by omega)]
        · exact hQ j (by omega) (by omega)
      · intro j hj
        rw [hrest j (by omega), hr, List.getElem?_set_ne (by omega)]

theorem offspring_step_returns {F : Type} [LinearOrder F] (cfg : pred_statics)
    (pop : ga_pop pred_genome F) (child_type : List _offspring_op)
    (i : Nat) (st r : List (ga_chr pred_genome F) × rand_stream)
    (h : offspring_step cfg pop child_type i st = some r) :
    ∃ v, r.1 = st.1.set i v ∧ offspring_slot_flags cfg pop child_type i v := by
  unfold offspring_step at h
  cases hct : child_type[i]? with
  | none => rw [hct] at h; simp at h
  | some op =>
    cases hch : st.1[i]? with
    | none => rw [hct, hch] at h; simp at h
    | some child =>
      rw [hct, hch] at h
      simp only [] at h
      by_cases hk : op = _offspring_op.keep_intact
      · rw [if_pos hk] at h
        cases hp : pop.chromosomes[i]? with
        | none => rw [hp] at h; simp at h
        | some parent =>
          rw [hp] at h
          simp only [ga_copy_chr, pred_copy_genome] at h
          cases hm : memcpy child.genome.genes 0 parent.genome.genes 0
              (cfg._max_genome_length : Int) with
          | none => rw [hm] at h; simp at h
          | some genes =>
            rw [hm] at h
            simp only [Option.some.injEq] at h
            refine ⟨_, by rw [← h], ?_, ?_⟩
            · intro _
              exact ⟨parent, hp, rfl, rfl, rfl⟩
            · intro hne
              exact absurd (by rw [hct, hk]) hne
      · rw [if_neg hk] at h
        have hne : child_type[i]? ≠ some _offspring_op.keep_intact := by
          rw [hct]; intro hh; exact hk (Option.some.inj hh)
        by_cases hc : op = _offspring_op.crossover_product
        · rw [if_pos hc] at h
          cases hcc : _create_combined cfg pop child.genome.genes st.2 with
          | none => rw [hcc] at h; simp at h
          | some g =>
            rw [hcc] at h
            simp only [Option.some.injEq] at h
            exact ⟨_, by rw [← h], fun hh => absurd hh hne, fun _ => ⟨rfl, rfl⟩⟩
        · rw [if_neg hc] at h
          cases hr : pred_randomize_genome cfg child st.2 with
          | none => rw [hr] at h; simp at h
          | some g =>
            rw [hr] at h
            simp only [Option.some.injEq] at h
            have hu : g.2.1.genome.used_genes = cfg._initial_genome_length := by
              unfold pred_randomize_genome at hr
              split at hr
              · simp at hr
              · simp only [Option.some.injEq] at hr
                rw [← hr]
            exact ⟨{ g.2.1 with has_fitness := false }, by rw [← h],
              fun hh => absurd hh hne, fun _ => ⟨rfl, hu⟩⟩

/-- Whenever `pred_offspring` returns, the population record is the old one with the two
arrays exchanged, and every slot of the new generation is as `offspring_slot_flags` says. -/
theorem pred_offspring_returns {F : Type} [LinearOrder F]
    (ga_worst_fitness : ga_problem_type_t → F) (cfg : pred_statics)
    (pop pop1 : ga_pop pred_genome F) (s s1 : rand_stream)
    (h : pred_offspring ga_worst_fitness cfg pop s = some (pop1, s1)) :
    pop1 = { pop with chromosomes := pop1.chromosomes, children := pop.chromosomes } ∧
    ∃ child_type, offspring_child_type ga_worst_fitness cfg pop = some child_type ∧
      (pop.children.length = pop.size →
        pop1.chromosomes.length = pop.size ∧
        ∀ i : Nat, i < pop.size →
          ∃ v, pop1.chromosomes[i]? = some v ∧ offspring_slot_flags cfg pop child_type i v) := by
  unfold pred_offspring at h
  cases hct : offspring_child_type ga_worst_fitness cfg pop with
  | none => rw [hct] at h; simp at h
  | some ct =>
    rw [hct] at h
    simp only [] at h
    cases hl : for_loop (offspring_step cfg pop ct) 0 pop.size (pop.children, s) with
    | none => rw [hl] at h; simp at h
    | some st1 =>
      rw [hl] at h
      simp only [Option.some.injEq, Prod.mk.injEq] at h
      obtain ⟨h1, _⟩ := h
      subst h1
      refine ⟨rfl, ct, rfl, ?_⟩
      intro hchl
      obtain ⟨hlen, hQ, _⟩ := for_loop_slotwise_returns pop.size (offspring_step cfg pop ct)
        (offspring_slot_flags cfg pop ct)
        (fun i st r _ _ hb => offspring_step_returns cfg pop ct i st r hb)
        pop.size 0 (pop.children, s) st1 (by omega) hchl hl
      exact ⟨hlen, fun i hi => hQ i (Nat.zero_le _) (by omega)⟩




/-- `pred_offspring` returns on a well-formed population under its asserted bound, fractions
and mutation rate that are not negative and every fitness strictly better than
`ga_worst_fitness`. -/
theorem pred_offspring_total {F : Type} [LinearOrder F]
    (ga_worst_fitness : ga_problem_type_t → F) (cfg : pred_statics)
    (pop : ga_pop pred_genome F) (s : rand_stream)
    (hL : 0 < cfg._max_genome_length) (hrate : 0 ≤ cfg._mutation_rate.toRat)
    (he : 0 ≤ cfg._offspring_elite.toRat) (hc : 0 ≤ cfg._offspring_combine.toRat)
    (hchr : pop.chromosomes.length = pop.size) (hchl : pop.children.length = pop.size)
    (hgenes : ∀ c ∈ pop.chromosomes, c.genome.genes.length = cfg._max_genome_length)
    (hchild : ∀ c ∈ pop.children, c.genome.genes.length = cfg._max_genome_length)
    (hfit : ∀ c ∈ pop.chromosomes,
      ga_is_better pop.problem_type c.fitness (ga_worst_fitness pop.problem_type) = true)
    (hassert : elite_count cfg pop + crossover_count cfg pop ≤ (pop.size : Int)) :
    ∃ pop1 s1, pred_offspring ga_worst_fitness cfg pop s = some (pop1, s1) := by
  obtain ⟨_, children, s1, _, h2, _⟩ :=
    pred_offspring_spec ga_worst_fitness cfg pop s hL hrate he hc hchr hchl hgenes hchild hfit
      hassert
  exact ⟨_, s1, h2⟩

/-- C12. After `pred_offspring`, every chromosome of the new generation that is not an elite
copy (every crossover child and every random mutant, that is every slot whose policy is not
`keep_intact`) has `has_fitness == false`: this holds whenever the call returns, and the call
returns on a well-formed population. -/
theorem offspring_clears_has_fitness {F : Type} [LinearOrder F]
    (ga_worst_fitness : ga_problem_type_t → F) (cfg : pred_statics)
    (pop : ga_pop pred_genome F) (s : rand_stream)
    (hchl : pop.children.length = pop.size) :
    (∀ (pop1 : ga_pop pred_genome F) (s1 : rand_stream),
      pred_offspring ga_worst_fitness cfg pop s = some (pop1, s1) →
      ∃ child_type, offspring_child_type ga_worst_fitness cfg pop = some child_type ∧
        ∀ i : Nat, i < pop.size → child_type[i]? ≠ some _offspring_op.keep_intact →
          ∃ v, pop1.chromosomes[i]? = some v ∧ v.has_fitness = false) ∧
    (0 < cfg._max_genome_length → 0 ≤ cfg._mutation_rate.toRat →
      0 ≤ cfg._offspring_elite.toRat → 0 ≤ cfg._offspring_combine.toRat →
      pop.chromosomes.length = pop.size →
      (∀ c ∈ pop.chromosomes, c.genome.genes.length = cfg._max_genome_length) →
      (∀ c ∈ pop.children, c.genome.genes.length = cfg._max_genome_length) →
      (∀ c ∈ pop.chromosomes,
        ga_is_better pop.problem_type c.fitness (ga_worst_fitness pop.problem_type) = true) →
      elite_count cfg pop + crossover_count cfg pop ≤ (pop.size : Int) →
      ∃ pop1 s1, pred_offspring ga_worst_fitness cfg pop s = some (pop1, s1)) := by
  refine ⟨?_, ?_⟩
  · intro pop1 s1 h
    obtain ⟨_, ct, hct, hslots⟩ := pred_offspring_returns ga_worst_fitness cfg pop pop1 s s1 h
    refine ⟨ct, hct, ?_⟩
    intro i hi hne
    obtain ⟨v, hv, _, hflags⟩ := (hslots hchl).2 i hi
    exact ⟨v, hv, (hflags hne).1⟩
  · intro hL hrate he hc hchr hgenes hchild hfit hassert
    exact pred_offspring_total ga_worst_fitness cfg pop s hL hrate he hc hchr hchl hgenes
      hchild hfit hassert

theorem offspring_clears_has_fitness_witness :
    pred_pop_example.children.length = pred_pop_example.size ∧
    ∃ pop1 s1,
      pred_offspring worst_fitness_example pred_cfg_example pred_pop_example rand_example
        = some (pop1, s1) ∧
      ∃ child_type,
        offspring_child_type worst_fitness_example pred_cfg_example pred_pop_example
          = some child_type ∧
        ∀ i : Nat, i < pred_pop_example.size →
          child_type[i]? ≠ some _offspring_op.keep_intact →
          ∃ v, pop1.chromosomes[i]? = some v ∧ v.has_fitness = false :=
  ⟨by decide,
    let T := offspring_clears_has_fitness worst_fitness_example pred_cfg_example
      pred_pop_example rand_example (by decide)
    let ⟨pop1, s1, h⟩ := T.2 (by decide) (by norm_num [pred_cfg_example, c_float.toRat])
      (by norm_num [pred_cfg_example, float_0_2, c_float.toRat])
      (by norm_num [pred_cfg_example, float_0_3, c_float.toRat])
      (by decide) (by decide) (by decide) (by decide) (by decide)
    ⟨pop1, s1, h, T.1 pop1 s1 h⟩⟩

/-- C13. `pred_offspring` exchanges the two arrays of the population and does not modify the
prior generation: whenever it returns, `pop->children` holds exactly the chromosomes that were
in `pop->chromosomes` before the call, slot for slot and with unchanged genes, `used_genes`,
fitness and `has_fitness`, and size, problem type, generation counter and best index of the
population are unchanged; the call returns on a well-formed population. -/
theorem offspring_exchanges_arrays {F : Type} [LinearOrder F]
    (ga_worst_fitness : ga_problem_type_t → F) (cfg : pred_statics)
    (pop : ga_pop pred_genome F) (s : rand_stream) :
    (∀ (pop1 : ga_pop pred_genome F) (s1 : rand_stream),
      pred_offspring ga_worst_fitness cfg pop s = some (pop1, s1) →
      pop1.children = pop.chromosomes ∧ pop1.size = pop.size ∧
      pop1.problem_type = pop.problem_type ∧ pop1.generation = pop.generation ∧
      pop1.best_chr_index = pop.best_chr_index ∧
      (pop.children.length = pop.size → pop1.chromosomes.length = pop.size)) ∧
    (0 < cfg._max_genome_length → 0 ≤ cfg._mutation_rate.toRat →
      0 ≤ cfg._offspring_elite.toRat → 0 ≤ cfg._offspring_combine.toRat →
      pop.chromosomes.length = pop.size → pop.children.length = pop.size →
      (∀ c ∈ pop.chromosomes, c.genome.genes.length = cfg._max_genome_length) →
      (∀ c ∈ pop.children, c.genome.genes.length = cfg._max_genome_length) →
      (∀ c ∈ pop.chromosomes,
        ga_is_better pop.problem_type c.fitness (ga_worst_fitness pop.problem_type) = true) →
      elite_count cfg pop + crossover_count cfg pop ≤ (pop.size : Int) →
      ∃ pop1 s1, pred_offspring ga_worst_fitness cfg pop s = some (pop1, s1)) := by
  refine ⟨?_, ?_⟩
  · intro pop1 s1 h
    obtain ⟨hrec, ct, _, hslots⟩ :=
      pred_offspring_returns ga_worst_fitness cfg pop pop1 s s1 h
    refine ⟨?_, ?_, ?_, ?_, ?_, fun hchl => (hslots hchl).1⟩
    · rw [hrec]
    · rw [hrec]
    · rw [hrec]
    · rw [hrec]
    · rw [hrec]
  · intro hL hrate he hc hchr hchl hgenes hchild hfit hassert
    exact pred_offspring_total ga_worst_fitness cfg pop s hL hrate he hc hchr hchl hgenes
      hchild hfit hassert

theorem offspring_exchanges_arrays_witness :
    ∃ pop1 s1,
      pred_offspring worst_fitness_example pred_cfg_example pred_pop_example rand_example
        = some (pop1, s1) ∧
      pop1.children = pred_pop_example.chromosomes ∧ pop1.size = pred_pop_example.size ∧
      pop1.problem_type = pred_pop_example.problem_type ∧
      pop1.generation = pred_pop_example.generation ∧
      pop1.best_chr_index = pred_pop_example.best_chr_index ∧
      (pred_pop_example.children.length = pred_pop_example.size →
        pop1.chromosomes.length = pred_pop_example.size) :=
  let T := offspring_exchanges_arrays worst_fitness_example pred_cfg_example
    pred_pop_example rand_example
  let ⟨pop1, s1, h⟩ := T.2 (by decide) (by norm_num [pred_cfg_example, c_float.toRat])
    (by norm_num [pred_cfg_example, float_0_2, c_float.toRat])
    (by norm_num [pred_cfg_example, float_0_3, c_float.toRat])
    (by decide) (by decide) (by decide) (by decide) (by decide) (by decide)
  ⟨pop1, s1, h, T.1 pop1 s1 h⟩




/-! ## Randomize, tournament, copy, `used_genes` -/

/-- C14. For every chromosome whose gene array has `L_max` cells and every outcome of the
random draws, `pred_randomize_genome` returns 0, sets `used_genes` to
`_initial_genome_length`, and leaves every one of the `L_max` gene slots (also those at or
beyond `used_genes`) holding a value in `[0, max_gene_value]`; fitness and validity flag of the
chromosome are not touched. -/
theorem pred_randomize_genome_range {F : Type} (cfg : pred_statics)
    (chromosome : ga_chr pred_genome F) (s : rand_stream)
    (hlen : chromosome.genome.genes.length = cfg._max_genome_length) :
    ∃ chr1 s1, pred_randomize_genome cfg chromosome s = some (0, chr1, s1) ∧
      chr1.genome.used_genes = cfg._initial_genome_length ∧
      chr1.genome.genes.length = cfg._max_genome_length ∧
      (∀ j : Nat, j < cfg._max_genome_length →
        ∃ v, chr1.genome.genes[j]? = some v ∧ 0 ≤ v ∧ v ≤ cfg._max_gene_value) ∧
      chr1.fitness = chromosome.fitness ∧ chr1.has_fitness = chromosome.has_fitness := by
  obtain ⟨genes, s1, h, hl, hr⟩ := pred_randomize_genome_spec cfg chromosome s hlen
  refine ⟨_, s1, h, rfl, hl, ?_, rfl, rfl⟩
  intro j hj
  obtain ⟨v, hv, hle⟩ := hr j hj
  exact ⟨v, hv, Nat.zero_le _, hle⟩

theorem pred_randomize_genome_range_witness :
    pred_chr_example.genome.genes.length = pred_cfg_example._max_genome_length ∧
    ∃ chr1 s1, pred_randomize_genome pred_cfg_example pred_chr_example rand_example
        = some (0, chr1, s1) ∧
      chr1.genome.used_genes = pred_cfg_example._initial_genome_length ∧
      chr1.genome.genes.length = pred_cfg_example._max_genome_length ∧
      (∀ j : Nat, j < pred_cfg_example._max_genome_length →
        ∃ v, chr1.genome.genes[j]? = some v ∧ 0 ≤ v ∧ v ≤ pred_cfg_example._max_gene_value) ∧
      chr1.fitness = pred_chr_example.fitness ∧
      chr1.has_fitness = pred_chr_example.has_fitness :=
  ⟨by decide, pred_randomize_genome_range pred_cfg_example pred_chr_example rand_example
    (by decide)⟩

/-- C15. For every pair of contestants `red` and `blue`, the winner of `_tournament` is one of
the two, its fitness is better than or the same as the fitness of both (for a minimizing
population: `winner.fitness <= red.fitness` and `winner.fitness <= blue.fitness`), and on a tie
the first contestant `red` wins. -/
theorem tournament_winner {G F : Type} [LinearOrder F] (pop : ga_pop G F)
    (red blue : ga_chr G F) :
    (_tournament pop red blue = red ∨ _tournament pop red blue = blue) ∧
    ga_is_better_or_same pop.problem_type (_tournament pop red blue).fitness red.fitness
      = true ∧
    ga_is_better_or_same pop.problem_type (_tournament pop red blue).fitness blue.fitness
      = true ∧
    (pop.problem_type = ga_problem_type_t.minimize →
      (_tournament pop red blue).fitness ≤ red.fitness ∧
      (_tournament pop red blue).fitness ≤ blue.fitness) ∧
    (red.fitness = blue.fitness → _tournament pop red blue = red) := by
  have hcore : (_tournament pop red blue = red ∨ _tournament pop red blue = blue) ∧
      ga_is_better_or_same pop.problem_type (_tournament pop red blue).fitness red.fitness
        = true ∧
      ga_is_better_or_same pop.problem_type (_tournament pop red blue).fitness blue.fitness
        = true := by
    unfold _tournament
    by_cases h : ga_is_better_or_same pop.problem_type red.fitness blue.fitness = true
    · rw [if_pos h]
      exact ⟨Or.inl rfl, ga_bos_refl _ _, h⟩
    · rw [if_neg h]
      refine ⟨Or.inr rfl, ?_, ga_bos_refl _ _⟩
      have h1 : ga_is_better pop.problem_type blue.fitness red.fitness = true := by
        by_contra hb
        exact h ((ga_not_better_iff _ _ _).1 (by simpa using hb))
      exact ga_better_bos _ _ _ h1
  refine ⟨hcore.1, hcore.2.1, hcore.2.2, ?_, ?_⟩
  · intro hmin
    have h1 := hcore.2.1
    have h2 := hcore.2.2
    rw [hmin] at h1 h2
    simp only [ga_is_better_or_same, decide_eq_true_eq] at h1 h2
    exact ⟨h1, h2⟩
  · intro htie
    unfold _tournament
    rw [if_pos (by rw [htie]; exact ga_bos_refl _ _)]

theorem tournament_winner_witness :
    (pred_chr_with_fitness 3).fitness = pred_chr_example_tie.fitness ∧
    _tournament pred_pop_example (pred_chr_with_fitness 3) pred_chr_example_tie
      = pred_chr_with_fitness 3 ∧
    pred_pop_example.problem_type = ga_problem_type_t.minimize ∧
    (_tournament pred_pop_example (pred_chr_with_fitness 5) pred_chr_example_tie).fitness
      ≤ (pred_chr_with_fitness 5).fitness ∧
    (_tournament pred_pop_example (pred_chr_with_fitness 5) pred_chr_example_tie).fitness
      ≤ pred_chr_example_tie.fitness :=
  ⟨rfl,
    (tournament_winner pred_pop_example (pred_chr_with_fitness 3)
      pred_chr_example_tie).2.2.2.2 rfl,
    rfl,
    (tournament_winner pred_pop_example (pred_chr_with_fitness 5)
      pred_chr_example_tie).2.2.2.1 rfl⟩

/-- C16. `pred_copy_genome` is a deep value copy: for `dst` and `src` genomes whose gene
arrays hold at least `L_max` cells the call succeeds, afterwards `dst` has the genes of `src` at
all `L_max` positions and `dst.used_genes == src.used_genes` (`src` is only read), and copying
a second time changes nothing. -/
theorem pred_copy_genome_deep (cfg : pred_statics) (dst src : pred_genome)
    (hd : cfg._max_genome_length ≤ dst.genes.length)
    (hs : cfg._max_genome_length ≤ src.genes.length) :
    ∃ dst1, pred_copy_genome cfg dst src = some dst1 ∧
      dst1.genes.length = dst.genes.length ∧
      (∀ i : Nat, i < cfg._max_genome_length → dst1.genes[i]? = src.genes[i]?) ∧
      dst1.used_genes = src.used_genes ∧
      (dst.genes.length = cfg._max_genome_length →
        src.genes.length = cfg._max_genome_length → dst1 = src) ∧
      pred_copy_genome cfg dst1 src = some dst1 := by
  have hcopy : ∀ d : pred_genome, cfg._max_genome_length ≤ d.genes.length →
      pred_copy_genome cfg d src
        = some { genes := src.genes.take cfg._max_genome_length
                   ++ d.genes.drop cfg._max_genome_length,
                 used_genes := src.used_genes } := by
    intro d hdl
    unfold pred_copy_genome
    rw [memcpy_some _ _ _ _ _ (by omega) (by simpa using hdl) (by simpa using hs)]
    simp
  have htl : (src.genes.take cfg._max_genome_length).length = cfg._max_genome_length := by
    simp; omega
  refine ⟨_, hcopy dst hd, ?_, ?_, rfl, ?_, ?_⟩
  · simp; omega
  · intro i hi
    show (src.genes.take cfg._max_genome_length
      ++ dst.genes.drop cfg._max_genome_length)[i]? = src.genes[i]?
    rw [List.getElem?_append_left (by omega), List.getElem?_take_of_lt hi]
  · intro hdl hsl
    have h1 : src.genes.take cfg._max_genome_length = src.genes :=
      List.take_of_length_le (by omega)
    have h2 : dst.genes.drop cfg._max_genome_length = [] :=
      List.drop_of_length_le (by omega)
    rw [h1, h2, List.append_nil]
  · rw [hcopy _ (by simp; omega)]
    congr 2
    show src.genes.take cfg._max_genome_length
      ++ (src.genes.take cfg._max_genome_length
        ++ dst.genes.drop cfg._max_genome_length).drop cfg._max_genome_length
      = src.genes.take cfg._max_genome_length ++ dst.genes.drop cfg._max_genome_length
    rw [List.drop_append_of_le_length (by omega), List.drop_of_length_le (by omega),
      List.nil_append]

theorem pred_copy_genome_deep_witness :
    pred_cfg_example._max_genome_length ≤ pred_chr_example.genome.genes.length ∧
    ∃ dst1, pred_copy_genome pred_cfg_example pred_chr_example.genome
        (pred_chr_with_fitness 3).genome = some dst1 ∧
      dst1.genes.length = pred_chr_example.genome.genes.length ∧
      (∀ i : Nat, i < pred_cfg_example._max_genome_length →
        dst1.genes[i]? = (pred_chr_with_fitness 3).genome.genes[i]?) ∧
      dst1.used_genes = (pred_chr_with_fitness 3).genome.used_genes ∧
      (pred_chr_example.genome.genes.length = pred_cfg_example._max_genome_length →
        (pred_chr_with_fitness 3).genome.genes.length = pred_cfg_example._max_genome_length →
        dst1 = (pred_chr_with_fitness 3).genome) ∧
      pred_copy_genome pred_cfg_example dst1 (pred_chr_with_fitness 3).genome = some dst1 :=
  ⟨by decide, pred_copy_genome_deep pred_cfg_example pred_chr_example.genome
    (pred_chr_with_fitness 3).genome (by decide) (by decide)⟩

/-- C17. `used_genes <= L_max` is an invariant of the predictor population.  Once `pred_init`
has accepted its parameters, `initial_genome_length <= max_genome_length`; every genome that
`pred_randomize_genome` produces has `used_genes <= L_max` (and it produces one for every gene
array of `L_max` cells); and if every genome of the current generation satisfies it, then so
does every genome of the generation that `pred_offspring` produces, be it an elite copy, a
crossover child or a random mutant. -/
theorem used_genes_le_max (max_gene_value max_genome_length initial_genome_length : Nat)
    (mutation_rate offspring_elite offspring_combine : c_float) (cfg : pred_statics)
    (hinit : pred_init max_gene_value max_genome_length initial_genome_length mutation_rate
      offspring_elite offspring_combine = some cfg) :
    cfg._initial_genome_length ≤ cfg._max_genome_length ∧
    (∀ (F : Type) (chromosome : ga_chr pred_genome F) (s : rand_stream),
      (∀ r, pred_randomize_genome cfg chromosome s = some r →
        r.2.1.genome.used_genes ≤ cfg._max_genome_length) ∧
      (chromosome.genome.genes.length = cfg._max_genome_length →
        ∃ r, pred_randomize_genome cfg chromosome s = some r)) ∧
    (∀ (F : Type) [LinearOrder F] (ga_worst_fitness : ga_problem_type_t → F)
      (pop pop1 : ga_pop pred_genome F) (s s1 : rand_stream),
      pop.children.length = pop.size →
      (∀ c ∈ pop.chromosomes, c.genome.used_genes ≤ cfg._max_genome_length) →
      pred_offspring ga_worst_fitness cfg pop s = some (pop1, s1) →
      ∀ c ∈ pop1.chromosomes, c.genome.used_genes ≤ cfg._max_genome_length) ∧
    (∀ (F : Type) [LinearOrder F] (ga_worst_fitness : ga_problem_type_t → F)
      (pop : ga_pop pred_genome F) (s : rand_stream),
      0 < cfg._max_genome_length → 0 ≤ cfg._mutation_rate.toRat →
      0 ≤ cfg._offspring_elite.toRat → 0 ≤ cfg._offspring_combine.toRat →
      pop.chromosomes.length = pop.size → pop.children.length = pop.size →
      (∀ c ∈ pop.chromosomes, c.genome.genes.length = cfg._max_genome_length) →
      (∀ c ∈ pop.children, c.genome.genes.length = cfg._max_genome_length) →
      (∀ c ∈ pop.chromosomes,
        ga_is_better pop.problem_type c.fitness (ga_worst_fitness pop.problem_type) = true) →
      elite_count cfg pop + crossover_count cfg pop ≤ (pop.size : Int) →
      ∃ pop1 s1, pred_offspring ga_worst_fitness cfg pop s = some (pop1, s1)) := by
  have hle : cfg._initial_genome_length ≤ cfg._max_genome_length := by
    unfold pred_init at hinit
    split at hinit
    · rename_i h
      simp only [Option.some.injEq] at hinit
      rw [← hinit]
      exact h
    · simp at hinit
  refine ⟨hle, ?_, ?_, ?_⟩
  · intro F chromosome s
    refine ⟨?_, ?_⟩
    · intro r hr
      unfold pred_randomize_genome at hr
      split at hr
      · simp at hr
      · simp only [Option.some.injEq] at hr
        rw [← hr]
        exact hle
    · intro hlen
      obtain ⟨genes, s1, h, _⟩ := pred_randomize_genome_spec cfg chromosome s hlen
      exact ⟨_, h⟩
  · intro F _ ga_worst_fitness pop pop1 s s1 hchl hold h c hc
    obtain ⟨_, ct, _, hslots⟩ := pred_offspring_returns ga_worst_fitness cfg pop pop1 s s1 h
    obtain ⟨hlen, hall⟩ := hslots hchl
    obtain ⟨i, hi, hci⟩ := List.getElem_of_mem hc
    obtain ⟨v, hv, hkeep, hother⟩ := hall i (by omega)
    rw [List.getElem?_eq_getElem hi, hci] at hv
    simp only [Option.some.injEq] at hv
    subst hv
    by_cases hk : ct[i]? = some _offspring_op.keep_intact
    · obtain ⟨parent, hp, hu, _⟩ := hkeep hk
      rw [hu]
      obtain ⟨hlt, heq⟩ := List.getElem?_eq_some_iff.1 hp
      exact hold parent (heq ▸ List.getElem_mem hlt)
    · rw [(hother hk).2]
      exact hle
  · intro F _ ga_worst_fitness pop s hL hrate he hc hchr hchl hgenes hchild hfit hassert
    exact pred_offspring_total ga_worst_fitness cfg pop s hL hrate he hc hchr hchl hgenes
      hchild hfit hassert

theorem used_genes_le_max_witness :
    pred_init 9 4 2 { neg := false, mant := 1, exp := -1 } float_0_2 float_0_3
      = some pred_cfg_example ∧
    pred_cfg_example._initial_genome_length ≤ pred_cfg_example._max_genome_length ∧
    (∃ r, pred_randomize_genome pred_cfg_example pred_chr_example rand_example = some r ∧
      r.2.1.genome.used_genes ≤ pred_cfg_example._max_genome_length) ∧
    ∃ pop1 s1,
      pred_offspring worst_fitness_example pred_cfg_example pred_pop_example rand_example
        = some (pop1, s1) ∧
      ∀ c ∈ pop1.chromosomes, c.genome.used_genes ≤ pred_cfg_example._max_genome_length :=
  let T := used_genes_le_max 9 4 2 { neg := false, mant := 1, exp := -1 } float_0_2 float_0_3
    pred_cfg_example rfl
  let ⟨r, hr⟩ := (T.2.1 Nat pred_chr_example rand_example).2 (by decide)
  let ⟨pop1, s1, h⟩ := T.2.2.2 Int worst_fitness_example
    pred_pop_example rand_example (by decide) (by norm_num [pred_cfg_example, c_float.toRat])
    (by norm_num [pred_cfg_example, float_0_2, c_float.toRat])
    (by norm_num [pred_cfg_example, float_0_3, c_float.toRat])
    (by decide) (by decide) (by decide) (by decide) (by decide) (by decide)
  ⟨rfl, T.1, ⟨r, hr, (T.2.1 Nat pred_chr_example rand_example).1 r hr⟩, pop1, s1, h,
    T.2.2.1 Int worst_fitness_example pred_pop_example pop1 rand_example s1 (by decide)
      (by decide) h⟩




/-! ## Elite search: index -1 and ties -/

/-- C19, the code at a failing input.  Population of three with fitness 5, 1000, 1000, where
1000 is `ga_worst_fitness`, all-unclaimed policy array, `count = 2 <= size`.  The first round
marks slot 0.  In the second round no unclaimed chromosome is strictly better than the
sentinel, the search ends with `best_index == -1`, and `ops[best_index] = keep_intact` writes
outside the array: `_find_elites` has no defined result and only one slot is marked. -/
theorem find_elites_index_minus_one :
    _find_elites worst_fitness_example pred_pop_worst_example 1
        (List.replicate 3 _offspring_op.random_mutant)
      = some [_offspring_op.keep_intact, _offspring_op.random_mutant,
              _offspring_op.random_mutant] ∧
    for_loop (find_best_step pred_pop_worst_example
        [_offspring_op.keep_intact, _offspring_op.random_mutant, _offspring_op.random_mutant])
        0 pred_pop_worst_example.size
        (worst_fitness_example pred_pop_worst_example.problem_type, (-1 : Int))
      = some (1000, -1) ∧
    array_write [_offspring_op.keep_intact, _offspring_op.random_mutant,
        _offspring_op.random_mutant] (-1) _offspring_op.keep_intact = none ∧
    _find_elites worst_fitness_example pred_pop_worst_example 2
        (List.replicate 3 _offspring_op.random_mutant) = none := by
  decide

theorem ga_better_of_better_bos {F : Type} [LinearOrder F] (t : ga_problem_type_t) (a b c : F)
    (h1 : ga_is_better t a b = true) (h2 : ga_is_better_or_same t b c = true) :
    ga_is_better t a c = true := by
  cases t <;> simp only [ga_is_better, ga_is_better_or_same, decide_eq_true_eq] at *
  · exact lt_of_lt_of_le h1 h2
  · exact lt_of_le_of_lt h2 h1

theorem ga_better_irrefl {F : Type} [LinearOrder F] (t : ga_problem_type_t) (a : F) :
    ga_is_better t a a = false := by
  cases t <;> simp [ga_is_better]

theorem find_best_loop_first {G F : Type} [LinearOrder F] (pop : ga_pop G F)
    (ops : List _offspring_op) (hops : ops.length = pop.size)
    (hchr : pop.chromosomes.length = pop.size) :
    ∀ (n i : Nat) (st : F × Int), i + n ≤ pop.size →
      ∃ st1, for_loop (find_best_step pop ops) i n st = some st1 ∧
        (st1 = st ∨ ∃ j : Nat, i ≤ j ∧ j < i + n ∧ st1.2 = (j : Int) ∧
          ga_is_better pop.problem_type st1.1 st.1 = true ∧
          ∀ (k : Nat) (c : ga_chr G F), i ≤ k → k < j →
            ops[k]? ≠ some _offspring_op.keep_intact → pop.chromosomes[k]? = some c →
            ga_is_better pop.problem_type st1.1 c.fitness = true) := by
  intro n
  induction n with
  | zero =>
    intro i st _
    exact ⟨st, rfl, Or.inl rfl⟩
  | succ n ih =>
    intro i st hin
    obtain ⟨st2, hs, hb2, hc2, hd2⟩ :=
      find_best_step_spec pop ops hops hchr i (by omega) st
    obtain ⟨st1, hl, hd1⟩ := ih (i + 1) st2 (by omega)
    refine ⟨st1, by simp only [for_loop, hs, hl], ?_⟩
    rcases hd1 with h | ⟨j, hj1, hj2, hj3, hj4, hj5⟩
    · rcases hd2 with h2 | ⟨h3, _, c, _, _, h7⟩
      · left; rw [h, h2]
      · right
        refine ⟨i, le_refl _, by omega, by rw [h]; exact h3, by rw [h]; exact h7, ?_⟩
        intro k c _ hk2
        omega
    · right
      refine ⟨j, by omega, by omega, hj3, ga_better_of_better_bos _ _ _ _ hj4 hb2, ?_⟩
      intro k c hk1 hk2 hko hkc
      by_cases hki : k = i
      · subst hki
        exact ga_better_of_better_bos _ _ _ _ hj4 (hc2 c hko hkc)
      · exact hj5 k c (by omega) hk2 hko hkc

theorem find_elites_rounds_lowest_first {G F : Type} [LinearOrder F]
    (ga_worst_fitness : ga_problem_type_t → F) (pop : ga_pop G F)
    (hchr : pop.chromosomes.length = pop.size) :
    ∀ (count : Nat) (ops ops1 : List _offspring_op), ops.length = pop.size →
      elites_lowest_first pop ops →
      _find_elites_rounds ga_worst_fitness pop count ops = some ops1 →
      elites_lowest_first pop ops1 := by
  intro count
  induction count with
  | zero =>
    intro ops ops1 _ hlow h
    simp only [_find_elites_rounds, Option.some.injEq] at h
    rw [← h]; exact hlow
  | succ count ih =>
    intro ops ops1 hops hlow h
    obtain ⟨st1, hl, hfirst⟩ := find_best_loop_first pop ops hops hchr pop.size 0
      (ga_worst_fitness pop.problem_type, (-1 : Int)) (by omega)
    obtain ⟨st1b, hlb, _, _, hsel⟩ := find_best_loop_spec pop ops hops hchr pop.size 0
      (ga_worst_fitness pop.problem_type, (-1 : Int)) (by omega)
    have hsame : st1b = st1 := by
      rw [hl] at hlb; exact (Option.some.inj hlb).symm
    subst hsame
    simp only [_find_elites_rounds, hl] at h
    cases hw : array_write ops st1b.2 _offspring_op.keep_intact with
    | none => rw [hw] at h; simp at h
    | some opsw =>
      rw [hw] at h
      simp only [] at h
      unfold array_write at hw
      split at hw
      · rename_i hrange
        simp only [Option.some.injEq] at hw
        have hne : st1b ≠ (ga_worst_fitness pop.problem_type, (-1 : Int)) := by
          intro heq
          rw [heq] at hrange
          simp at hrange
        obtain ⟨j, _, _, hj3, _, hj5⟩ := hfirst.resolve_left hne
        obtain ⟨j2, _, _, hj23, _, cj, hcj, hcjf⟩ := hsel.resolve_left hne
        have hjj : j2 = j := by omega
        subst hjj
        have hjn : st1b.2.toNat = j2 := by omega
        rw [hjn] at hw
        have hjl : j2 < ops.length := by omega
        apply ih opsw ops1 (by rw [← hw]; simpa using hops) ?_ h
        intro a b ca cb hab hb ha hca hcb
        rw [← hw] at ha hb
        rw [List.getElem?_set] at ha hb
        by_cases hjb : j2 = b
        · subst hjb
          have hja : ¬ j2 = a := by omega
          rw [if_neg hja] at ha
          rw [hcj] at hcb
          simp only [Option.some.injEq] at hcb
          subst hcb
          rw [hcjf]
          exact hj5 a ca (Nat.zero_le _) hab ha hca
        · rw [if_neg hjb] at hb
          by_cases hja : j2 = a
          · subst hja; simp [hjl] at ha
          · rw [if_neg hja] at ha
            exact hlow a b ca cb hab hb ha hca hcb
      · simp at hw

/-- C20. The slots `_find_elites` marks are the best of the population.  Called on an
all-unclaimed policy array with `0 <= count <= size` (every fitness strictly better than
`ga_worst_fitness`), it marks exactly `count` slots; every marked chromosome's fitness is better
than or the same as (for a minimizing population: lower than or equal to) the fitness of every
unmarked chromosome; and among chromosomes of equal fitness the one with the lowest index is
claimed first: whenever a slot is marked, every slot of lower index with the same fitness is
marked too. -/
theorem find_elites_marks_best {G F : Type} [LinearOrder F]
    (ga_worst_fitness : ga_problem_type_t → F) (pop : ga_pop G F) (count : Int)
    (hchr : pop.chromosomes.length = pop.size)
    (hfit : ∀ c ∈ pop.chromosomes,
      ga_is_better pop.problem_type c.fitness (ga_worst_fitness pop.problem_type) = true)
    (h0 : 0 ≤ count) (h1 : count ≤ (pop.size : Int)) :
    ∃ ops1, _find_elites ga_worst_fitness pop count
        (List.replicate pop.size _offspring_op.random_mutant) = some ops1 ∧
      ops1.length = pop.size ∧ (ops1.count _offspring_op.keep_intact : Int) = count ∧
      (∀ (i j : Nat) (ci cj : ga_chr G F), ops1[i]? = some _offspring_op.keep_intact →
        ops1[j]? ≠ some _offspring_op.keep_intact →
        pop.chromosomes[i]? = some ci → pop.chromosomes[j]? = some cj →
        ga_is_better_or_same pop.problem_type ci.fitness cj.fitness = true ∧
        (pop.problem_type = ga_problem_type_t.minimize → ci.fitness ≤ cj.fitness)) ∧
      (∀ (i j : Nat) (ci cj : ga_chr G F), i < j →
        pop.chromosomes[i]? = some ci → pop.chromosomes[j]? = some cj →
        ci.fitness = cj.fitness → ops1[j]? = some _offspring_op.keep_intact →
        ops1[i]? = some _offspring_op.keep_intact) := by
  have hinit_keep : (List.replicate pop.size _offspring_op.random_mutant).count
      _offspring_op.keep_intact = 0 := by
    rw [List.count_replicate]; rfl
  have hnokeep : ∀ i : Nat, (List.replicate pop.size _offspring_op.random_mutant)[i]?
      ≠ some _offspring_op.keep_intact := by
    intro i hi
    rw [List.getElem?_replicate] at hi
    split at hi <;> simp at hi
  obtain ⟨ops1, hr, hl1, hk1, hb1, _⟩ :=
    find_elites_rounds_spec ga_worst_fitness pop hchr hfit count.toNat
      (List.replicate pop.size _offspring_op.random_mutant) (by simp)
      (by rw [hinit_keep]; omega)
      (fun i j ci cj hi => absurd hi (hnokeep i))
  have hlow := find_elites_rounds_lowest_first ga_worst_fitness pop hchr count.toNat
    (List.replicate pop.size _offspring_op.random_mutant) ops1 (by simp)
    (fun i j ci cj _ hj => absurd hj (hnokeep j)) hr
  refine ⟨ops1, hr, hl1, by rw [hk1, hinit_keep]; omega, ?_, ?_⟩
  · intro i j ci cj hi hj hci hcj
    have hb := hb1 i j ci cj hi hj hci hcj
    refine ⟨hb, ?_⟩
    intro hmin
    rw [hmin] at hb
    simpa [ga_is_better_or_same] using hb
  · intro i j ci cj hij hci hcj heq hj
    by_contra hi
    have hb := hlow i j ci cj hij hj hi hci hcj
    rw [heq, ga_better_irrefl] at hb
    exact Bool.noConfusion hb

theorem find_elites_marks_best_witness :
    pred_pop_example.chromosomes.length = pred_pop_example.size ∧
    ∃ ops1, _find_elites worst_fitness_example pred_pop_example 2
        (List.replicate pred_pop_example.size _offspring_op.random_mutant) = some ops1 ∧
      ops1.length = pred_pop_example.size ∧
      (ops1.count _offspring_op.keep_intact : Int) = 2 ∧
      (∀ (i j : Nat) (ci cj : ga_chr pred_genome Int),
        ops1[i]? = some _offspring_op.keep_intact →
        ops1[j]? ≠ some _offspring_op.keep_intact →
        pred_pop_example.chromosomes[i]? = some ci →
        pred_pop_example.chromosomes[j]? = some cj →
        ga_is_better_or_same pred_pop_example.problem_type ci.fitness cj.fitness = true ∧
        (pred_pop_example.problem_type = ga_problem_type_t.minimize →
          ci.fitness ≤ cj.fitness)) ∧
      (∀ (i j : Nat) (ci cj : ga_chr pred_genome Int), i < j →
        pred_pop_example.chromosomes[i]? = some ci →
        pred_pop_example.chromosomes[j]? = some cj →
        ci.fitness = cj.fitness → ops1[j]? = some _offspring_op.keep_intact →
        ops1[i]? = some _offspring_op.keep_intact) :=
  ⟨by decide, find_elites_marks_best worst_fitness_example pred_pop_example 2 (by decide)
    (by decide) (by decide) (by decide)⟩



/-! ## Crossover assignment: scan indices and marked slots -/

theorem countP_take_drop_succ (ops : List _offspring_op) (i j : Nat) (hi : i < ops.length)
    (hj : i + 1 ≤ j) :
    List.countP is_unclaimed ((ops.drop i).take (j - i))
      = (if is_unclaimed ops[i] = true then 1 else 0)
        + List.countP is_unclaimed ((ops.drop (i + 1)).take (j - (i + 1))) := by
  have h1 : j - i = (j - (i + 1)) + 1 := by omega
  rw [List.drop_eq_getElem_cons hi, h1, List.take_succ_cons, List.countP_cons]
  omega

theorem assign_crossover_marks (cc : Int) (size : Nat) :
    ∀ (fuel i : Nat) (cset : Int) (ops : List _offspring_op), ops.length = size →
      size + 1 ≤ fuel + i → i ≤ size →
      (cc - cset).toNat ≤ List.countP is_unclaimed (ops.drop i) →
      ∃ ops1, assign_crossover cc fuel i cset ops = some ops1 ∧ ops1.length = size ∧
        (∀ j : Nat, j < i → ops1[j]? = ops[j]?) ∧
        (∀ j : Nat, i ≤ j → j < size →
          ops1[j]? = if ops[j]? ≠ some _offspring_op.keep_intact ∧
              cset + (List.countP is_unclaimed ((ops.drop i).take (j - i)) : Int) < cc
            then some _offspring_op.crossover_product else ops[j]?) ∧
        (∀ k ∈ crossover_scan_indices cc fuel i cset ops, k < size) := by
  intro fuel
  induction fuel with
  | zero => intro i cset ops _ h1 h2; omega
  | succ fuel ih =>
    intro i cset ops hlen hfuel hi havail
    unfold assign_crossover crossover_scan_indices
    by_cases hlt : cset < cc
    · rw [if_pos hlt, if_pos hlt]
      have hpos : 0 < List.countP is_unclaimed (ops.drop i) := by omega
      have hil : i < ops.length := by
        by_contra hge
        rw [List.drop_of_length_le (by omega)] at hpos
        simp at hpos
      rw [List.getElem?_eq_getElem hil]
      simp only []
      have havail2 := havail
      rw [List.drop_eq_getElem_cons hil, List.countP_cons] at havail2
      by_cases hk : ops[i] = _offspring_op.keep_intact
      · rw [if_neg (by simpa using hk), if_neg (by simpa using hk)]
        have hu : is_unclaimed ops[i] = false := by rw [hk]; rfl
        rw [hu] at havail2
        obtain ⟨ops1, hr, hl1, hlow, hhigh, hscan⟩ :=
          ih (i + 1) cset ops hlen (by omega) (by omega) (by simpa using havail2)
        refine ⟨ops1, hr, hl1, fun j hj => hlow j (by omega), ?_, ?_⟩
        · intro j hj1 hj2
          by_cases hji : j = i
          · subst hji
            rw [hlow j (by omega), if_neg]
            intro hcon
            apply hcon.1
            rw [List.getElem?_eq_getElem hil, hk]
          · rw [hhigh j (by omega) hj2, countP_take_drop_succ ops i j hil (by omega), hu]
            simp
        · intro k hk2
          rcases List.mem_cons.1 hk2 with h | h
          · omega
          · exact hscan k h
      · rw [if_pos hk, if_pos hk]
        have hu : is_unclaimed ops[i] = true := by
          unfold is_unclaimed; exact decide_eq_true hk
        rw [hu, if_pos rfl] at havail2
        obtain ⟨ops1, hr, hl1, hlow, hhigh, hscan⟩ :=
          ih (i + 1) (cset + 1) (ops.set i _offspring_op.crossover_product)
            (by simpa using hlen) (by omega) (by omega)
            (by rw [List.drop_set_of_lt _ _ (by omega)]; omega)
        refine ⟨ops1, hr, hl1, ?_, ?_, ?_⟩
        · intro j hj
          rw [hlow j (by omega), List.getElem?_set_ne (by omega)]
        · intro j hj1 hj2
          by_cases hji : j = i
          · subst hji
            rw [hlow j (by omega), List.getElem?_set_self hil, if_pos]
            refine ⟨?_, ?_⟩
            · rw [List.getElem?_eq_getElem hil]
              intro hcon
              exact hk (Option.some.inj hcon)
            · simp only [Nat.sub_self, List.take_zero, List.countP_nil]
              omega
          · rw [hhigh j (by omega) hj2, List.getElem?_set_ne (by omega),
              List.drop_set_of_lt _ _ (by omega),
              countP_take_drop_succ ops i j hil (by omega), hu, if_pos rfl]
            have e : cset + 1 + (List.countP is_unclaimed
                  ((ops.drop (i + 1)).take (j - (i + 1))) : Int)
                = cset + ((1 + List.countP is_unclaimed
                  ((ops.drop (i + 1)).take (j - (i + 1))) : Nat) : Int) := by
              push_cast; ring
            rw [e]
        · intro k hk2
          rcases List.mem_cons.1 hk2 with h | h
          · omega
          · exact hscan k h
    · rw [if_neg hlt, if_neg hlt]
      refine ⟨ops, rfl, hlen, fun _ _ => rfl, ?_, fun k hk => absurd hk (List.not_mem_nil k)⟩
      intro j _ _
      rw [if_neg]
      intro hcon
      have := hcon.2
      omega


/-- C21. under the asserted bound `elite_count + crossover_count <= size`, started on a policy
array as `_find_elites` leaves it (only `keep_intact` and `random_mutant`, `elite_count` elites),
the crossover assignment loop of `pred_offspring` ends, every index at which it reads or writes
`child_type` is below `size`, and slot `j` ends as `crossover_product` exactly when it is not an
elite and fewer than `crossover_count` non-elite slots precede it; every other slot is left as
it was, so `crossover_count` slots are marked in all. -/
theorem crossover_assignment_in_bounds {G F : Type} (cfg : pred_statics) (pop : ga_pop G F)
    (ops : List _offspring_op) (hlen : ops.length = pop.size)
    (hops : ∀ o ∈ ops, o = _offspring_op.keep_intact ∨ o = _offspring_op.random_mutant)
    (helite : (ops.count _offspring_op.keep_intact : Int) = elite_count cfg pop)
    (hassert : elite_count cfg pop + crossover_count cfg pop ≤ (pop.size : Int)) :
    ∃ ops1, assign_crossover (crossover_count cfg pop) (pop.size + 1) 0 0 ops = some ops1 ∧
      (∀ k ∈ crossover_scan_indices (crossover_count cfg pop) (pop.size + 1) 0 0 ops,
        k < pop.size) ∧
      ops1.length = pop.size ∧
      ops1.count _offspring_op.crossover_product = (crossover_count cfg pop).toNat ∧
      (∀ j : Nat, j < pop.size →
        (ops1[j]? = some _offspring_op.crossover_product ↔
          ops[j]? ≠ some _offspring_op.keep_intact ∧
            (List.countP is_unclaimed (ops.take j) : Int) < crossover_count cfg pop) ∧
        (ops1[j]? ≠ some _offspring_op.crossover_product → ops1[j]? = ops[j]?)) := by
  have hnocross : ∀ j : Nat, ops[j]? ≠ some _offspring_op.crossover_product := by
    intro j hcon
    obtain ⟨hj, hv⟩ := List.getElem?_eq_some_iff.1 hcon
    have hm : ops[j] ∈ ops := List.getElem_mem hj
    rcases hops _ hm with h | h <;> rw [hv] at h <;> cases h
  have hcz : ops.count _offspring_op.crossover_product = 0 := by
    apply List.count_eq_zero.2
    intro hm
    rcases hops _ hm with h | h <;> cases h
  have hle := List.count_le_length _offspring_op.keep_intact ops
  have havail : (crossover_count cfg pop - 0).toNat ≤ List.countP is_unclaimed (ops.drop 0) := by
    rw [List.drop_zero, countP_not_keep]
    omega
  obtain ⟨ops1, hr, hl1, _, hhigh, hscan⟩ :=
    assign_crossover_marks (crossover_count cfg pop) pop.size (pop.size + 1) 0 0 ops hlen
      (by omega) (by omega) havail
  obtain ⟨ops2, hr2, _, _, hcount, _⟩ :=
    assign_crossover_spec (crossover_count cfg pop) pop.size (pop.size + 1) 0 0 ops hlen
      (by omega) (by omega) havail (fun j _ => hnocross j)
  have e12 : ops2 = ops1 := by
    rw [hr] at hr2
    exact (Option.some.inj hr2).symm
  subst e12
  refine ⟨ops2, hr, hscan, hl1, ?_, ?_⟩
  · rw [hcount, hcz]; simp
  · intro j hj
    have hj1 := hhigh j (Nat.zero_le j) hj
    simp only [List.drop_zero, Nat.sub_zero, zero_add] at hj1
    by_cases hc : ops[j]? ≠ some _offspring_op.keep_intact ∧
        (List.countP is_unclaimed (ops.take j) : Int) < crossover_count cfg pop
    · rw [if_pos hc] at hj1
      exact ⟨⟨fun _ => hc, fun _ => hj1⟩, fun h => absurd hj1 h⟩
    · rw [if_neg hc] at hj1
      refine ⟨⟨fun h => ?_, fun h => absurd h hc⟩, fun _ => hj1⟩
      rw [hj1] at h
      exact absurd h (hnocross j)

theorem crossover_assignment_in_bounds_witness :
    ∃ ops1, assign_crossover (crossover_count pred_cfg_example pred_pop_example)
        (pred_pop_example.size + 1) 0 0 child_type_after_elites_example = some ops1 ∧
      (∀ k ∈ crossover_scan_indices (crossover_count pred_cfg_example pred_pop_example)
          (pred_pop_example.size + 1) 0 0 child_type_after_elites_example,
        k < pred_pop_example.size) ∧
      ops1.length = pred_pop_example.size ∧
      ops1.count _offspring_op.crossover_product
        = (crossover_count pred_cfg_example pred_pop_example).toNat ∧
      (∀ j : Nat, j < pred_pop_example.size →
        (ops1[j]? = some _offspring_op.crossover_product ↔
          child_type_after_elites_example[j]? ≠ some _offspring_op.keep_intact ∧
            (List.countP is_unclaimed (child_type_after_elites_example.take j) : Int)
              < crossover_count pred_cfg_example pred_pop_example) ∧
        (ops1[j]? ≠ some _offspring_op.crossover_product →
          ops1[j]? = child_type_after_elites_example[j]?)) :=
  crossover_assignment_in_bounds pred_cfg_example pred_pop_example
    child_type_after_elites_example (by decide) (by decide) (by decide) (by decide)

/-! ## Gene range -/

theorem for_loop_slotwise_returns_init {α τ : Type} (size : Nat)
    (body : Nat → List α × τ → Option (List α × τ)) (init : List α) (Q : Nat → α → Prop)
    (hbody : ∀ (i : Nat) (st r : List α × τ), i < size → st.1.length = size →
      st.1[i]? = init[i]? → body i st = some r → ∃ v, r.1 = st.1.set i v ∧ Q i v) :
    ∀ (n i : Nat) (st st1 : List α × τ), i + n ≤ size → st.1.length = size →
      (∀ j : Nat, i ≤ j → st.1[j]? = init[j]?) →
      for_loop body i n st = some st1 →
      st1.1.length = size ∧
        (∀ j : Nat, i ≤ j → j < i + n → ∃ v, st1.1[j]? = some v ∧ Q j v) ∧
        (∀ j : Nat, j < i ∨ i + n ≤ j → st1.1[j]? = st.1[j]?) := by
  intro n
  induction n with
  | zero =>
    intro i st st1 _ hlen _ h
    simp only [for_loop, Option.some.injEq] at h
    subst h
    exact ⟨hlen, fun j h1 h2 => absurd h2 (by omega), fun _ _ => rfl⟩
  | succ n ih =>
    intro i st st1 hin hlen hinit h
    simp only [for_loop] at h
    cases hb : body i st with
    | none => rw [hb] at h; simp at h
    | some r =>
      rw [hb] at h
      simp only [] at h
      obtain ⟨v, hr, hq⟩ := hbody i st r (by omega) hlen (hinit i (le_refl _)) hb
      have hrl : r.1.length = size := by rw [hr]; simpa using hlen
      obtain ⟨hlen1, hQ, hrest⟩ := ih (i + 1) r st1 (by omega) hrl
        (fun j hj => by rw [hr, List.getElem?_set_ne (by omega)]; exact hinit j (by omega)) h
      refine ⟨hlen1, ?_, ?_⟩
      · intro j hj1 hj2
        by_cases hji : j = i
        · subst hji
          refine ⟨v, ?_, hq⟩
          rw [hrest j (Or.inl (by omega)), hr, List.getElem?_set_self (by omega)]
        · exact hQ j (by omega) (by omega)
      · intro j hj
        rw [hrest j (by omega), hr, List.getElem?_set_ne (by omega)]

theorem array_write_eq {α : Type} (a r : List α) (i : Int) (v : α)
    (h : array_write a i v = some r) : r = a.set i.toNat v := by
  unfold array_write at h
  split at h
  · exact (Option.some.inj h).symm
  · cases h

theorem pred_mutate_step_range (cfg : pred_statics) (i : Nat) (st r : List Nat × rand_stream)
    (hst : ∀ g ∈ st.1, g ≤ cfg._max_gene_value) (h : pred_mutate_step cfg i st = some r) :
    r.1.length = st.1.length ∧ ∀ g ∈ r.1, g ≤ cfg._max_gene_value := by
  unfold pred_mutate_step at h
  dsimp only at h
  cases hw : array_write st.1 (rand_range 0 ((cfg._max_genome_length : Int) - 1) st.2).1
      (rand_urange 0 cfg._max_gene_value
        (rand_range 0 ((cfg._max_genome_length : Int) - 1) st.2).2).1 with
  | none => rw [hw] at h; cases h
  | some genes =>
    rw [hw] at h
    simp only [Option.some.injEq] at h
    subst h
    have hs := array_write_eq _ _ _ _ hw
    subst hs
    refine ⟨by simp, ?_⟩
    intro g hg
    rcases List.mem_or_eq_of_mem_set hg with hm | he
    · exact hst g hm
    · rw [he]
      exact (rand_urange_bounds 0 cfg._max_gene_value _ (Nat.zero_le _)).2

theorem pred_mutate_loop_range (cfg : pred_statics) :
    ∀ (n i : Nat) (st st1 : List Nat × rand_stream),
      (∀ g ∈ st.1, g ≤ cfg._max_gene_value) →
      for_loop (pred_mutate_step cfg) i n st = some st1 →
      st1.1.length = st.1.length ∧ ∀ g ∈ st1.1, g ≤ cfg._max_gene_value := by
  intro n
  induction n with
  | zero =>
    intro i st st1 hst h
    simp only [for_loop, Option.some.injEq] at h
    subst h
    exact ⟨rfl, hst⟩
  | succ n ih =>
    intro i st st1 hst h
    simp only [for_loop] at h
    cases hb : pred_mutate_step cfg i st with
    | none => rw [hb] at h; simp at h
    | some r =>
      rw [hb] at h
      simp only [] at h
      obtain ⟨hl, hr⟩ := pred_mutate_step_range cfg i st r hst hb
      obtain ⟨hl1, hr1⟩ := ih (i + 1) r st1 hr h
      exact ⟨by rw [hl1, hl], hr1⟩

/-- Whenever `pred_mutate` returns, it keeps the length of the array and a gene range that
held before. -/
theorem pred_mutate_range (cfg : pred_statics) (genes : List Nat) (s : rand_stream)
    (r : List Nat × rand_stream) (hg : genes_in_range cfg genes)
    (h : pred_mutate cfg genes s = some r) : genes_in_range cfg r.1 := by
  unfold pred_mutate at h
  obtain ⟨hl, hr⟩ := pred_mutate_loop_range cfg _ 0 _ r hg.2 h
  exact ⟨by rw [hl]; exact hg.1, hr⟩

theorem array_read_mem {α : Type} (a : List α) (i : Int) (x : α)
    (h : array_read a i = some x) : x ∈ a := by
  unfold array_read at h
  split at h
  · obtain ⟨hlt, hx⟩ := List.getElem?_eq_some_iff.1 h
    rw [← hx]
    exact List.getElem_mem hlt
  · cases h

theorem select_parent_mem {F : Type} [LinearOrder F] (pop : ga_pop pred_genome F)
    (s : rand_stream) (r : ga_chr pred_genome F × rand_stream)
    (h : select_parent pop s = some r) : r.1 ∈ pop.chromosomes := by
  unfold select_parent at h
  dsimp only at h
  cases hr : array_read pop.chromosomes (rand_range 0 ((pop.size : Int) - 1) s).1 with
  | none => rw [hr] at h; cases h
  | some red =>
    cases hb : array_read pop.chromosomes
        (rand_range 0 ((pop.size : Int) - 1) (rand_range 0 ((pop.size : Int) - 1) s).2).1 with
    | none => rw [hr, hb] at h; cases h
    | some blue =>
      rw [hr, hb] at h
      simp only [Option.some.injEq] at h
      subst h
      unfold _tournament
      dsimp only
      split
      · exact array_read_mem _ _ _ hr
      · exact array_read_mem _ _ _ hb

theorem split_point_bounds (cfg : pred_statics) (s : rand_stream) :
    0 ≤ (rand_range 0 ((cfg._max_genome_length : Int) - 1) s).1 ∧
    (rand_range 0 ((cfg._max_genome_length : Int) - 1) s).1 ≤ (cfg._max_genome_length : Int) := by
  by_cases hL : (0 : Int) ≤ (cfg._max_genome_length : Int) - 1
  · have := rand_range_bounds 0 ((cfg._max_genome_length : Int) - 1) s hL
    omega
  · simp only [rand_range, hL, if_false]
    omega

/-- The child of `_crossover1p` of two parents within the gene range is within the gene
range, whatever the target array held. -/
theorem crossover1p_range (cfg : pred_statics) (baby mom dad : List Nat) (s : rand_stream)
    (r : List Nat × rand_stream) (hb : baby.length = cfg._max_genome_length)
    (hm : genes_in_range cfg mom) (hd : genes_in_range cfg dad)
    (h : _crossover1p cfg baby mom dad s = some r) : genes_in_range cfg r.1 := by
  obtain ⟨h0, h1⟩ := split_point_bounds cfg s
  unfold _crossover1p at h
  dsimp only at h
  rw [crossover_at_eq cfg baby mom dad _ hb hm.1 hd.1 h0 h1] at h
  simp only [Option.some.injEq] at h
  subst h
  refine ⟨?_, ?_⟩
  · simp only [List.length_append, List.length_take, List.length_drop, hm.1, hd.1]
    omega
  · intro g hg
    rcases List.mem_append.1 hg with hg1 | hg1
    · exact hm.2 g (List.mem_of_mem_take hg1)
    · exact hd.2 g (List.mem_of_mem_drop hg1)

/-- Whenever `_create_combined` returns, the child it leaves is within the gene range, given
parents within the gene range and a target array of `L_max` cells. -/
theorem create_combined_range {F : Type} [LinearOrder F] (cfg : pred_statics)
    (pop : ga_pop pred_genome F) (children : List Nat) (s : rand_stream)
    (r : List Nat × rand_stream)
    (hrange : ∀ c ∈ pop.chromosomes, genes_in_range cfg c.genome.genes)
    (hlen : children.length = cfg._max_genome_length)
    (h : _create_combined cfg pop children s = some r) : genes_in_range cfg r.1 := by
  unfold _create_combined at h
  cases hm : select_parent pop s with
  | none => rw [hm] at h; cases h
  | some mom =>
    rw [hm] at h
    dsimp only at h
    cases hd : select_parent pop mom.2 with
    | none => rw [hd] at h; cases h
    | some dad =>
      rw [hd] at h
      dsimp only at h
      cases hc : _crossover1p cfg children mom.1.genome.genes dad.1.genome.genes dad.2 with
      | none => rw [hc] at h; cases h
      | some baby =>
        rw [hc] at h
        dsimp only at h
        exact pred_mutate_range cfg baby.1 baby.2 r
          (crossover1p_range cfg children _ _ _ baby hlen
            (hrange _ (select_parent_mem pop s mom hm))
            (hrange _ (select_parent_mem pop mom.2 dad hd)) hc) h

theorem offspring_step_range {F : Type} [LinearOrder F] (cfg : pred_statics)
    (pop : ga_pop pred_genome F) (child_type : List _offspring_op)
    (hchild : ∀ c ∈ pop.children, c.genome.genes.length = cfg._max_genome_length)
    (hrange : ∀ c ∈ pop.chromosomes, genes_in_range cfg c.genome.genes)
    (i : Nat) (st r : List (ga_chr pred_genome F) × rand_stream)
    (hinit : st.1[i]? = pop.children[i]?)
    (h : offspring_step cfg pop child_type i st = some r) :
    ∃ v, r.1 = st.1.set i v ∧ genes_in_range cfg v.genome.genes := by
  unfold offspring_step at h
  cases hct : child_type[i]? with
  | none => rw [hct] at h; simp at h
  | some op =>
    cases hch : st.1[i]? with
    | none => rw [hct, hch] at h; simp at h
    | some child =>
      rw [hct, hch] at h
      simp only [] at h
      have hcl : child.genome.genes.length = cfg._max_genome_length := by
        rw [hinit] at hch
        obtain ⟨hlt, hx⟩ := List.getElem?_eq_some_iff.1 hch
        rw [← hx]
        exact hchild _ (List.getElem_mem hlt)
      by_cases hk : op = _offspring_op.keep_intact
      · rw [if_pos hk] at h
        cases hp : pop.chromosomes[i]? with
        | none => rw [hp] at h; simp at h
        | some parent =>
          rw [hp] at h
          have hpm : parent ∈ pop.chromosomes := by
            obtain ⟨hlt, hx⟩ := List.getElem?_eq_some_iff.1 hp
            rw [← hx]
            exact List.getElem_mem hlt
          have hpr := hrange parent hpm
          simp only [ga_copy_chr, pred_copy_genome_spec cfg _ _ hcl hpr.1,
            Option.some.injEq] at h
          exact ⟨_, by rw [← h], hpr⟩
      · rw [if_neg hk] at h
        by_cases hc : op = _offspring_op.crossover_product
        · rw [if_pos hc] at h
          cases hcc : _create_combined cfg pop child.genome.genes st.2 with
          | none => rw [hcc] at h; simp at h
          | some g =>
            rw [hcc] at h
            simp only [Option.some.injEq] at h
            exact ⟨_, by rw [← h],
              create_combined_range cfg pop child.genome.genes st.2 g hrange hcl hcc⟩
        · rw [if_neg hc] at h
          obtain ⟨genes, s1, hr, hgl, hgr⟩ := pred_randomize_genome_spec cfg child st.2 hcl
          rw [hr] at h
          simp only [Option.some.injEq] at h
          refine ⟨_, by rw [← h], hgl, ?_⟩
          intro g hg
          obtain ⟨n, hn, hng⟩ := List.getElem_of_mem hg
          have hn2 : n < genes.length := hn
          obtain ⟨v, hv, hvr⟩ := hgr n (by omega)
          rw [List.getElem?_eq_getElem hn2] at hv
          have hng2 : genes[n] = g := hng
          rw [hng2] at hv
          rw [Option.some.inj hv]
          exact hvr

/-- Whenever `pred_offspring` returns, every genome of the new generation is within the gene
range, given a current generation within the gene range and scratch chromosomes of `L_max`
cells. -/
theorem pred_offspring_range {F : Type} [LinearOrder F]
    (ga_worst_fitness : ga_problem_type_t → F) (cfg : pred_statics)
    (pop pop1 : ga_pop pred_genome F) (s s1 : rand_stream)
    (hchl : pop.children.length = pop.size)
    (hchild : ∀ c ∈ pop.children, c.genome.genes.length = cfg._max_genome_length)
    (hrange : ∀ c ∈ pop.chromosomes, genes_in_range cfg c.genome.genes)
    (h : pred_offspring ga_worst_fitness cfg pop s = some (pop1, s1)) :
    pop1.chromosomes.length = pop.size ∧
    ∀ c ∈ pop1.chromosomes, genes_in_range cfg c.genome.genes := by
  unfold pred_offspring at h
  cases hct : offspring_child_type ga_worst_fitness cfg pop with
  | none => rw [hct] at h; simp at h
  | some ct =>
    rw [hct] at h
    simp only [] at h
    cases hl : for_loop (offspring_step cfg pop ct) 0 pop.size (pop.children, s) with
    | none => rw [hl] at h; simp at h
    | some st1 =>
      rw [hl] at h
      simp only [Option.some.injEq, Prod.mk.injEq] at h
      obtain ⟨h1, _⟩ := h
      subst h1
      obtain ⟨hlen, hQ, _⟩ := for_loop_slotwise_returns_init pop.size
        (offspring_step cfg pop ct) pop.children
        (fun _ v => genes_in_range cfg v.genome.genes)
        (fun i st r _ _ hinit hb => offspring_step_range cfg pop ct hchild hrange i st r hinit hb)
        pop.size 0 (pop.children, s) st1 (by omega) hchl (fun _ _ => rfl) hl
      refine ⟨hlen, ?_⟩
      intro c hc
      obtain ⟨n, hn, hnc⟩ := List.getElem_of_mem hc
      obtain ⟨v, hv, hvr⟩ := hQ n (Nat.zero_le _) (by rw [hlen] at hn; omega)
      rw [List.getElem?_eq_getElem hn, hnc] at hv
      rw [Option.some.inj hv]
      exact hvr

/-- C23. Gene range is an invariant of predictor evolution.  If every genome of the current
generation has `L_max` genes, all in `[0, max_gene_value]` (and the scratch chromosomes have
`L_max` cells, of any content), then whenever `pred_offspring` returns every genome of the new
generation has `L_max` genes, all in `[0, max_gene_value]`: elite copies, crossover children
after mutation and random mutants alike; and the call returns on a well-formed population. -/
theorem offspring_gene_range {F : Type} [LinearOrder F]
    (ga_worst_fitness : ga_problem_type_t → F) (cfg : pred_statics)
    (pop : ga_pop pred_genome F) (s : rand_stream)
    (hchl : pop.children.length = pop.size)
    (hchild : ∀ c ∈ pop.children, c.genome.genes.length = cfg._max_genome_length)
    (hrange : ∀ c ∈ pop.chromosomes, genes_in_range cfg c.genome.genes) :
    (∀ (pop1 : ga_pop pred_genome F) (s1 : rand_stream),
      pred_offspring ga_worst_fitness cfg pop s = some (pop1, s1) →
      pop1.chromosomes.length = pop.size ∧
      ∀ c ∈ pop1.chromosomes, c.genome.genes.length = cfg._max_genome_length ∧
        ∀ g ∈ c.genome.genes, g ≤ cfg._max_gene_value) ∧
    (0 < cfg._max_genome_length → 0 ≤ cfg._mutation_rate.toRat →
      0 ≤ cfg._offspring_elite.toRat → 0 ≤ cfg._offspring_combine.toRat →
      pop.chromosomes.length = pop.size →
      (∀ c ∈ pop.chromosomes,
        ga_is_better pop.problem_type c.fitness (ga_worst_fitness pop.problem_type) = true) →
      elite_count cfg pop + crossover_count cfg pop ≤ (pop.size : Int) →
      ∃ pop1 s1, pred_offspring ga_worst_fitness cfg pop s = some (pop1, s1)) := by
  refine ⟨?_, ?_⟩
  · intro pop1 s1 h
    exact pred_offspring_range ga_worst_fitness cfg pop pop1 s s1 hchl hchild hrange h
  · intro hL hrate he hc hchr hfit hassert
    exact pred_offspring_total ga_worst_fitness cfg pop s hL hrate he hc hchr hchl
      (fun c hc => (hrange c hc).1) hchild hfit hassert

theorem offspring_gene_range_witness :
    ∃ pop1 s1,
      pred_offspring worst_fitness_example pred_cfg_example pred_pop_example rand_example
        = some (pop1, s1) ∧
      pop1.chromosomes.length = pred_pop_example.size ∧
      ∀ c ∈ pop1.chromosomes,
        c.genome.genes.length = pred_cfg_example._max_genome_length ∧
        ∀ g ∈ c.genome.genes, g ≤ pred_cfg_example._max_gene_value :=
  let T := offspring_gene_range worst_fitness_example pred_cfg_example pred_pop_example
    rand_example (by decide) (by decide) (by decide)
  let ⟨pop1, s1, h⟩ := T.2 (by decide) (by norm_num [pred_cfg_example, c_float.toRat])
    (by norm_num [pred_cfg_example, float_0_2, c_float.toRat])
    (by norm_num [pred_cfg_example, float_0_3, c_float.toRat])
    (by decide) (by decide) (by decide)
  ⟨pop1, s1, h, T.1 pop1 s1 h⟩

/-! ## Gene values are independent draws -/

theorem pred_randomize_loop_target (cfg : pred_statics) (target : List Nat)
    (htr : ∀ g ∈ target, g ≤ cfg._max_gene_value) :
    ∀ (n i : Nat) (genes : List Nat), genes.length = target.length → i + n ≤ target.length →
      ∃ genes1, for_loop (pred_randomize_step cfg) i n
          (genes, fun k => target.getD (k + i) 0)
            = some (genes1, fun k => target.getD (k + (i + n)) 0) ∧
        genes1.length = target.length ∧
        ∀ j : Nat, genes1[j]? = if i ≤ j ∧ j < i + n then target[j]? else genes[j]? := by
  intro n
  induction n with
  | zero =>
    intro i genes hlen _
    refine ⟨genes, rfl, hlen, ?_⟩
    intro j
    rw [if_neg (by omega)]
  | succ n ih =>
    intro i genes hlen hin
    have hit : i < target.length := by omega
    have hv : (rand_urange 0 cfg._max_gene_value (fun k => target.getD (k + i) 0)).1
        = target[i] := by
      have hle := htr target[i] (List.getElem_mem hit)
      simp only [rand_urange, Nat.zero_le, if_true, Nat.zero_add, Nat.sub_zero]
      rw [List.getD_eq_getElem _ _ hit]
      exact Nat.mod_eq_of_lt (by omega)
    have hs : (rand_urange 0 cfg._max_gene_value (fun k => target.getD (k + i) 0)).2
        = fun k => target.getD (k + (i + 1)) 0 := by
      show rand_tail (fun k => target.getD (k + i) 0) = _
      funext k
      show target.getD (k + 1 + i) 0 = target.getD (k + (i + 1)) 0
      rw [show k + 1 + i = k + (i + 1) by omega]
    have hstep : pred_randomize_step cfg i (genes, fun k => target.getD (k + i) 0)
        = some (genes.set i target[i], fun k => target.getD (k + (i + 1)) 0) := by
      unfold pred_randomize_step
      simp only []
      rw [hv, hs, array_write_some _ _ _ (by omega) (by rw [hlen]; omega)]
      simp
    obtain ⟨genes1, hl, hlen1, hget⟩ := ih (i + 1) (genes.set i target[i])
      (by simpa using hlen) (by omega)
    refine ⟨genes1, ?_, hlen1, ?_⟩
    · simp only [for_loop, hstep]
      rw [hl]
      congr 2
      funext k
      congr 1
      omega
    · intro j
      rw [hget j]
      by_cases hji : j = i
      · subst hji
        rw [if_neg (by omega), if_pos (by omega), List.getElem?_set_self (by omega),
          List.getElem?_eq_getElem hit]
      · rw [List.getElem?_set_ne (fun h => hji h.symm)]
        by_cases hc : i + 1 ≤ j ∧ j < i + 1 + n
        · rw [if_pos hc, if_pos (by omega)]
        · rw [if_neg hc, if_neg (by omega)]

/-- Every gene array within the gene range is an outcome of `pred_randomize_genome`. -/
theorem pred_randomize_genome_target {F : Type} (cfg : pred_statics)
    (chromosome : ga_chr pred_genome F)
    (hlen : chromosome.genome.genes.length = cfg._max_genome_length) (target : List Nat)
    (htl : target.length = cfg._max_genome_length)
    (htr : ∀ g ∈ target, g ≤ cfg._max_gene_value) :
    pred_randomize_genome cfg chromosome (fun k => target.getD k 0)
      = some (0, { chromosome with
                     genome := { genes := target,
                                 used_genes := cfg._initial_genome_length } },
              fun k => target.getD (k + cfg._max_genome_length) 0) := by
  obtain ⟨genes1, hl, hlen1, hget⟩ := pred_randomize_loop_target cfg target htr
    cfg._max_genome_length 0 chromosome.genome.genes (by rw [hlen, htl]) (by omega)
  have e : genes1 = target := by
    apply List.ext_getElem?
    intro j
    rw [hget j]
    by_cases hj : j < cfg._max_genome_length
    · rw [if_pos ⟨Nat.zero_le _, by omega⟩]
    · rw [if_neg (by omega), List.getElem?_eq_none (by omega), List.getElem?_eq_none (by omega)]
  subst e
  unfold pred_randomize_genome
  simp only [Nat.add_zero, Nat.zero_add] at hl
  rw [hl]

/-- C8 as amended.  The genes that `pred_randomize_genome` produces are independent draws:
for a chromosome of `L_max` gene cells, every array of `L_max` values of `[0, max_gene_value]`,
repeated values included, is its result for some outcome of the random draws.  So the first
`used_genes` gene values need not be pairwise distinct: whenever
`2 <= used_genes <= L_max` there is an outcome whose genes are all in `[0, max_gene_value]`
and whose first `used_genes` genes hold a repeated value. -/
theorem pred_randomize_genome_any_outcome {F : Type} (cfg : pred_statics)
    (chromosome : ga_chr pred_genome F)
    (hlen : chromosome.genome.genes.length = cfg._max_genome_length) :
    (∀ target : List Nat, target.length = cfg._max_genome_length →
      (∀ g ∈ target, g ≤ cfg._max_gene_value) →
      ∃ s s1, pred_randomize_genome cfg chromosome s
        = some (0, { chromosome with
                       genome := { genes := target,
                                   used_genes := cfg._initial_genome_length } }, s1)) ∧
    (2 ≤ cfg._initial_genome_length → cfg._initial_genome_length ≤ cfg._max_genome_length →
      ∃ s genes s1, pred_randomize_genome cfg chromosome s
          = some (0, { chromosome with
                         genome := { genes := genes,
                                     used_genes := cfg._initial_genome_length } }, s1) ∧
        (∀ g ∈ genes, g ≤ cfg._max_gene_value) ∧
        ¬ (genes.take cfg._initial_genome_length).Nodup) := by
  refine ⟨?_, ?_⟩
  · intro target htl htr
    exact ⟨_, _, pred_randomize_genome_target cfg chromosome hlen target htl htr⟩
  · intro h2 hle
    have htr : ∀ g ∈ List.replicate cfg._max_genome_length 0, g ≤ cfg._max_gene_value := by
      intro g hg
      rw [(List.mem_replicate.1 hg).2]
      exact Nat.zero_le _
    refine ⟨_, List.replicate cfg._max_genome_length 0, _,
      pred_randomize_genome_target cfg chromosome hlen _ (by simp) htr, htr, ?_⟩
    rw [List.take_replicate, Nat.min_eq_left hle, List.nodup_replicate]
    omega

theorem pred_randomize_genome_any_outcome_witness :
    pred_chr_example.genome.genes.length = pred_cfg_example._max_genome_length ∧
    2 ≤ pred_cfg_example._initial_genome_length ∧
    ∃ s genes s1, pred_randomize_genome pred_cfg_example pred_chr_example s
        = some (0, { pred_chr_example with
                       genome := { genes := genes,
                                   used_genes := pred_cfg_example._initial_genome_length } },
                s1) ∧
      (∀ g ∈ genes, g ≤ pred_cfg_example._max_gene_value) ∧
      ¬ (genes.take pred_cfg_example._initial_genome_length).Nodup :=
  ⟨by decide, by decide,
    (pred_randomize_genome_any_outcome pred_cfg_example pred_chr_example (by decide)).2
      (by decide) (by decide)⟩

/-! ## Policy counts -/

theorem c_float.mag_ceil_eq (a : c_float) :
    (a.mag_ceil : Int) = ⌈(a.mant : ℚ) * (2 : ℚ) ^ a.exp⌉ := by
  unfold c_float.mag_ceil
  by_cases he : 0 ≤ a.exp
  · obtain ⟨k, hk⟩ := Int.eq_ofNat_of_zero_le he
    rw [if_pos he, hk, zpow_natCast, Int.toNat_ofNat]
    have : ((a.mant : ℚ) * 2 ^ k) = ((a.mant * 2 ^ k : Nat) : ℚ) := by push_cast; ring
    rw [this, Int.ceil_natCast]
  · rw [if_neg he]
    obtain ⟨k, hk⟩ := Int.eq_ofNat_of_zero_le (show 0 ≤ -a.exp by omega)
    have hexp : a.exp = -(k : Int) := by omega
    rw [hk, Int.toNat_ofNat, hexp, zpow_neg, zpow_natCast]
    have hd : 0 < 2 ^ k := Nat.pow_pos (by decide)
    have hdq : (0 : ℚ) < ((2 : ℚ) ^ k) := by positivity
    set q := (a.mant + 2 ^ k - 1) / 2 ^ k with hq
    have h1 : 2 ^ k * q ≤ a.mant + 2 ^ k - 1 := Nat.mul_div_le _ _
    have h2 : a.mant + 2 ^ k - 1 < 2 ^ k * (q + 1) := Nat.lt_mul_div_succ _ hd
    symm
    rw [Int.ceil_eq_iff]
    constructor
    · -- q - 1 < mant / 2^k
      rw [← div_eq_mul_inv, lt_div_iff₀ hdq]
      have h3 : 2 ^ k * q < a.mant + 2 ^ k := by omega
      have h4 : ((2 ^ k * q : Nat) : ℚ) < ((a.mant + 2 ^ k : Nat) : ℚ) := by exact_mod_cast h3
      push_cast at h4 ⊢
      linarith
    · rw [← div_eq_mul_inv, div_le_iff₀ hdq]
      have h3 : a.mant ≤ 2 ^ k * q := by
        have : 2 ^ k * (q + 1) = 2 ^ k * q + 2 ^ k := by ring
        omega
      have h4 : ((a.mant : Nat) : ℚ) ≤ ((2 ^ k * q : Nat) : ℚ) := by exact_mod_cast h3
      push_cast at h4 ⊢
      linarith

theorem c_float.mag_floor_eq (a : c_float) :
    (a.mag_floor : Int) = ⌊(a.mant : ℚ) * (2 : ℚ) ^ a.exp⌋ := by
  have h := c_float.to_int_eq_floor { a with neg := false } rfl
  simpa [c_float.to_int, c_float.toRat, c_float.mag_floor] using h

/-- The conversion `(int) ceil(x)` of a `float` is the ceiling of its value. -/
theorem c_ceil_eq_ceil (a : c_float) : c_ceil a = ⌈a.toRat⌉ := by
  unfold c_ceil c_float.toRat
  by_cases hn : a.neg = true
  · rw [if_pos hn, if_pos hn, c_float.mag_floor_eq]
    have : (-1 : ℚ) * (a.mant : ℚ) * (2 : ℚ) ^ a.exp = -((a.mant : ℚ) * (2 : ℚ) ^ a.exp) := by
      ring
    rw [this, Int.ceil_neg]
  · rw [if_neg hn, if_neg hn, c_float.mag_ceil_eq, one_mul]

theorem array_write_bounds {α : Type} (a r : List α) (i : Int) (v : α)
    (h : array_write a i v = some r) : 0 ≤ i ∧ i < a.length ∧ r = a.set i.toNat v := by
  unfold array_write at h
  split at h
  · rename_i hb
    exact ⟨hb.1, hb.2, (Option.some.inj h).symm⟩
  · cases h

/-- Whenever the elite search returns, it has marked `count` further slots and left every other
slot as it was. -/
theorem find_elites_rounds_count {G F : Type} [LinearOrder F]
    (ga_worst_fitness : ga_problem_type_t → F) (pop : ga_pop G F)
    (hchr : pop.chromosomes.length = pop.size) :
    ∀ (count : Nat) (ops ops1 : List _offspring_op), ops.length = pop.size →
      _find_elites_rounds ga_worst_fitness pop count ops = some ops1 →
      ops1.length = pop.size ∧
      ops1.count _offspring_op.keep_intact = ops.count _offspring_op.keep_intact + count ∧
      (∀ i : Nat, ops1[i]? ≠ some _offspring_op.keep_intact → ops1[i]? = ops[i]?) := by
  intro count
  induction count with
  | zero =>
    intro ops ops1 hops h
    simp only [_find_elites_rounds, Option.some.injEq] at h
    subst h
    exact ⟨hops, rfl, fun _ _ => rfl⟩
  | succ count ih =>
    intro ops ops1 hops h
    obtain ⟨st1, hl, _, _, hsel⟩ :=
      find_best_loop_spec pop ops hops hchr pop.size 0
        (ga_worst_fitness pop.problem_type, (-1 : Int)) (by omega)
    simp only [_find_elites_rounds, hl] at h
    cases hw : array_write ops st1.2 _offspring_op.keep_intact with
    | none => rw [hw] at h; cases h
    | some ops2 =>
      rw [hw] at h
      simp only [] at h
      obtain ⟨hb0, hb1, hset⟩ := array_write_bounds _ _ _ _ hw
      obtain ⟨j, hj3, hj4⟩ : ∃ j : Nat, st1.2 = (j : Int) ∧
          ops[j]? ≠ some _offspring_op.keep_intact := by
        rcases hsel with hs | ⟨j, _, _, hj3, hj4, _⟩
        · rw [hs] at hb0
          have hneg : ¬ (0 : Int) ≤ -1 := by decide
          exact absurd hb0 hneg
        · exact ⟨j, hj3, hj4⟩
      have hjl : j < ops.length := by omega
      have hoj : ops[j] ≠ _offspring_op.keep_intact := by
        intro hh; apply hj4; rw [List.getElem?_eq_getElem hjl, hh]
      rw [hj3, Int.toNat_ofNat] at hset
      subst hset
      have hcount : (ops.set j _offspring_op.keep_intact).count _offspring_op.keep_intact
          = ops.count _offspring_op.keep_intact + 1 := by
        rw [List.count_set _ _ _ _ hjl]
        simp [hoj]
      obtain ⟨hlen1, hcount1, hrest⟩ :=
        ih (ops.set j _offspring_op.keep_intact) ops1 (by simpa using hops) h
      refine ⟨hlen1, by omega, ?_⟩
      intro i hi
      rw [hrest i hi, List.getElem?_set]
      by_cases hji : j = i
      · subst hji
        exfalso
        have h2 := hrest j hi
        rw [List.getElem?_set, if_pos rfl, if_pos hjl] at h2
        exact hi h2
      · rw [if_neg hji]

/-- Whenever the crossover assignment returns, it has marked `crossover_count - crossover_set`
further slots (none if that is not positive) and has left the elites as they were. -/
theorem assign_crossover_count (cc : Int) :
    ∀ (fuel i : Nat) (cset : Int) (ops ops1 : List _offspring_op),
      (∀ j : Nat, i ≤ j → ops[j]? ≠ some _offspring_op.crossover_product) →
      assign_crossover cc fuel i cset ops = some ops1 →
      ops1.length = ops.length ∧
      ops1.count _offspring_op.keep_intact = ops.count _offspring_op.keep_intact ∧
      ops1.count _offspring_op.crossover_product
        = ops.count _offspring_op.crossover_product + (cc - cset).toNat := by
  intro fuel
  induction fuel with
  | zero => intro i cset ops ops1 _ h; simp [assign_crossover] at h
  | succ fuel ih =>
    intro i cset ops ops1 hno h
    unfold assign_crossover at h
    by_cases hlt : cset < cc
    · rw [if_pos hlt] at h
      cases hoi : ops[i]? with
      | none => rw [hoi] at h; cases h
      | some op =>
        rw [hoi] at h
        simp only [] at h
        obtain ⟨hil, hv⟩ := List.getElem?_eq_some_iff.1 hoi
        by_cases hk : op = _offspring_op.keep_intact
        · rw [if_neg (by simpa using hk)] at h
          obtain ⟨h1, h2, h3⟩ := ih (i + 1) cset ops ops1 (fun j hj => hno j (by omega)) h
          exact ⟨h1, h2, h3⟩
        · rw [if_pos hk] at h
          have hnc : ops[i] ≠ _offspring_op.crossover_product := by
            intro hh; apply hno i (le_refl _); rw [List.getElem?_eq_getElem hil, hh]
          have hnk : ops[i] ≠ _offspring_op.keep_intact := by rw [hv]; exact hk
          obtain ⟨h1, h2, h3⟩ :=
            ih (i + 1) (cset + 1) (ops.set i _offspring_op.crossover_product) ops1
              (fun j hj => by rw [List.getElem?_set_ne (by omega)]; exact hno j (by omega)) h
          have hck : (ops.set i _offspring_op.crossover_product).count
              _offspring_op.keep_intact = ops.count _offspring_op.keep_intact := by
            rw [List.count_set _ _ _ _ hil]
            simp [hnk]
          have hcc : (ops.set i _offspring_op.crossover_product).count
              _offspring_op.crossover_product
                = ops.count _offspring_op.crossover_product + 1 := by
            rw [List.count_set _ _ _ _ hil]
            simp [hnc]
          refine ⟨by rw [h1]; simp, by rw [h2, hck], ?_⟩
          rw [h3, hcc]
          omega
    · rw [if_neg hlt] at h
      simp only [Option.some.injEq] at h
      subst h
      refine ⟨rfl, rfl, ?_⟩
      have : (cc - cset).toNat = 0 := by omega
      rw [this, Nat.add_zero]

/-- Whenever the policy array of `pred_offspring` is computed, it has `size` entries, of which
`elite_count` are `keep_intact` and `crossover_count` are `crossover_product` (none for a count
that is not positive). -/
theorem offspring_child_type_count {G F : Type} [LinearOrder F]
    (ga_worst_fitness : ga_problem_type_t → F) (cfg : pred_statics) (pop : ga_pop G F)
    (hchr : pop.chromosomes.length = pop.size) (child_type : List _offspring_op)
    (h : offspring_child_type ga_worst_fitness cfg pop = some child_type) :
    elite_count cfg pop + crossover_count cfg pop ≤ (pop.size : Int) ∧
    child_type.length = pop.size ∧
    child_type.count _offspring_op.keep_intact = (elite_count cfg pop).toNat ∧
    child_type.count _offspring_op.crossover_product = (crossover_count cfg pop).toNat := by
  unfold offspring_child_type at h
  by_cases hassert : elite_count cfg pop + crossover_count cfg pop ≤ (pop.size : Int)
  · rw [if_pos hassert] at h
    cases he : _find_elites ga_worst_fitness pop (elite_count cfg pop)
        (List.replicate pop.size _offspring_op.random_mutant) with
    | none => rw [he] at h; cases h
    | some ops1 =>
      rw [he] at h
      simp only [] at h
      unfold _find_elites at he
      obtain ⟨hl1, hk1, hrest⟩ := find_elites_rounds_count ga_worst_fitness pop hchr _ _ ops1
        (by simp) he
      have hinit_keep : (List.replicate pop.size _offspring_op.random_mutant).count
          _offspring_op.keep_intact = 0 := by
        rw [List.count_replicate]; rfl
      rw [hinit_keep, Nat.zero_add] at hk1
      have hnocross : ∀ j : Nat, ops1[j]? ≠ some _offspring_op.crossover_product := by
        intro j hj
        have h1 := hrest j (by rw [hj]; simp)
        rw [hj, List.getElem?_replicate] at h1
        split at h1 <;> simp at h1
      have hcross0 : ops1.count _offspring_op.crossover_product = 0 := by
        rw [List.count_eq_zero]
        intro hmem
        obtain ⟨n, hn, hnb⟩ := List.getElem_of_mem hmem
        exact hnocross n (by rw [List.getElem?_eq_getElem hn, hnb])
      obtain ⟨h1, h2, h3⟩ := assign_crossover_count (crossover_count cfg pop) _ 0 0 ops1
        child_type (fun j _ => hnocross j) h
      refine ⟨hassert, by rw [h1, hl1], by rw [h2, hk1], ?_⟩
      rw [h3, hcross0]
      simp
  · rw [if_neg hassert] at h
    cases h

/-- C5, the claim as stated fails.  The counts are ceilings of single precision products, which
are neither `ceil(size * fraction)` for the value of the `float` fraction nor for the decimal
fraction it stands for.  With size 10 and the elite fraction 0.1f (0.100000001..) the exact
product is above 1, its ceiling 2, but the single precision product is 1.0 and one slot is an
elite.  With size 50 and the crossover fraction 0.3f, the `float` nearest to 0.3,
`ceil(50 * 0.3)` is 15 but the single precision product is 15.000001 and 16 slots are crossover
slots. -/
theorem offspring_counts_differ_from_ceil :
    (offspring_child_type worst_fitness_example pred_cfg_elite_0_1 pred_pop_example).map
        (fun ct => ct.count _offspring_op.keep_intact) = some 1 ∧
    ⌈(pred_pop_example.size : ℚ) * pred_cfg_elite_0_1._offspring_elite.toRat⌉ = 2 ∧
    (offspring_child_type worst_fitness_example pred_cfg_example pred_pop_50_example).map
        (fun ct => ct.count _offspring_op.crossover_product) = some 16 ∧
    ⌈(pred_pop_50_example.size : ℚ) * (3 / 10)⌉ = 15 ∧
    |pred_cfg_example._offspring_combine.toRat - 3 / 10| < 1 / 2 ^ 26 := by
  refine ⟨by decide, ?_, by decide, ?_, ?_⟩
  · rw [Int.ceil_eq_iff]
    norm_num [pred_pop_example, pred_cfg_elite_0_1, float_0_1, c_float.toRat]
  · rw [Int.ceil_eq_iff]
    norm_num [pred_pop_50_example]
  · rw [abs_lt]
    norm_num [pred_cfg_example, float_0_3, c_float.toRat]

/-- C5 as amended.  In `pred_offspring` the counts are
`elite_count = ceil(fl(size * elite_fraction))` and
`crossover_count = ceil(fl(size * crossover_fraction))`, where `fl` is the product as the code
computes it, in single precision (the exact product rounded to the nearest `float`).  Whenever
the policy array is computed, each of the `size` slots has exactly one policy, exactly
`elite_count` slots are elite copies, exactly `crossover_count` are crossover slots and all
remaining slots are random mutants, so the three counts add up to `size`; for size 10 and the
`float` fractions 0.2 and 0.3 these are 2, 3 and 5.  The array is computed under the asserted
bound when the fractions are not negative and every fitness is strictly better than
`ga_worst_fitness`. -/
theorem offspring_slot_policies {G F : Type} [LinearOrder F]
    (ga_worst_fitness : ga_problem_type_t → F) (cfg : pred_statics) (pop : ga_pop G F)
    (hchr : pop.chromosomes.length = pop.size) :
    (elite_count cfg pop
        = ⌈(c_float.mul (c_float.of_int pop.size) cfg._offspring_elite).toRat⌉ ∧
      crossover_count cfg pop
        = ⌈(c_float.mul (c_float.of_int pop.size) cfg._offspring_combine).toRat⌉) ∧
    (∀ child_type, offspring_child_type ga_worst_fitness cfg pop = some child_type →
      child_type.length = pop.size ∧
      child_type.count _offspring_op.keep_intact = (elite_count cfg pop).toNat ∧
      child_type.count _offspring_op.crossover_product = (crossover_count cfg pop).toNat ∧
      child_type.count _offspring_op.random_mutant
        = pop.size - (elite_count cfg pop).toNat - (crossover_count cfg pop).toNat ∧
      child_type.count _offspring_op.keep_intact
        + child_type.count _offspring_op.crossover_product
        + child_type.count _offspring_op.random_mutant = pop.size ∧
      (pop.size = 10 → cfg._offspring_elite = float_0_2 → cfg._offspring_combine = float_0_3 →
        child_type.count _offspring_op.keep_intact = 2 ∧
        child_type.count _offspring_op.crossover_product = 3 ∧
        child_type.count _offspring_op.random_mutant = 5)) ∧
    (0 ≤ cfg._offspring_elite.toRat → 0 ≤ cfg._offspring_combine.toRat →
      (∀ c ∈ pop.chromosomes,
        ga_is_better pop.problem_type c.fitness (ga_worst_fitness pop.problem_type) = true) →
      elite_count cfg pop + crossover_count cfg pop ≤ (pop.size : Int) →
      ∃ child_type, offspring_child_type ga_worst_fitness cfg pop = some child_type) := by
  refine ⟨⟨c_ceil_eq_ceil _, c_ceil_eq_ceil _⟩, ?_, ?_⟩
  · intro ct h
    obtain ⟨_, h2, h3, h4⟩ := offspring_child_type_count ga_worst_fitness cfg pop hchr ct h
    have h5 := count_three ct
    refine ⟨h2, h3, h4, by omega, by omega, ?_⟩
    intro hs hfe hfc
    have e1 : elite_count cfg pop = 2 := by
      unfold elite_count; rw [hs, hfe]; decide
    have e2 : crossover_count cfg pop = 3 := by
      unfold crossover_count; rw [hs, hfc]; decide
    rw [e1] at h3
    rw [e2] at h4
    have h3' : List.count _offspring_op.keep_intact ct = 2 := by simpa using h3
    have h4' : List.count _offspring_op.crossover_product ct = 3 := by simpa using h4
    omega
  · intro he hc hfit hassert
    obtain ⟨ct, h1, _⟩ :=
      offspring_child_type_spec ga_worst_fitness cfg pop hchr hfit he hc hassert
    exact ⟨ct, h1⟩

theorem offspring_slot_policies_witness :
    pred_pop_example.chromosomes.length = pred_pop_example.size ∧
    ∃ child_type,
      offspring_child_type worst_fitness_example pred_cfg_example pred_pop_example
        = some child_type ∧
      child_type.length = pred_pop_example.size ∧
      child_type.count _offspring_op.keep_intact = 2 ∧
      child_type.count _offspring_op.crossover_product = 3 ∧
      child_type.count _offspring_op.random_mutant = 5 :=
  ⟨by decide,
    let T := offspring_slot_policies worst_fitness_example pred_cfg_example pred_pop_example
      (by decide)
    let ⟨ct, h⟩ := T.2.2 (by norm_num [pred_cfg_example, float_0_2, c_float.toRat])
      (by norm_num [pred_cfg_example, float_0_3, c_float.toRat]) (by decide) (by decide)
    ⟨ct, h, (T.2.1 ct h).1, (T.2.1 ct h).2.2.2.2.2 rfl rfl rfl⟩⟩

/-! ## Permuted phenotype, worker ranges, PSNR -/

/-- C8, the claim as stated fails.  With all raw draws equal to 3 `pred_randomize_genome`
fills the genome with `3, 3, 3, 3` and sets `used_genes = 2`: the first `used_genes` gene values
are not pairwise distinct.  With all raw draws equal to 1 `pred_mutate` turns the genes
`1, 2, 3, 4` into `1, 1, 3, 4`.  `predictors.c` draws every gene independently, keeps no record
of used values and derives no phenotype. -/
theorem pred_genes_may_repeat :
    ((pred_randomize_genome pred_cfg_example pred_chr_example (fun _ => 3)).map
        (fun r => (r.2.1.genome.genes, r.2.1.genome.used_genes)) = some ([3, 3, 3, 3], 2)) ∧
    ¬ (([3, 3, 3, 3] : List Nat).take 2).Nodup ∧
    ((pred_mutate pred_cfg_example [1, 2, 3, 4] (fun _ => 1)).map (fun r => r.1)
        = some [1, 1, 3, 4]) ∧
    ¬ (([1, 1, 3, 4] : List Nat).take 2).Nodup := by
  decide

/-- C9, the code at a failing input.  For 5 windows and 4 workers `per_thread` is 2 and the
ranges are `[0,2)`, `[2,4)`, `[4,6)`, `[6,5)`: the third worker runs its loop body for the
window index 5, which lies outside the sample domain `[0, 5)`. -/
theorem pthread_ranges_overrun :
    per_thread 5 4 = 2 ∧
    pthread_works 5 4
      = [{ start := 0, stop := 2 }, { start := 2, stop := 4 }, { start := 4, stop := 6 },
         { start := 6, stop := 5 }] ∧
    (pthread_works 5 4).map worker_indices = [[0, 1], [2, 3], [4, 5], []] ∧
    (5 : Int) ∈ worker_indices (pthread_work 5 4 2) ∧ ¬ ((5 : Int) < 5) := by
  decide

theorem foldl_add_range (f : Nat → ℚ) (n : Nat) (s0 : ℚ) :
    (List.range n).foldl (fun s y => s + f y) s0 = s0 + ∑ y ∈ Finset.range n, f y := by
  induction n with
  | zero => simp
  | succ k ih =>
    rw [List.range_succ, List.foldl_append, ih, Finset.sum_range_succ]
    simp only [List.foldl_cons, List.foldl_nil]
    ring

theorem psnr_sum_eq (original filtered : img_image) :
    psnr_sum original filtered = sum_of_squared_differences original filtered := by
  unfold psnr_sum sum_of_squared_differences img_get_pixel
  simp only [foldl_add_range]
  rw [zero_add]
  apply Finset.sum_congr rfl
  intro x _
  apply Finset.sum_congr rfl
  intro y _
  ring

/-- C10. For every pair of same-shaped images `fitness_psnr(original, filtered)` is, in exact
arithmetic, `255^2 * width * height` divided by the sum over all pixel positions of
`(filtered(x,y) - original(x,y))^2`: the quotient of the two as `double` division gives it, and
the rational score of the spec whenever the divisor is not zero. -/
theorem fitness_psnr_exact (original filtered : img_image)
    (hw : original.width = filtered.width) (hh : original.height = filtered.height)
    (hc : original.comp = filtered.comp) :
    fitness_psnr original filtered
      = some (c_double.div ((255 : ℚ) ^ 2 * ((original.width : ℚ) * (original.height : ℚ)))
          (sum_of_squared_differences original filtered)) ∧
    (sum_of_squared_differences original filtered ≠ 0 →
      fitness_psnr original filtered = some (c_double.finite (psnr_score original filtered))) := by
  have h : fitness_psnr original filtered
      = some (c_double.div ((255 : ℚ) ^ 2 * ((original.width : ℚ) * (original.height : ℚ)))
          (sum_of_squared_differences original filtered)) := by
    unfold fitness_psnr
    rw [if_pos ⟨hw, hh, hc⟩, psnr_sum_eq]
    simp only []
    congr 2
    ring
  refine ⟨h, ?_⟩
  intro hne
  rw [h]
  unfold c_double.div psnr_score
  rw [if_pos hne]

theorem fitness_psnr_exact_witness :
    img_original_example.width = img_filtered_example.width ∧
    sum_of_squared_differences img_original_example img_filtered_example ≠ 0 ∧
    fitness_psnr img_original_example img_filtered_example
      = some (c_double.finite (psnr_score img_original_example img_filtered_example)) :=
  ⟨rfl, by simp [sum_of_squared_differences, img_original_example, img_filtered_example,
      Finset.sum_range_succ]; norm_num,
    (fitness_psnr_exact img_original_example img_filtered_example rfl rfl rfl).2
      (by simp [sum_of_squared_differences, img_original_example, img_filtered_example,
        Finset.sum_range_succ]; norm_num)⟩

/-! ## Filtering: worker ranges and the partitioned filter -/

/-- C24, the claim fails in the code: for n = 5 windows and T = 4 workers the range of worker 2
is `[4, 6)`, so `stop_2 <= n` does not hold and the worker indexes the window array at 5; the
range of worker 3 starts at 6, beyond the array.  Only the stop of the last worker is clamped
to n. -/
theorem pthread_stop_exceeds_size :
    (pthread_work 5 4 2).start = 4 ∧ (pthread_work 5 4 2).stop = 6 ∧
    ¬ ((pthread_work 5 4 2).stop ≤ 5) ∧
    (pthread_work 5 4 3).start = 6 ∧ (pthread_work 5 4 3).stop = 5 ∧
    (array_read (windows_example 5).windows 5).isSome = false := by
  decide

/-- C25, the claim fails in the code: for 5 windows with pairwise distinct positions and 4
workers `_fitness_filter_image_simple` returns an image, while `_fitness_filter_image_pthread`
does not, in whichever of these orders the workers run: worker 2 reads the window of index 5,
outside the array.  For 6 windows and 3 workers the two filters give the same pixels. -/
theorem pthread_filter_leaves_array :
    (_fitness_filter_image_simple cgp_example (img_row_example 5) (windows_example 5) 1).isSome
      = true ∧
    (_fitness_filter_image_pthread cgp_example (img_row_example 5) (windows_example 5) 4
      [0, 1, 2, 3] 1).isSome = false ∧
    (_fitness_filter_image_pthread cgp_example (img_row_example 5) (windows_example 5) 4
      [3, 2, 1, 0] 1).isSome = false ∧
    _fitness_filter_image_pthread_worker cgp_example (windows_example 5) 1
      (pthread_work 5 4 2) (img_row_example 5) = none ∧
    (_fitness_filter_image_pthread cgp_example (img_row_example 6) (windows_example 6) 3
        [2, 0, 1] 1).map (fun img => (List.range 6).map (fun (x : Nat) => img.data x 0))
      = (_fitness_filter_image_simple cgp_example (img_row_example 6) (windows_example 6)
          1).map (fun img => (List.range 6).map (fun (x : Nat) => img.data x 0)) := by
  refine ⟨by rfl, by rfl, by rfl, by rfl, by rfl⟩

/-! ## Fitness: the divisor of `fitness_psnr` -/

theorem sum_of_squared_differences_nonneg (original filtered : img_image) :
    0 ≤ sum_of_squared_differences original filtered := by
  unfold sum_of_squared_differences
  exact Finset.sum_nonneg fun x _ => Finset.sum_nonneg fun y _ => sq_nonneg _

theorem sum_of_squared_differences_eq_zero (original filtered : img_image) :
    sum_of_squared_differences original filtered = 0 ↔
      ∀ x y : Nat, (x : Int) < original.width → (y : Int) < original.height →
        filtered.data (x : Int) (y : Int) = original.data (x : Int) (y : Int) := by
  unfold sum_of_squared_differences
  rw [Finset.sum_eq_zero_iff_of_nonneg
    (fun x _ => Finset.sum_nonneg fun y _ => sq_nonneg _)]
  constructor
  · intro h x y hx hy
    have h1 := h x (Finset.mem_range.2 (by omega))
    rw [Finset.sum_eq_zero_iff_of_nonneg (fun y _ => sq_nonneg _)] at h1
    have h2 := h1 y (Finset.mem_range.2 (by omega))
    have h3 := pow_eq_zero_iff (two_ne_zero) |>.1 h2
    have h4 : filtered.data (x : Int) (y : Int) - original.data (x : Int) (y : Int) = 0 := by
      exact_mod_cast h3
    omega
  · intro h x hx
    rw [Finset.sum_eq_zero_iff_of_nonneg (fun y _ => sq_nonneg _)]
    intro y hy
    have hx1 := Finset.mem_range.1 hx
    have hy1 := Finset.mem_range.1 hy
    rw [h x y (by omega) (by omega)]
    simp

/-- C26. For same-shaped images with width, height >= 1 the divisor `sum` of `fitness_psnr` is
strictly positive exactly when the images differ in at least one pixel of the domain; then the
score is finite and strictly positive.  For images identical on the domain the divisor is zero,
the division gives `+inf` and no finite score exists. -/
theorem psnr_divisor_zero_iff_identical (original filtered : img_image)
    (hw : original.width = filtered.width) (hh : original.height = filtered.height)
    (hc : original.comp = filtered.comp)
    (hw1 : 1 ≤ original.width) (hh1 : 1 ≤ original.height) :
    (0 < psnr_sum original filtered ↔
      ∃ x y : Nat, (x : Int) < original.width ∧ (y : Int) < original.height ∧
        img_get_pixel filtered (x : Int) (y : Int)
          ≠ img_get_pixel original (x : Int) (y : Int)) ∧
    (0 < psnr_sum original filtered →
      ∃ q : ℚ, fitness_psnr original filtered = some (c_double.finite q) ∧ 0 < q) ∧
    ((∀ x y : Nat, (x : Int) < original.width → (y : Int) < original.height →
        img_get_pixel filtered (x : Int) (y : Int)
          = img_get_pixel original (x : Int) (y : Int)) →
      psnr_sum original filtered = 0 ∧
      fitness_psnr original filtered = some c_double.pos_inf ∧
      ∀ q : ℚ, fitness_psnr original filtered ≠ some (c_double.finite q)) := by
  have hnn := sum_of_squared_differences_nonneg original filtered
  have hz := sum_of_squared_differences_eq_zero original filtered
  have hcoef : (0 : ℚ) < 255 * 255 * (original.width : ℚ) * (original.height : ℚ) := by
    have h1 : (0 : ℚ) < (original.width : ℚ) := by exact_mod_cast (by omega : 0 < original.width)
    have h2 : (0 : ℚ) < (original.height : ℚ) := by
      exact_mod_cast (by omega : 0 < original.height)
    positivity
  have hf : fitness_psnr original filtered
      = some (c_double.div (255 * 255 * (original.width : ℚ) * (original.height : ℚ))
          (psnr_sum original filtered)) := by
    unfold fitness_psnr
    rw [if_pos ⟨hw, hh, hc⟩]
  rw [psnr_sum_eq] at hf ⊢
  unfold img_get_pixel
  refine ⟨?_, ?_, ?_⟩
  · constructor
    · intro hpos
      by_contra hcon
      have hall : ∀ x y : Nat, (x : Int) < original.width → (y : Int) < original.height →
          filtered.data (x : Int) (y : Int) = original.data (x : Int) (y : Int) := by
        intro x y hx hy
        by_contra hne
        exact hcon ⟨x, y, hx, hy, hne⟩
      have := hz.2 hall
      linarith
    · rintro ⟨x, y, hx, hy, hne⟩
      rcases lt_or_eq_of_le hnn with h | h
      · exact h
      · exact absurd (hz.1 h.symm x y hx hy) hne
  · intro hpos
    refine ⟨_, ?_, div_pos hcoef hpos⟩
    rw [hf]
    unfold c_double.div
    rw [if_pos (ne_of_gt hpos)]
  · intro hall
    have h0 := hz.2 hall
    have hinf : fitness_psnr original filtered = some c_double.pos_inf := by
      rw [hf, h0]
      unfold c_double.div
      rw [if_neg (by simp), if_pos hcoef]
    refine ⟨h0, hinf, ?_⟩
    intro q hq
    rw [hinf] at hq
    cases hq

theorem psnr_divisor_zero_iff_identical_witness :
    (0 < psnr_sum img_original_example img_filtered_example ↔
      ∃ x y : Nat, (x : Int) < img_original_example.width ∧
        (y : Int) < img_original_example.height ∧
        img_get_pixel img_filtered_example (x : Int) (y : Int)
          ≠ img_get_pixel img_original_example (x : Int) (y : Int)) ∧
    (0 < psnr_sum img_original_example img_filtered_example →
      ∃ q : ℚ, fitness_psnr img_original_example img_filtered_example
        = some (c_double.finite q) ∧ 0 < q) ∧
    ((∀ x y : Nat, (x : Int) < img_original_example.width →
        (y : Int) < img_original_example.height →
        img_get_pixel img_filtered_example (x : Int) (y : Int)
          = img_get_pixel img_original_example (x : Int) (y : Int)) →
      psnr_sum img_original_example img_filtered_example = 0 ∧
      fitness_psnr img_original_example img_filtered_example = some c_double.pos_inf ∧
      ∀ q : ℚ, fitness_psnr img_original_example img_filtered_example
        ≠ some (c_double.finite q)) :=
  psnr_divisor_zero_iff_identical img_original_example img_filtered_example rfl rfl rfl
    (by decide) (by decide)


/-! ## Configuration: predictor sizes -/

theorem PARSE_DOUBLE_next (libc : libc_t) (st : config_state) (optarg : String)
    (set : config_t → ℚ → config_t) (after : config_t → config_t)
    (hok : parse_reports_error (libc.strtod optarg) optarg
      (st.errno_erange || (libc.strtod optarg).erange) = false) :
    PARSE_DOUBLE libc st optarg set after
      = config_step.next
          { st with cfg := after (set st.cfg (libc.strtod optarg).value)
                    errno_erange := st.errno_erange || (libc.strtod optarg).erange } := by
  unfold PARSE_DOUBLE
  simp only [hok]
  rfl

theorem config_option_pred_size (libc : libc_t) (max_filename_length : Int)
    (st : config_state) (optarg : String)
    (hok : parse_reports_error (libc.strtod optarg) optarg
      (st.errno_erange || (libc.strtod optarg).erange) = false) :
    config_option libc max_filename_length st ⟨'S', optarg⟩
      = config_step.next
          { st with
              cfg := if 1 < (libc.strtod optarg).value then
                       { st.cfg with pred_size := (libc.strtod optarg).value / 100 }
                     else { st.cfg with pred_size := (libc.strtod optarg).value }
              errno_erange := st.errno_erange || (libc.strtod optarg).erange } := by
  have hS : config_option libc max_filename_length st ⟨'S', optarg⟩
      = PARSE_DOUBLE libc st optarg (fun c v => { c with pred_size := v })
          (fun c => if 1 < c.pred_size then { c with pred_size := c.pred_size / 100 } else c) := by
    simp [config_option]
  rw [hS, PARSE_DOUBLE_next libc st optarg _ _ hok]

theorem config_option_pred_initial_size (libc : libc_t) (max_filename_length : Int)
    (st : config_state) (optarg : String)
    (hok : parse_reports_error (libc.strtod optarg) optarg
      (st.errno_erange || (libc.strtod optarg).erange) = false) :
    config_option libc max_filename_length st ⟨'I', optarg⟩
      = config_step.next
          { st with
              cfg := if 1 < (libc.strtod optarg).value then
                       { st.cfg with pred_initial_size := (libc.strtod optarg).value / 100 }
                     else { st.cfg with pred_initial_size := (libc.strtod optarg).value }
              errno_erange := st.errno_erange || (libc.strtod optarg).erange } := by
  have hI : config_option libc max_filename_length st ⟨'I', optarg⟩
      = PARSE_DOUBLE libc st optarg (fun c v => { c with pred_initial_size := v })
          (fun c =>
            if 1 < c.pred_initial_size then
              { c with pred_initial_size := c.pred_initial_size / 100 }
            else c) := by
    simp [config_option]
  rw [hI, PARSE_DOUBLE_next libc st optarg _ _ hok]

theorem config_load_args_single (libc : libc_t) (max_filename_length : Int) (e : Bool)
    (item : getopt_item) (cfg : config_t) (st1 : config_state)
    (h : config_option libc max_filename_length
      { cfg := cfg, algorithm_specified := false, pred_type_specified := false,
        errno_erange := e } item = config_step.next st1) :
    config_load_args libc max_filename_length e [item] cfg = (config_return.cfg_ok, st1.cfg) := by
  simp only [config_load_args, config_loop, h]

theorem libc_example_accepts_50 (e : Bool) :
    parse_reports_error (libc_example.strtod "50") "50" e = false := by
  have h : (libc_example.strtod "50").endptr = 2 := rfl
  have h2 : ("50" : String).length = 2 := by decide
  simp [parse_reports_error, h, h2]

/-- C11, the claim as stated fails: `--pred-size 50` (a value above 1, read by `strtod` as 50)
returns `cfg_ok` and leaves `pred_size == 0.5` in the configuration, not the unscaled count 50;
likewise `--pred-initial-size 50`. -/
theorem pred_size_above_one_is_divided :
    (config_load_args libc_example 256 false [⟨'S', "50"⟩] config_example).1
      = config_return.cfg_ok ∧
    (config_load_args libc_example 256 false [⟨'S', "50"⟩] config_example).2.pred_size = 1 / 2 ∧
    (config_load_args libc_example 256 false [⟨'S', "50"⟩] config_example).2.pred_size ≠ 50 ∧
    (config_load_args libc_example 256 false [⟨'I', "50"⟩]
      config_example).2.pred_initial_size = 1 / 2 ∧
    (config_load_args libc_example 256 false [⟨'I', "50"⟩]
      config_example).2.pred_initial_size ≠ 50 := by
  have hv : (libc_example.strtod "50").value = 50 := rfl
  have hS := config_load_args_single libc_example 256 false ⟨'S', "50"⟩ config_example _
    (config_option_pred_size libc_example 256 _ "50" (libc_example_accepts_50 _))
  have hI := config_load_args_single libc_example 256 false ⟨'I', "50"⟩ config_example _
    (config_option_pred_initial_size libc_example 256 _ "50" (libc_example_accepts_50 _))
  rw [hS, hI]
  simp only [hv]
  norm_num

/-- C11 as amended.  When the predictor max length (`--pred-size`, option `S`) or initial
length (`--pred-initial-size`, option `I`) is given as a value `v` that `PARSE_DOUBLE` accepts,
`config_load_args` stores `v` unchanged (a fraction of the domain size) when `v <= 1` and
stores `v / 100` (the value read as a percentage) when `v > 1`: at any point of the option
loop, and with `cfg_ok` returned for a command line holding just this option. -/
theorem pred_size_fraction_or_percent (libc : libc_t) (max_filename_length : Int)
    (st : config_state) (optarg : String)
    (hok : parse_reports_error (libc.strtod optarg) optarg
      (st.errno_erange || (libc.strtod optarg).erange) = false) :
    (∃ st1, config_option libc max_filename_length st ⟨'S', optarg⟩ = config_step.next st1 ∧
      ((libc.strtod optarg).value ≤ 1 → st1.cfg.pred_size = (libc.strtod optarg).value) ∧
      (1 < (libc.strtod optarg).value →
        st1.cfg.pred_size = (libc.strtod optarg).value / 100) ∧
      config_load_args libc max_filename_length st.errno_erange [⟨'S', optarg⟩] st.cfg
        = (config_return.cfg_ok, st1.cfg)) ∧
    (∃ st1, config_option libc max_filename_length st ⟨'I', optarg⟩ = config_step.next st1 ∧
      ((libc.strtod optarg).value ≤ 1 →
        st1.cfg.pred_initial_size = (libc.strtod optarg).value) ∧
      (1 < (libc.strtod optarg).value →
        st1.cfg.pred_initial_size = (libc.strtod optarg).value / 100) ∧
      config_load_args libc max_filename_length st.errno_erange [⟨'I', optarg⟩] st.cfg
        = (config_return.cfg_ok, st1.cfg)) := by
  constructor
  · refine ⟨_, config_option_pred_size libc max_filename_length st optarg hok, ?_, ?_, ?_⟩
    · intro hv
      simp only [not_lt.2 hv, if_false]
    · intro hv
      simp only [hv, if_true]
    · rw [config_load_args_single libc max_filename_length st.errno_erange _ st.cfg _
        (config_option_pred_size libc max_filename_length _ optarg hok)]
  · refine ⟨_, config_option_pred_initial_size libc max_filename_length st optarg hok,
      ?_, ?_, ?_⟩
    · intro hv
      simp only [not_lt.2 hv, if_false]
    · intro hv
      simp only [hv, if_true]
    · rw [config_load_args_single libc max_filename_length st.errno_erange _ st.cfg _
        (config_option_pred_initial_size libc max_filename_length _ optarg hok)]

theorem pred_size_fraction_or_percent_witness :
    parse_reports_error (libc_example.strtod "50") "50"
      (false || (libc_example.strtod "50").erange) = false ∧
    ∃ st1, config_option libc_example 256
        { cfg := config_example, algorithm_specified := false, pred_type_specified := false,
          errno_erange := false } ⟨'S', "50"⟩ = config_step.next st1 ∧
      ((libc_example.strtod "50").value ≤ 1 →
        st1.cfg.pred_size = (libc_example.strtod "50").value) ∧
      (1 < (libc_example.strtod "50").value →
        st1.cfg.pred_size = (libc_example.strtod "50").value / 100) ∧
      config_load_args libc_example 256 false [⟨'S', "50"⟩] config_example
        = (config_return.cfg_ok, st1.cfg) :=
  ⟨libc_example_accepts_50 _,
    (pred_size_fraction_or_percent libc_example 256
      { cfg := config_example, algorithm_specified := false, pred_type_specified := false,
        errno_erange := false } "50" (libc_example_accepts_50 _)).1⟩



/-! ## Configuration: arguments that are not numbers -/

theorem parse_reports_error_unconverted {α : Type} (r : strto_result α) (optarg : String)
    (e : Bool) (h : r.endptr = 0) : parse_reports_error r optarg e = false := by
  simp [parse_reports_error, h]

/-- C22, the claim fails in the code: an argument of which the conversion consumes nothing
(`endptr == optarg`, as for "abc" and for the empty string) is not reported by `PARSE_INT`,
`PARSE_UNSIGNED_INT` or `PARSE_DOUBLE`, since their test requires `endptr != optarg`:
`--max-generations abc`, `--random-seed abc`, `--pred-mutate abc` and the same options
with an empty argument all return `cfg_ok`, with the value 0 stored. -/
theorem parse_accepts_unconverted_argument :
    config_load_args libc_example 256 false [⟨'g', "abc"⟩] config_example
      = (config_return.cfg_ok, { config_example with max_generations := 0 }) ∧
    config_load_args libc_example 256 false [⟨'r', "abc"⟩] config_example
      = (config_return.cfg_ok, { config_example with random_seed := 0 }) ∧
    config_load_args libc_example 256 false [⟨'M', "abc"⟩] config_example
      = (config_return.cfg_ok, { config_example with pred_mutation_rate := 0 }) ∧
    config_load_args libc_example 256 false [⟨'g', ""⟩] config_example
      = (config_return.cfg_ok, { config_example with max_generations := 0 }) ∧
    config_load_args libc_example 256 false [⟨'r', ""⟩] config_example
      = (config_return.cfg_ok, { config_example with random_seed := 0 }) ∧
    config_load_args libc_example 256 false [⟨'M', ""⟩] config_example
      = (config_return.cfg_ok, { config_example with pred_mutation_rate := 0 }) := by
  have hl : ∀ s : String, s ≠ "50" → (libc_example.strtol s) = ⟨0, 0, false⟩ := by
    intro s hs; simp [libc_example, hs]
  have hu : ∀ s : String, s ≠ "50" → (libc_example.strtoul s) = ⟨0, 0, false⟩ := by
    intro s hs; simp [libc_example, hs]
  have hd : ∀ s : String, s ≠ "50" → s ≠ "0.5" → (libc_example.strtod s) = ⟨0, 0, false⟩ := by
    intro s hs hs2; simp [libc_example, hs, hs2]
  have a1 : ("abc" : String) ≠ "50" := by decide
  have a2 : ("abc" : String) ≠ "0.5" := by decide
  have b1 : ("" : String) ≠ "50" := by decide
  have b2 : ("" : String) ≠ "0.5" := by decide
  refine ⟨?_, ?_, ?_, ?_, ?_, ?_⟩
  · simp [config_load_args, config_loop, config_option, PARSE_INT, parse_reports_error, hl _ a1]
  · simp [config_load_args, config_loop, config_option, PARSE_UNSIGNED_INT,
      parse_reports_error, hu _ a1]
  · simp [config_load_args, config_loop, config_option, PARSE_DOUBLE, parse_reports_error,
      hd _ a1 a2]
  · simp [config_load_args, config_loop, config_option, PARSE_INT, parse_reports_error, hl _ b1]
  · simp [config_load_args, config_loop, config_option, PARSE_UNSIGNED_INT,
      parse_reports_error, hu _ b1]
  · simp [config_load_args, config_loop, config_option, PARSE_DOUBLE, parse_reports_error,
      hd _ b1 b2]

/-! ## Configuration: `--algorithm baldwin` with `--pred-type permuted` -/

theorem PARSE_INT_frame (libc : libc_t) (st st1 : config_state) (optarg : String)
    (set : config_t → Int → config_t)
    (h : PARSE_INT libc st optarg set = config_step.next st1)
    (hset : ∀ c v, (set c v).algorithm = c.algorithm ∧
      (set c v).pred_genome_type = c.pred_genome_type) : config_frame st st1 := by
  unfold PARSE_INT at h
  simp only [] at h
  split at h
  · cases h
  · cases h
    exact ⟨rfl, rfl, (hset _ _).1, (hset _ _).2⟩

theorem PARSE_UNSIGNED_INT_frame (libc : libc_t) (st st1 : config_state) (optarg : String)
    (set : config_t → Nat → config_t)
    (h : PARSE_UNSIGNED_INT libc st optarg set = config_step.next st1)
    (hset : ∀ c v, (set c v).algorithm = c.algorithm ∧
      (set c v).pred_genome_type = c.pred_genome_type) :
    config_frame st st1 := by
  unfold PARSE_UNSIGNED_INT at h
  simp only [] at h
  split at h
  · cases h
  · cases h
    exact ⟨rfl, rfl, (hset _ _).1, (hset _ _).2⟩

theorem PARSE_DOUBLE_frame (libc : libc_t) (st st1 : config_state) (optarg : String)
    (set : config_t → ℚ → config_t) (after : config_t → config_t)
    (h : PARSE_DOUBLE libc st optarg set after = config_step.next st1)
    (hset : ∀ c v, (set c v).algorithm = c.algorithm ∧
      (set c v).pred_genome_type = c.pred_genome_type)
    (hafter : ∀ c, (after c).algorithm = c.algorithm ∧
      (after c).pred_genome_type = c.pred_genome_type) :
    config_frame st st1 := by
  unfold PARSE_DOUBLE at h
  simp only [] at h
  split at h
  · cases h
  · cases h
    exact ⟨rfl, rfl, ((hafter _).1).trans (hset _ _).1, ((hafter _).2).trans (hset _ _).2⟩

theorem copy_filename_frame (max_filename_length : Int) (st st1 : config_state)
    (optarg : String) (set : config_t → String → config_t)
    (h : copy_filename max_filename_length st optarg set = config_step.next st1)
    (hset : ∀ c v, (set c v).algorithm = c.algorithm ∧
      (set c v).pred_genome_type = c.pred_genome_type) :
    config_frame st st1 := by
  unfold copy_filename at h
  split at h
  · cases h
  · cases h
    exact ⟨rfl, rfl, (hset _ _).1, (hset _ _).2⟩

theorem config_option_frame (libc : libc_t) (max_filename_length : Int)
    (st st1 : config_state) (item : getopt_item) (ha : item.c ≠ 'a') (hT : item.c ≠ 'T')
    (h : config_option libc max_filename_length st item = config_step.next st1) :
    config_frame st st1 := by
  unfold config_option at h
  by_cases c_h : item.c = 'h'
  · rw [if_pos c_h] at h
    cases h
  rw [if_neg c_h] at h
  by_cases c_g : item.c = 'g'
  · rw [if_pos c_g] at h
    exact PARSE_INT_frame _ _ _ _ _ h (fun _ _ => ⟨rfl, rfl⟩)
  rw [if_neg c_g] at h
  by_cases c_t : item.c = 't'
  · rw [if_pos c_t] at h
    dsimp only at h
    split at h
    · cases h
    · cases h
      exact ⟨rfl, rfl, rfl, rfl⟩
  rw [if_neg c_t] at h
  by_cases c_f : item.c = 'f'
  · rw [if_pos c_f] at h
    exact PARSE_DOUBLE_frame _ _ _ _ _ _ h (fun _ _ => ⟨rfl, rfl⟩) (fun _ => ⟨rfl, rfl⟩)
  rw [if_neg c_f] at h
  rw [if_neg ha] at h
  by_cases c_r : item.c = 'r'
  · rw [if_pos c_r] at h
    exact PARSE_UNSIGNED_INT_frame _ _ _ _ _ h (fun _ _ => ⟨rfl, rfl⟩)
  rw [if_neg c_r] at h
  by_cases c_i : item.c = 'i'
  · rw [if_pos c_i] at h
    exact copy_filename_frame _ _ _ _ _ h (fun _ _ => ⟨rfl, rfl⟩)
  rw [if_neg c_i] at h
  by_cases c_n : item.c = 'n'
  · rw [if_pos c_n] at h
    exact copy_filename_frame _ _ _ _ _ h (fun _ _ => ⟨rfl, rfl⟩)
  rw [if_neg c_n] at h
  by_cases c_v : item.c = 'v'
  · rw [if_pos c_v] at h
    cases h
    exact ⟨rfl, rfl, rfl, rfl⟩
  rw [if_neg c_v] at h
  by_cases c_w : item.c = 'w'
  · rw [if_pos c_w] at h
    exact PARSE_INT_frame _ _ _ _ _ h (fun _ _ => ⟨rfl, rfl⟩)
  rw [if_neg c_w] at h
  by_cases c_k : item.c = 'k'
  · rw [if_pos c_k] at h
    exact PARSE_INT_frame _ _ _ _ _ h (fun _ _ => ⟨rfl, rfl⟩)
  rw [if_neg c_k] at h
  by_cases c_l : item.c = 'l'
  · rw [if_pos c_l] at h
    exact copy_filename_frame _ _ _ _ _ h (fun _ _ => ⟨rfl, rfl⟩)
  rw [if_neg c_l] at h
  by_cases c_m : item.c = 'm'
  · rw [if_pos c_m] at h
    exact PARSE_INT_frame _ _ _ _ _ h (fun _ _ => ⟨rfl, rfl⟩)
  rw [if_neg c_m] at h
  by_cases c_p : item.c = 'p'
  · rw [if_pos c_p] at h
    exact PARSE_INT_frame _ _ _ _ _ h (fun _ _ => ⟨rfl, rfl⟩)
  rw [if_neg c_p] at h
  by_cases c_s : item.c = 's'
  · rw [if_pos c_s] at h
    exact PARSE_INT_frame _ _ _ _ _ h (fun _ _ => ⟨rfl, rfl⟩)
  rw [if_neg c_s] at h
  by_cases c_uS : item.c = 'S'
  · rw [if_pos c_uS] at h
    exact PARSE_DOUBLE_frame _ _ _ _ _ _ h (fun _ _ => ⟨rfl, rfl⟩)
      (fun c => by split <;> exact ⟨rfl, rfl⟩)
  rw [if_neg c_uS] at h
  by_cases c_uI : item.c = 'I'
  · rw [if_pos c_uI] at h
    exact PARSE_DOUBLE_frame _ _ _ _ _ _ h (fun _ _ => ⟨rfl, rfl⟩)
      (fun c => by split <;> exact ⟨rfl, rfl⟩)
  rw [if_neg c_uI] at h
  by_cases c_uM : item.c = 'M'
  · rw [if_pos c_uM] at h
    exact PARSE_DOUBLE_frame _ _ _ _ _ _ h (fun _ _ => ⟨rfl, rfl⟩)
      (fun c => by split <;> exact ⟨rfl, rfl⟩)
  rw [if_neg c_uM] at h
  by_cases c_uP : item.c = 'P'
  · rw [if_pos c_uP] at h
    exact PARSE_INT_frame _ _ _ _ _ h (fun _ _ => ⟨rfl, rfl⟩)
  rw [if_neg c_uP] at h
  rw [if_neg hT] at h
  by_cases c_b : item.c = 'b'
  · rw [if_pos c_b] at h
    exact PARSE_INT_frame _ _ _ _ _ h (fun _ _ => ⟨rfl, rfl⟩)
  rw [if_neg c_b] at h
  cases h

theorem config_option_algorithm_next (libc : libc_t) (max_filename_length : Int)
    (st st1 : config_state) (item : getopt_item) (hc : item.c = 'a')
    (h : config_option libc max_filename_length st item = config_step.next st1) :
    st1.algorithm_specified = true ∧ st1.pred_type_specified = st.pred_type_specified ∧
    st1.cfg.pred_genome_type = st.cfg.pred_genome_type ∧
    (st1.cfg.algorithm = algorithm_t.baldwin →
      ¬ (st.pred_type_specified = true ∧
        st.cfg.pred_genome_type ≠ pred_genome_type_t.repeated)) := by
  unfold config_option at h
  rw [if_neg (show item.c ≠ 'h' by rw [hc]; decide), if_neg (show item.c ≠ 'g' by rw [hc]; decide), if_neg (show item.c ≠ 't' by rw [hc]; decide), if_neg (show item.c ≠ 'f' by rw [hc]; decide), if_pos hc] at h
  split_ifs at h with h1 h2 h3 h4 <;> cases h <;> simp_all

theorem config_option_pred_type_next (libc : libc_t) (max_filename_length : Int)
    (st st1 : config_state) (item : getopt_item) (hc : item.c = 'T')
    (h : config_option libc max_filename_length st item = config_step.next st1) :
    st1.pred_type_specified = true ∧ st1.algorithm_specified = st.algorithm_specified ∧
    st1.cfg.algorithm = st.cfg.algorithm ∧
    (st1.cfg.pred_genome_type = pred_genome_type_t.permuted →
      ¬ (st.algorithm_specified = true ∧ st.cfg.algorithm = algorithm_t.baldwin)) := by
  unfold config_option at h
  rw [if_neg (show item.c ≠ 'h' by rw [hc]; decide), if_neg (show item.c ≠ 'g' by rw [hc]; decide), if_neg (show item.c ≠ 't' by rw [hc]; decide), if_neg (show item.c ≠ 'f' by rw [hc]; decide), if_neg (show item.c ≠ 'a' by rw [hc]; decide), if_neg (show item.c ≠ 'r' by rw [hc]; decide), if_neg (show item.c ≠ 'i' by rw [hc]; decide), if_neg (show item.c ≠ 'n' by rw [hc]; decide), if_neg (show item.c ≠ 'v' by rw [hc]; decide), if_neg (show item.c ≠ 'w' by rw [hc]; decide), if_neg (show item.c ≠ 'k' by rw [hc]; decide), if_neg (show item.c ≠ 'l' by rw [hc]; decide), if_neg (show item.c ≠ 'm' by rw [hc]; decide), if_neg (show item.c ≠ 'p' by rw [hc]; decide), if_neg (show item.c ≠ 's' by rw [hc]; decide), if_neg (show item.c ≠ 'S' by rw [hc]; decide), if_neg (show item.c ≠ 'I' by rw [hc]; decide), if_neg (show item.c ≠ 'M' by rw [hc]; decide), if_neg (show item.c ≠ 'P' by rw [hc]; decide), if_pos hc] at h
  split_ifs at h with h1 h2 h3 <;> cases h <;> simp_all

theorem config_option_next_spec (libc : libc_t) (max_filename_length : Int)
    (st st1 : config_state) (item : getopt_item)
    (h : config_option libc max_filename_length st item = config_step.next st1) :
    (st.algorithm_specified = true → st1.algorithm_specified = true) ∧
    (st.pred_type_specified = true → st1.pred_type_specified = true) ∧
    (item.c = 'a' → st1.algorithm_specified = true) ∧
    (item.c = 'T' → st1.pred_type_specified = true) ∧
    (config_baldwin_permuted_excluded st → config_baldwin_permuted_excluded st1) := by
  unfold config_baldwin_permuted_excluded
  by_cases ha : item.c = 'a'
  · obtain ⟨h1, h2, h3, h4⟩ := config_option_algorithm_next libc max_filename_length st st1 item ha h
    have hT : item.c ≠ 'T' := by rw [ha]; decide
    refine ⟨fun _ => h1, fun hp => by rw [h2]; exact hp, fun _ => h1, fun hc => absurd hc hT, ?_⟩
    intro _ _ hp hcon
    rw [h2] at hp
    apply h4 hcon.1
    refine ⟨hp, ?_⟩
    rw [← h3, hcon.2]
    decide
  · by_cases hT : item.c = 'T'
    · obtain ⟨h1, h2, h3, h4⟩ :=
        config_option_pred_type_next libc max_filename_length st st1 item hT h
      refine ⟨fun hp => by rw [h2]; exact hp, fun _ => h1, fun hc => absurd hc ha, fun _ => h1, ?_⟩
      intro _ hp _ hcon
      rw [h2] at hp
      apply h4 hcon.2
      exact ⟨hp, by rw [← h3]; exact hcon.1⟩
    · obtain ⟨h1, h2, h3, h4⟩ := config_option_frame libc max_filename_length st st1 item ha hT h
      refine ⟨fun hp => by rw [h1]; exact hp, fun hp => by rw [h2]; exact hp,
        fun hc => absurd hc ha, fun hc => absurd hc hT, ?_⟩
      intro hinv hp1 hp2
      rw [h1] at hp1
      rw [h2] at hp2
      rw [h3, h4]
      exact hinv hp1 hp2

theorem PARSE_INT_returns (libc : libc_t) (st : config_state) (optarg : String)
    (set : config_t → Int → config_t) (code : config_return) (cfg : config_t)
    (h : PARSE_INT libc st optarg set = config_step.returns code cfg) :
    code ≠ config_return.cfg_ok := by
  unfold PARSE_INT at h
  dsimp only at h
  split at h <;> cases h
  decide

theorem PARSE_UNSIGNED_INT_returns (libc : libc_t) (st : config_state) (optarg : String)
    (set : config_t → Nat → config_t) (code : config_return) (cfg : config_t)
    (h : PARSE_UNSIGNED_INT libc st optarg set = config_step.returns code cfg) :
    code ≠ config_return.cfg_ok := by
  unfold PARSE_UNSIGNED_INT at h
  dsimp only at h
  split at h <;> cases h
  decide

theorem PARSE_DOUBLE_returns (libc : libc_t) (st : config_state) (optarg : String)
    (set : config_t → ℚ → config_t) (after : config_t → config_t) (code : config_return)
    (cfg : config_t)
    (h : PARSE_DOUBLE libc st optarg set after = config_step.returns code cfg) :
    code ≠ config_return.cfg_ok := by
  unfold PARSE_DOUBLE at h
  dsimp only at h
  split at h <;> cases h
  decide

theorem copy_filename_returns (max_filename_length : Int) (st : config_state)
    (optarg : String) (set : config_t → String → config_t) (code : config_return)
    (cfg : config_t)
    (h : copy_filename max_filename_length st optarg set = config_step.returns code cfg) :
    code ≠ config_return.cfg_ok := by
  unfold copy_filename at h
  split at h <;> cases h
  decide

theorem config_option_returns_not_ok (libc : libc_t) (max_filename_length : Int)
    (st : config_state) (item : getopt_item) (code : config_return) (cfg : config_t)
    (h : config_option libc max_filename_length st item = config_step.returns code cfg) :
    code ≠ config_return.cfg_ok := by
  unfold config_option at h
  by_cases c_h : item.c = 'h'
  · rw [if_pos c_h] at h
    cases h
    decide
  rw [if_neg c_h] at h
  by_cases c_g : item.c = 'g'
  · rw [if_pos c_g] at h
    exact PARSE_INT_returns _ _ _ _ _ _ h
  rw [if_neg c_g] at h
  by_cases c_t : item.c = 't'
  · rw [if_pos c_t] at h
    dsimp only at h
    split at h <;> cases h
    decide
  rw [if_neg c_t] at h
  by_cases c_f : item.c = 'f'
  · rw [if_pos c_f] at h
    exact PARSE_DOUBLE_returns _ _ _ _ _ _ _ h
  rw [if_neg c_f] at h
  by_cases c_a : item.c = 'a'
  · rw [if_pos c_a] at h
    split_ifs at h <;> cases h <;> decide
  rw [if_neg c_a] at h
  by_cases c_r : item.c = 'r'
  · rw [if_pos c_r] at h
    exact PARSE_UNSIGNED_INT_returns _ _ _ _ _ _ h
  rw [if_neg c_r] at h
  by_cases c_i : item.c = 'i'
  · rw [if_pos c_i] at h
    exact copy_filename_returns _ _ _ _ _ _ h
  rw [if_neg c_i] at h
  by_cases c_n : item.c = 'n'
  · rw [if_pos c_n] at h
    exact copy_filename_returns _ _ _ _ _ _ h
  rw [if_neg c_n] at h
  by_cases c_v : item.c = 'v'
  · rw [if_pos c_v] at h
    cases h
  rw [if_neg c_v] at h
  by_cases c_w : item.c = 'w'
  · rw [if_pos c_w] at h
    exact PARSE_INT_returns _ _ _ _ _ _ h
  rw [if_neg c_w] at h
  by_cases c_k : item.c = 'k'
  · rw [if_pos c_k] at h
    exact PARSE_INT_returns _ _ _ _ _ _ h
  rw [if_neg c_k] at h
  by_cases c_l : item.c = 'l'
  · rw [if_pos c_l] at h
    exact copy_filename_returns _ _ _ _ _ _ h
  rw [if_neg c_l] at h
  by_cases c_m : item.c = 'm'
  · rw [if_pos c_m] at h
    exact PARSE_INT_returns _ _ _ _ _ _ h
  rw [if_neg c_m] at h
  by_cases c_p : item.c = 'p'
  · rw [if_pos c_p] at h
    exact PARSE_INT_returns _ _ _ _ _ _ h
  rw [if_neg c_p] at h
  by_cases c_s : item.c = 's'
  · rw [if_pos c_s] at h
    exact PARSE_INT_returns _ _ _ _ _ _ h
  rw [if_neg c_s] at h
  by_cases c_uS : item.c = 'S'
  · rw [if_pos c_uS] at h
    exact PARSE_DOUBLE_returns _ _ _ _ _ _ _ h
  rw [if_neg c_uS] at h
  by_cases c_uI : item.c = 'I'
  · rw [if_pos c_uI] at h
    exact PARSE_DOUBLE_returns _ _ _ _ _ _ _ h
  rw [if_neg c_uI] at h
  by_cases c_uM : item.c = 'M'
  · rw [if_pos c_uM] at h
    exact PARSE_DOUBLE_returns _ _ _ _ _ _ _ h
  rw [if_neg c_uM] at h
  by_cases c_uP : item.c = 'P'
  · rw [if_pos c_uP] at h
    exact PARSE_INT_returns _ _ _ _ _ _ h
  rw [if_neg c_uP] at h
  by_cases c_uT : item.c = 'T'
  · rw [if_pos c_uT] at h
    split_ifs at h <;> cases h <;> decide
  rw [if_neg c_uT] at h
  by_cases c_b : item.c = 'b'
  · rw [if_pos c_b] at h
    exact PARSE_INT_returns _ _ _ _ _ _ h
  rw [if_neg c_b] at h
  cases h
  decide

theorem config_loop_excluded (libc : libc_t) (max_filename_length : Int) :
    ∀ (items : List getopt_item) (st : config_state), config_baldwin_permuted_excluded st →
      (config_loop libc max_filename_length st items).1 = config_return.cfg_ok →
      (st.algorithm_specified = true ∨ ∃ it ∈ items, it.c = 'a') →
      (st.pred_type_specified = true ∨ ∃ it ∈ items, it.c = 'T') →
      ¬ ((config_loop libc max_filename_length st items).2.algorithm = algorithm_t.baldwin ∧
        (config_loop libc max_filename_length st items).2.pred_genome_type
          = pred_genome_type_t.permuted) := by
  intro items
  induction items with
  | nil =>
    intro st hinv _ ha hT
    rcases ha with ha | ⟨it, hit, _⟩
    · rcases hT with hT | ⟨it, hit, _⟩
      · exact hinv ha hT
      · cases hit
    · cases hit
  | cons item rest ih =>
    intro st hinv hok ha hT
    unfold config_loop at hok ⊢
    cases hstep : config_option libc max_filename_length st item with
    | returns code cfg =>
      rw [hstep] at hok
      exact absurd hok (config_option_returns_not_ok libc max_filename_length st item code cfg hstep)
    | next st1 =>
      rw [hstep] at hok
      obtain ⟨h1, h2, h3, h4, h5⟩ :=
        config_option_next_spec libc max_filename_length st st1 item hstep
      refine ih st1 (h5 hinv) hok ?_ ?_
      · rcases ha with ha | ⟨it, hit, hc⟩
        · exact Or.inl (h1 ha)
        · rcases List.mem_cons.1 hit with e | e
          · subst e; exact Or.inl (h3 hc)
          · exact Or.inr ⟨it, e, hc⟩
      · rcases hT with hT | ⟨it, hit, hc⟩
        · exact Or.inl (h2 hT)
        · rcases List.mem_cons.1 hit with e | e
          · subst e; exact Or.inl (h4 hc)
          · exact Or.inr ⟨it, e, hc⟩

/-- C27. For every sequence of options in which both `--algorithm` (option `a`) and
`--pred-type` (option `T`) occur, `config_load_args` does not return `cfg_ok` with a
configuration that holds `algorithm == baldwin` together with `pred_genome_type == permuted`.
At any point of the option loop, `--algorithm baldwin` after a `--pred-type` that left
`permuted`, and `--pred-type permuted` after an `--algorithm` that left `baldwin`, return
`cfg_err` at that option. -/
theorem baldwin_permuted_rejected (libc : libc_t) (max_filename_length : Int)
    (errno_erange : Bool) (items : List getopt_item) (cfg : config_t)
    (ha : ∃ it ∈ items, it.c = 'a') (hT : ∃ it ∈ items, it.c = 'T') :
    ((config_load_args libc max_filename_length errno_erange items cfg).1
        = config_return.cfg_ok →
      ¬ ((config_load_args libc max_filename_length errno_erange items cfg).2.algorithm
          = algorithm_t.baldwin ∧
        (config_load_args libc max_filename_length errno_erange items cfg).2.pred_genome_type
          = pred_genome_type_t.permuted)) ∧
    (∀ (st : config_state) (rest : List getopt_item), st.pred_type_specified = true →
      st.cfg.pred_genome_type = pred_genome_type_t.permuted →
      config_loop libc max_filename_length st (⟨'a', "baldwin"⟩ :: rest)
        = (config_return.cfg_err, { st.cfg with algorithm := algorithm_t.baldwin })) ∧
    (∀ (st : config_state) (rest : List getopt_item), st.algorithm_specified = true →
      st.cfg.algorithm = algorithm_t.baldwin →
      config_loop libc max_filename_length st (⟨'T', "permuted"⟩ :: rest)
        = (config_return.cfg_err,
            { st.cfg with pred_genome_type := pred_genome_type_t.permuted })) := by
  refine ⟨?_, ?_, ?_⟩
  · intro hok
    unfold config_load_args at hok ⊢
    exact config_loop_excluded libc max_filename_length items _
      (fun h _ => by cases h) hok (Or.inr ha) (Or.inr hT)
  · intro st rest h1 h2
    simp [config_loop, config_option, h1, h2]
  · intro st rest h1 h2
    simp [config_loop, config_option, h1, h2]

theorem baldwin_permuted_rejected_witness :
    (config_load_args libc_example 256 false [⟨'a', "baldwin"⟩, ⟨'T', "repeated"⟩]
      config_example).1 = config_return.cfg_ok ∧
    ((config_load_args libc_example 256 false [⟨'a', "baldwin"⟩, ⟨'T', "repeated"⟩]
        config_example).1 = config_return.cfg_ok →
      ¬ ((config_load_args libc_example 256 false [⟨'a', "baldwin"⟩, ⟨'T', "repeated"⟩]
          config_example).2.algorithm = algorithm_t.baldwin ∧
        (config_load_args libc_example 256 false [⟨'a', "baldwin"⟩, ⟨'T', "repeated"⟩]
          config_example).2.pred_genome_type = pred_genome_type_t.permuted)) :=
  ⟨by simp [config_load_args, config_loop, config_option],
    (baldwin_permuted_rejected libc_example 256 false
      [⟨'a', "baldwin"⟩, ⟨'T', "repeated"⟩] config_example
      ⟨⟨'a', "baldwin"⟩, by simp, rfl⟩ ⟨⟨'T', "repeated"⟩, by simp, rfl⟩).1⟩

end Coco
